import Mathlib

/-!
# Hotel booking platform: booking orchestration and payment settlement

A shallow embedding of the booking use case
(`internal/booking/usecase/booking_usecase.go`), of the payment simulator
(`internal/payment/service/payment.go`), of the notification dispatcher
(`internal/notification/service/notification_service.go`), of the hotel price client
(`pkg/hotelclient`), the event consumer (`pkg/kafka`), the delivery service
(`internal/delivery/service`) and the hotel use case (`internal/hotel/usecase`),
followed by theorems about them.

Conventions of the embedding.

* Collaborators reached through Go interfaces (hotel client, booking store,
  payment client, message producer, HTTP transport) are records of functions;
  every call a use case makes is appended to an explicit call trace.
* `error` values are identified with their message; `nil` is `none`.
* `float64` is modelled value-wise: a finite value is the rational it denotes,
  every arithmetic operation rounds the exact result to the nearest binary64
  value (ties to even). The sign of zero is not represented.
* `time.Time` is an instant counted in nanoseconds, `time.Duration` an `int64`
  count of nanoseconds.
-/

namespace HotelBooking

/-! ## float64 -/

/-- Values of Go's `float64`. -/
inductive F64 where
  | finite (q : ℚ)
  | posInf
  | negInf
  | nan
  deriving DecidableEq

namespace F64

/-- Nearest integer, ties to the even one. -/
def roundHalfEven (x : ℚ) : Int :=
  let f := ⌊x⌋
  let r := x - f
  if r < 1 / 2 then f else if 1 / 2 < r then f + 1 else if f % 2 = 0 then f else f + 1

/-- Spacing of binary64 values around `x`: 52 fraction bits below the leading bit,
the exponent never below the subnormal one. -/
def ulp (x : ℚ) : ℚ := (2 : ℚ) ^ (max (Int.log 2 |x|) (-1022) - 52)

/-- Rounding of a rational to the binary64 grid, exponent range unbounded above. -/
def rndQ (x : ℚ) : ℚ :=
  if x = 0 then 0 else (roundHalfEven (x / ulp x) : ℚ) * ulp x

/-- IEEE 754 round-to-nearest-even of an exact result, overflowing to an infinity. -/
def round (x : ℚ) : F64 :=
  let y := rndQ x
  if (2 : ℚ) ^ (1024 : ℕ) ≤ y then posInf
  else if y ≤ -(2 : ℚ) ^ (1024 : ℕ) then negInf
  else finite y

/-- Conversion `float64(n)` of an integer. -/
def ofInt (n : Int) : F64 := round n

/-- Go's `x + y` on `float64`. -/
def add : F64 → F64 → F64
  | finite a, finite b => round (a + b)
  | nan, _ => nan
  | _, nan => nan
  | posInf, negInf => nan
  | negInf, posInf => nan
  | posInf, _ => posInf
  | _, posInf => posInf
  | negInf, _ => negInf
  | _, negInf => negInf

/-- Go's `x * y` on `float64`. -/
def mul : F64 → F64 → F64
  | finite a, finite b => round (a * b)
  | nan, _ => nan
  | _, nan => nan
  | finite a, posInf => if a = 0 then nan else if 0 < a then posInf else negInf
  | finite a, negInf => if a = 0 then nan else if 0 < a then negInf else posInf
  | posInf, finite b => if b = 0 then nan else if 0 < b then posInf else negInf
  | negInf, finite b => if b = 0 then nan else if 0 < b then negInf else posInf
  | posInf, posInf => posInf
  | negInf, negInf => posInf
  | posInf, negInf => negInf
  | negInf, posInf => negInf

/-- Go's `x / y` on `float64` (a zero divisor counts as positive zero). -/
def div : F64 → F64 → F64
  | finite a, finite b =>
    if b = 0 then (if a = 0 then nan else if 0 < a then posInf else negInf)
    else round (a / b)
  | nan, _ => nan
  | _, nan => nan
  | finite _, posInf => finite 0
  | finite _, negInf => finite 0
  | posInf, finite b => if 0 ≤ b then posInf else negInf
  | negInf, finite b => if 0 ≤ b then negInf else posInf
  | posInf, posInf => nan
  | posInf, negInf => nan
  | negInf, posInf => nan
  | negInf, negInf => nan

/-- Go's `x <= y` on `float64`: false as soon as one side is NaN. -/
def le : F64 → F64 → Bool
  | finite a, finite b => decide (a ≤ b)
  | nan, _ => false
  | _, nan => false
  | negInf, _ => true
  | _, posInf => true
  | posInf, _ => false
  | _, negInf => false

/-- Go's `x < y` on `float64`: false as soon as one side is NaN. -/
def lt : F64 → F64 → Bool
  | finite a, finite b => decide (a < b)
  | nan, _ => false
  | _, nan => false
  | posInf, _ => false
  | _, negInf => false
  | negInf, _ => true
  | _, posInf => true

/-- Conversion `int(x)`: the fraction is discarded. Outside the `int64` range, and
for infinities and NaN, the result is the one of amd64 (the smallest `int64`). -/
def toInt : F64 → Int
  | finite q =>
    let t := if 0 ≤ q then ⌊q⌋ else ⌈q⌉
    if -(2 : Int) ^ 63 ≤ t ∧ t < (2 : Int) ^ 63 then t else -(2 : Int) ^ 63
  | _ => -(2 : Int) ^ 63

/-- A value of the type is a binary64 number: a finite one is a point of the binary64
grid within the exponent range, that is, rounding leaves it unchanged. -/
def IsValue : F64 → Prop
  | finite q => round q = finite q
  | _ => True

end F64

/-! ## time -/

/-- Largest `time.Duration`; a `Duration` is an `int64` count of nanoseconds. -/
def maxDuration : Int := 2 ^ 63 - 1

/-- Smallest `time.Duration`. -/
def minDuration : Int := -(2 ^ 63)

/-- The constant `time.Hour`. -/
def Hour : Int := 3600000000000

/-- Method `Duration.Hours`: the duration as a floating-point number of hours. -/
def Duration.Hours (d : Int) : F64 :=
  let hour := Int.tdiv d Hour
  let nsec := Int.tmod d Hour
  F64.add (F64.ofInt hour) (F64.div (F64.ofInt nsec) (F64.finite 3600000000000))

/-- Go's `time.Time`, as the instant it denotes. -/
structure Time where
  unixNano : Int
  deriving DecidableEq

/-- Method `t.After(u)`. -/
def Time.After (t u : Time) : Bool := decide (u.unixNano < t.unixNano)

/-- Method `t.Sub(u)`: the difference, saturated to the range of `Duration`. -/
def Time.Sub (t u : Time) : Int :=
  let d := t.unixNano - u.unixNano
  if maxDuration < d then maxDuration else if d < minDuration then minDuration else d

/-! ## strings: `strings.EqualFold` -/

/-- Go's `error`, identified with its message. -/
abbrev GoError := String

/-- Table `asciiFold` of package `unicode`: the next rune of the case-folding orbit
of an ASCII rune (`k` and `s` continue with the Kelvin sign and the long s). -/
def asciiFold (r : Char) : Char :=
  if r.toNat = 107 then Char.ofNat 0x212A
  else if r.toNat = 115 then Char.ofNat 0x017F
  else if 65 ≤ r.toNat ∧ r.toNat ≤ 90 then Char.ofNat (r.toNat + 32)
  else if 97 ≤ r.toNat ∧ r.toNat ≤ 122 then Char.ofNat (r.toNat - 32)
  else r

/-- Function `unicode.SimpleFold`. Below `utf8.RuneSelf` it reads `asciiFold`; the
orbit tables for the other runes are the parameter `caseOrbit`. -/
def SimpleFold (caseOrbit : Char → Char) (r : Char) : Char :=
  if r.toNat < 128 then asciiFold r else caseOrbit r

/-- Number of Unicode code points; an orbit walk that long has revisited a rune. -/
def runeCount : Nat := 1114112

/-- The loop `for r != sr && r < tr { r = unicode.SimpleFold(r) }` of `EqualFold`;
`none` when the walk does not leave the loop. -/
def foldLoop (caseOrbit : Char → Char) (sr tr : Char) : Nat → Char → Option Char
  | 0, r => if r ≠ sr ∧ r < tr then none else some r
  | n + 1, r =>
    if r ≠ sr ∧ r < tr then foldLoop caseOrbit sr tr n (SimpleFold caseOrbit r) else some r

/-- Rune-by-rune comparison of `strings.EqualFold`. -/
def equalFoldRunes (caseOrbit : Char → Char) : List Char → List Char → Option Bool
  | [], [] => some true
  | [], _ :: _ => some false
  | _ :: _, [] => some false
  | s0 :: s, t0 :: t =>
    if t0 = s0 then equalFoldRunes caseOrbit s t
    else
      let sr := if t0 < s0 then t0 else s0
      let tr := if t0 < s0 then s0 else t0
      if tr.toNat < 128 then
        if 65 ≤ sr.toNat ∧ sr.toNat ≤ 90 ∧ tr.toNat = sr.toNat + 32 then
          equalFoldRunes caseOrbit s t
        else some false
      else
        match foldLoop caseOrbit sr tr runeCount (SimpleFold caseOrbit sr) with
        | none => none
        | some r => if r = tr then equalFoldRunes caseOrbit s t else some false

/-- Function `strings.EqualFold(s, t)`; `none` when it does not return. -/
def EqualFold (caseOrbit : Char → Char) (s t : String) : Option Bool :=
  equalFoldRunes caseOrbit s.data t.data

/-! ## booking domain (`internal/booking/domain`) -/

/-- Record `domain.Booking`. -/
structure Booking where
  ID : String
  UserID : String
  HotelID : String
  RoomID : String
  CheckInDate : Time
  CheckOutDate : Time
  TotalPrice : F64
  Status : String
  PaymentStatus : String
  CreatedAt : Time
  UpdatedAt : Time
  deriving DecidableEq

/-- Record `domain.BookingEvent`. -/
structure BookingEvent where
  BookingID : String
  UserID : String
  HotelID : String
  RoomID : String
  CheckInDate : Time
  CheckOutDate : Time
  TotalPrice : F64
  EventType : String
  Timestamp : Time
  deriving DecidableEq

/-- What a store does on `CreateBooking(ctx, booking)`: the two timestamps it leaves
in the record behind the pointer (the Postgres store scans `created_at` and
`updated_at` into it) and the error it returns. -/
structure StoreWrite where
  CreatedAt : Time
  UpdatedAt : Time
  err : Option GoError

/-- Interface `domain.BookingRepository`. -/
structure BookingRepository where
  CreateBooking : Booking → StoreWrite
  GetBookingByID : String → Option Booking × Option GoError
  GetBookingsByUser : String → List Booking × Option GoError
  GetBookingsByHotel : String → List Booking × Option GoError
  UpdateBookingStatus : String → String → Option GoError
  UpdatePaymentStatus : String → String → Option GoError

/-- Interface `usecase.HotelClient`. -/
structure HotelClient where
  GetRoomPrice : String → String → Except GoError F64

/-- Interface `usecase.MessageProducer`. -/
structure MessageProducer where
  SendMessage : String → BookingEvent → Option GoError

/-- Interface `usecase.PaymentClient`. -/
structure PaymentClient where
  CreatePayment : String → F64 → Option GoError

/-- Record `usecase.BookingUseCase`; a nil payment client is `none`. -/
structure BookingUseCase where
  repo : BookingRepository
  hotelClient : HotelClient
  producer : MessageProducer
  paymentClient : Option PaymentClient

/-- A collaborator call made by the booking use case. -/
inductive Call where
  | GetRoomPrice (hotelID roomID : String)
  | RepoCreateBooking (booking : Booking)
  | RepoGetBookingByID (id : String)
  | RepoGetBookingsByUser (userID : String)
  | RepoGetBookingsByHotel (hotelID : String)
  | RepoUpdatePaymentStatus (id paymentStatus : String)
  | CreatePayment (bookingID : String) (amount : F64)
  | SendMessage (key : String) (value : BookingEvent)
  deriving DecidableEq

/-- Identifier of package `github.com/google/uuid`: sixteen bytes. -/
structure UUID where
  bytes : Fin 16 → Fin 256

/-- Lower-case hexadecimal digit. -/
def hexDigit (n : Nat) : Char :=
  if n % 16 < 10 then Char.ofNat (48 + n % 16) else Char.ofNat (87 + n % 16)

/-- Two hexadecimal digits of a byte. -/
def hexByte (b : Fin 256) : List Char := [hexDigit (b.val / 16), hexDigit b.val]

/-- Method `UUID.String`: the form `xxxxxxxx-xxxx-xxxx-xxxx-xxxxxxxxxxxx`. -/
def UUID.String (u : UUID) : String :=
  String.mk
    (hexByte (u.bytes 0) ++ hexByte (u.bytes 1) ++ hexByte (u.bytes 2) ++ hexByte (u.bytes 3)
      ++ '-' :: hexByte (u.bytes 4) ++ hexByte (u.bytes 5)
      ++ '-' :: hexByte (u.bytes 6) ++ hexByte (u.bytes 7)
      ++ '-' :: hexByte (u.bytes 8) ++ hexByte (u.bytes 9)
      ++ '-' :: hexByte (u.bytes 10) ++ hexByte (u.bytes 11) ++ hexByte (u.bytes 12)
      ++ hexByte (u.bytes 13) ++ hexByte (u.bytes 14) ++ hexByte (u.bytes 15))

/-- What one run reads from its surroundings: the value of `uuid.New()` and the
clock reading of `time.Now()`. -/
structure Runtime where
  newUUID : UUID
  now : Time

/-- Outcome of `CreateBooking`: the record behind the caller's pointer when the
call returns, the returned error and the collaborator calls in order. -/
structure CreateResult where
  booking : Booking
  err : Option GoError
  calls : List Call

/-! ## booking use case (`internal/booking/usecase/booking_usecase.go`) -/

/-- The statement `nights := int(d.Hours() / 24); if nights < 1 { nights = 1 }`. -/
def nightsOf (d : Int) : Int :=
  let nights := F64.toInt (F64.div (Duration.Hours d) (F64.finite 24))
  if nights < 1 then 1 else nights

/-- Method `BookingUseCase.CreateBooking`. -/
def BookingUseCase.CreateBooking (uc : BookingUseCase) (rt : Runtime) (booking : Booking) :
    CreateResult :=
  if booking.CheckInDate.After booking.CheckOutDate then
    ⟨booking, some "check-in date must be before check-out date", []⟩
  else
    match uc.hotelClient.GetRoomPrice booking.HotelID booking.RoomID with
    | .error err => ⟨booking, some err, [.GetRoomPrice booking.HotelID booking.RoomID]⟩
    | .ok pricePerNight =>
      let nights := nightsOf (booking.CheckOutDate.Sub booking.CheckInDate)
      let priced : Booking :=
        { booking with
          TotalPrice := F64.mul pricePerNight (F64.ofInt nights)
          ID := rt.newUUID.String
          Status := "confirmed"
          PaymentStatus := "pending" }
      let w := uc.repo.CreateBooking priced
      let stored : Booking := { priced with CreatedAt := w.CreatedAt, UpdatedAt := w.UpdatedAt }
      let calls1 : List Call :=
        [.GetRoomPrice booking.HotelID booking.RoomID, .RepoCreateBooking priced]
      match w.err with
      | some err => ⟨stored, some err, calls1⟩
      | none =>
        let pay : Option GoError × List Call :=
          match uc.paymentClient with
          | none => (none, [])
          | some pc =>
            (pc.CreatePayment stored.ID stored.TotalPrice,
              [.CreatePayment stored.ID stored.TotalPrice])
        match pay.1 with
        | some err => ⟨stored, some err, calls1 ++ pay.2⟩
        | none =>
          let event : BookingEvent :=
            { BookingID := stored.ID
              UserID := stored.UserID
              HotelID := stored.HotelID
              RoomID := stored.RoomID
              CheckInDate := stored.CheckInDate
              CheckOutDate := stored.CheckOutDate
              TotalPrice := stored.TotalPrice
              EventType := "booking.created"
              Timestamp := rt.now }
          ⟨stored, uc.producer.SendMessage stored.ID event,
            calls1 ++ pay.2 ++ [.SendMessage stored.ID event]⟩

/-- Outcome of `UpdatePaymentStatus`: the returned error and the store calls. -/
structure UpdateResult where
  err : Option GoError
  calls : List Call

/-- The slice `validStatuses` of `UpdatePaymentStatus`. -/
def validStatuses : List String := ["pending", "paid", "failed", "refunded"]

/-- The loop of `UpdatePaymentStatus` over `validStatuses`: the final value of
`found`; `none` when a comparison does not return. -/
def findStatus (caseOrbit : Char → Char) (status : String) : List String → Option Bool
  | [] => some false
  | s :: rest =>
    match EqualFold caseOrbit s status with
    | none => none
    | some true => some true
    | some false => findStatus caseOrbit status rest

/-- Method `BookingUseCase.UpdatePaymentStatus`; `none` when it does not return. -/
def BookingUseCase.UpdatePaymentStatus (uc : BookingUseCase) (caseOrbit : Char → Char)
    (id status : String) : Option UpdateResult :=
  match findStatus caseOrbit status validStatuses with
  | none => none
  | some false => some ⟨some "invalid payment status", []⟩
  | some true =>
    some ⟨uc.repo.UpdatePaymentStatus id status, [.RepoUpdatePaymentStatus id status]⟩

/-! ## payment simulator (`internal/payment`) -/

/-- Record `domain.PaymentRequest`. -/
structure PaymentRequest where
  BookingID : String
  Amount : F64
  Currency : String

/-- Record `domain.PaymentWebhook`. -/
structure PaymentWebhook where
  PaymentID : String
  BookingID : String
  Status : String
  Amount : F64
  ProcessedAt : String

/-- Record `service.PaymentService`. -/
structure PaymentService where
  webhookURL : String

/-- What the payment service reaches outside itself: request construction and the
HTTP round trip of `net/http` (an error, or the status code of the response), the
clock, and the RFC 3339 rendering of an instant. -/
structure PaymentEnv where
  NewRequest : String → String → Option GoError
  Do : String → PaymentWebhook → Except GoError Nat
  now : Time
  formatRFC3339 : Time → String

/-- Function `json.Marshal` on a webhook: it fails exactly on a non-finite amount. -/
def marshalWebhook (webhook : PaymentWebhook) : Option GoError :=
  match webhook.Amount with
  | .finite _ => none
  | .posInf => some "json: unsupported value: +Inf"
  | .negInf => some "json: unsupported value: -Inf"
  | .nan => some "json: unsupported value: NaN"

/-- Outcome of `sendWebhook`: the returned error and the POSTs handed to the
HTTP client, each with its URL. -/
structure SendResult where
  err : Option GoError
  posts : List (String × PaymentWebhook)

/-- Method `PaymentService.sendWebhook`. -/
def PaymentService.sendWebhook (ps : PaymentService) (env : PaymentEnv)
    (webhook : PaymentWebhook) : SendResult :=
  match marshalWebhook webhook with
  | some err => ⟨some ("failed to marshal webhook: " ++ err), []⟩
  | none =>
    match env.NewRequest "POST" ps.webhookURL with
    | some err => ⟨some ("failed to create webhook request: " ++ err), []⟩
    | none =>
      match env.Do ps.webhookURL webhook with
      | .error err => ⟨some ("failed to send webhook: " ++ err), [(ps.webhookURL, webhook)]⟩
      | .ok statusCode =>
        if statusCode ≠ 200 then
          ⟨some ("webhook returned status " ++ toString statusCode), [(ps.webhookURL, webhook)]⟩
        else ⟨none, [(ps.webhookURL, webhook)]⟩

/-- Outcome of `processPaymentAsync`: the webhook it builds, the POSTs made for it,
the error it logs, if any, and the webhooks it hands to `sendWebhook`, in order. -/
structure SettleResult where
  webhook : PaymentWebhook
  posts : List (String × PaymentWebhook)
  logged : Option GoError
  attempts : List PaymentWebhook

/-- Method `PaymentService.processPaymentAsync`, after its fixed sleep. -/
def PaymentService.processPaymentAsync (ps : PaymentService) (env : PaymentEnv)
    (paymentID : String) (req : PaymentRequest) : SettleResult :=
  let status := if F64.le req.Amount (F64.finite 0) then "failed" else "paid"
  let webhook : PaymentWebhook :=
    { PaymentID := paymentID
      BookingID := req.BookingID
      Status := status
      Amount := req.Amount
      ProcessedAt := env.formatRFC3339 env.now }
  let sent := ps.sendWebhook env webhook
  ⟨webhook, sent.posts, sent.err, [webhook]⟩

/-- Record `domain.PaymentResponse`. -/
structure PaymentResponse where
  PaymentID : String
  Status : String
  Message : String

/-- Outcome of `ProcessPayment`: the response and error it returns, and the
settlement tasks it starts with `go`, each with its payment id and request. -/
structure ProcessResult where
  response : PaymentResponse
  err : Option GoError
  spawned : List (String × PaymentRequest)

/-- Method `PaymentService.ProcessPayment`. -/
def PaymentService.ProcessPayment (_ps : PaymentService) (rt : Runtime) (req : PaymentRequest) :
    ProcessResult :=
  let paymentID := rt.newUUID.String
  let response : PaymentResponse :=
    { PaymentID := paymentID
      Status := "processing"
      Message := "payment is being processed" }
  ⟨response, none, [(paymentID, req)]⟩

/-! ## notification dispatcher (`internal/notification/service`) -/

/-- Record `httpclient.SendNotificationRequest`. -/
structure SendNotificationRequest where
  Channel : String
  Recipient : String
  Subject : String
  Message : String
  deriving DecidableEq

namespace Notification

/-- Interface `service.DeliveryClient`. The first argument lists the requests the
client has received earlier in the run, so that its answer may change from one call
to the next. -/
structure DeliveryClient where
  SendNotification : List SendNotificationRequest → SendNotificationRequest → Option GoError

/-- Interface `service.HotelClient` of the notification service. -/
structure HotelClient where
  GetHotelOwnerID : String → Except GoError String

end Notification

/-- Record `service.NotificationService`. -/
structure NotificationService where
  deliveryClient : Notification.DeliveryClient
  hotelClient : Notification.HotelClient

/-- The renderings of package `fmt` the messages rely on: verb `%.2f` on a
`float64` and verb `%v` on a `time.Time`. -/
structure Fmt where
  fixed2 : F64 → String
  value : Time → String

/-- Function `FormatBookingNotificationForClient`. -/
def FormatBookingNotificationForClient (fmt : Fmt) (bookingID hotelID : String)
    (totalPrice : F64) (checkIn checkOut : Time) : String :=
  "Ваше бронирование подтверждено!\n\nID бронирования: " ++ bookingID
    ++ "\nОтель: " ++ hotelID
    ++ "\nСумма: " ++ fmt.fixed2 totalPrice
    ++ " руб.\nДата заезда: " ++ fmt.value checkIn
    ++ "\nДата выезда: " ++ fmt.value checkOut
    ++ "\n\nСпасибо за выбор нашего сервиса!"

/-- Function `FormatBookingNotificationForHotelier`. -/
def FormatBookingNotificationForHotelier (fmt : Fmt) (bookingID userID hotelID : String)
    (totalPrice : F64) (checkIn checkOut : Time) : String :=
  "Новое бронирование в вашем отеле!\n\nID бронирования: " ++ bookingID
    ++ "\nПользователь: " ++ userID
    ++ "\nОтель: " ++ hotelID
    ++ "\nСумма: " ++ fmt.fixed2 totalPrice
    ++ " руб.\nДата заезда: " ++ fmt.value checkIn
    ++ "\nДата выезда: " ++ fmt.value checkOut

/-- A collaborator call made by the notification service. -/
inductive NotifyCall where
  | SendNotification (req : SendNotificationRequest)
  | GetHotelOwnerID (hotelID : String)
  deriving DecidableEq

/-- Outcome of `ProcessBookingEvent`: the returned error, the collaborator calls in
order and the errors logged, each with its log message. -/
structure NotifyResult where
  err : Option GoError
  calls : List NotifyCall
  logged : List (String × GoError)

/-- The request `ProcessBookingEvent` sends for the customer. -/
def clientRequest (fmt : Fmt) (event : BookingEvent) : SendNotificationRequest :=
  { Channel := "email"
    Recipient := event.UserID
    Subject := "Бронирование подтверждено"
    Message := FormatBookingNotificationForClient fmt event.BookingID event.HotelID
      event.TotalPrice event.CheckInDate event.CheckOutDate }

/-- The request `ProcessBookingEvent` sends for the hotel owner `ownerID`. -/
def hotelierRequest (fmt : Fmt) (event : BookingEvent) (ownerID : String) :
    SendNotificationRequest :=
  { Channel := "email"
    Recipient := ownerID
    Subject := "Новое бронирование в вашем отеле"
    Message := FormatBookingNotificationForHotelier fmt event.BookingID event.UserID
      event.HotelID event.TotalPrice event.CheckInDate event.CheckOutDate }

/-- Method `NotificationService.ProcessBookingEvent`. -/
def NotificationService.ProcessBookingEvent (ns : NotificationService) (fmt : Fmt)
    (event : BookingEvent) : NotifyResult :=
  let toClient := clientRequest fmt event
  let logged1 : List (String × GoError) :=
    match ns.deliveryClient.SendNotification [] toClient with
    | some err => [("failed to send notification to client", err)]
    | none => []
  match ns.hotelClient.GetHotelOwnerID event.HotelID with
  | .error err =>
    ⟨none, [.SendNotification toClient, .GetHotelOwnerID event.HotelID],
      logged1 ++ [("failed to get hotel owner ID", err)]⟩
  | .ok ownerID =>
    let toHotelier := hotelierRequest fmt event ownerID
    let logged2 : List (String × GoError) :=
      match ns.deliveryClient.SendNotification [toClient] toHotelier with
      | some err => [("failed to send notification to hotelier", err)]
      | none => []
    ⟨none,
      [.SendNotification toClient, .GetHotelOwnerID event.HotelID, .SendNotification toHotelier],
      logged1 ++ logged2⟩

/-- The notification requests handed to the delivery client, in order. -/
def sentNotifications (calls : List NotifyCall) : List SendNotificationRequest :=
  calls.filterMap fun c => match c with
    | .SendNotification req => some req
    | _ => none

/-- The text `s` occurs in `msg`. -/
def Contains (msg s : String) : Prop := s.data <:+: msg.data

/-! ## reading a call trace -/

/-- The records handed to the store's `CreateBooking`, in order. -/
def storeWrites (calls : List Call) : List Booking :=
  calls.filterMap fun c => match c with
    | .RepoCreateBooking b => some b
    | _ => none

/-- The store calls of every kind, in order. -/
def storeCalls (calls : List Call) : List Call :=
  calls.filter fun c => match c with
    | .RepoCreateBooking _ => true
    | .RepoGetBookingByID _ => true
    | .RepoGetBookingsByUser _ => true
    | .RepoGetBookingsByHotel _ => true
    | .RepoUpdatePaymentStatus _ _ => true
    | _ => false

/-- The payments requested from the payment client: booking id and amount. -/
def paymentRequests (calls : List Call) : List (String × F64) :=
  calls.filterMap fun c => match c with
    | .CreatePayment id amount => some (id, amount)
    | _ => none

/-- The events handed to the producer: message key and event. -/
def publishedEvents (calls : List Call) : List (String × BookingEvent) :=
  calls.filterMap fun c => match c with
    | .SendMessage key ev => some (key, ev)
    | _ => none

/-! ## letter case, as the specification words it -/

/-- Code of the lower-case form of an ASCII capital; any other code is kept. -/
def lowerCode (n : Nat) : Nat := if 65 ≤ n ∧ n ≤ 90 then n + 32 else n

/-- The rune codes of a string with ASCII capitals lowered. -/
def caseKey (s : String) : List Nat := s.data.map fun c => lowerCode c.toNat

/-- Equality of two strings ignoring letter case. -/
def eqIgnoreCase (a b : String) : Prop := caseKey a = caseKey b

instance (a b : String) : Decidable (eqIgnoreCase a b) :=
  inferInstanceAs (Decidable (caseKey a = caseKey b))

/-- A lower-case ASCII letter whose folding orbit is just its two cases
(every one but `k` and `s`). -/
def plainLower (c : Char) : Prop :=
  97 ≤ c.toNat ∧ c.toNat ≤ 122 ∧ c.toNat ≠ 107 ∧ c.toNat ≠ 115

instance : DecidablePred plainLower := fun c =>
  inferInstanceAs (Decidable (97 ≤ c.toNat ∧ c.toNat ≤ 122 ∧ c.toNat ≠ 107 ∧ c.toNat ≠ 115))

/-! ## sample collaborators and inputs -/

/-- A store that accepts every write and every update. -/
def okRepo : BookingRepository where
  CreateBooking := fun b => ⟨b.CreatedAt, b.UpdatedAt, none⟩
  GetBookingByID := fun _ => (none, some "not found")
  GetBookingsByUser := fun _ => ([], none)
  GetBookingsByHotel := fun _ => ([], none)
  UpdateBookingStatus := fun _ _ => none
  UpdatePaymentStatus := fun _ _ => none

/-- A store whose insert fails. -/
def failingRepo : BookingRepository :=
  { okRepo with CreateBooking := fun b => ⟨b.CreatedAt, b.UpdatedAt, some "insert failed"⟩ }

/-- A use case whose room costs `rate` per night, every collaborator succeeding. -/
def okUseCase (rate : ℚ) : BookingUseCase where
  repo := okRepo
  hotelClient := ⟨fun _ _ => .ok (F64.finite rate)⟩
  producer := ⟨fun _ _ => none⟩
  paymentClient := some ⟨fun _ _ => none⟩

/-- A use case whose hotel client does not know the room. -/
def noRoomUseCase : BookingUseCase :=
  { okUseCase 5000 with hotelClient := ⟨fun _ _ => .error "room not found"⟩ }

/-- A use case whose store fails on insert. -/
def failingStoreUseCase : BookingUseCase :=
  { okUseCase 5000 with repo := failingRepo }

/-- A runtime with a fixed identifier and clock. -/
def sampleRuntime : Runtime := ⟨⟨fun i => ⟨17 * i.val, by omega⟩⟩, ⟨0⟩⟩

/-- A booking from instant `checkIn` to instant `checkOut` (nanoseconds). -/
def bookingBetween (checkIn checkOut : Int) : Booking where
  ID := ""
  UserID := "user123"
  HotelID := "hotel123"
  RoomID := "room123"
  CheckInDate := ⟨checkIn⟩
  CheckOutDate := ⟨checkOut⟩
  TotalPrice := F64.finite 0
  Status := ""
  PaymentStatus := ""
  CreatedAt := ⟨0⟩
  UpdatedAt := ⟨0⟩

/-- A stay that ends one nanosecond before its 171st day is over. -/
def stay171DaysLess1ns : Booking := bookingBetween 0 (171 * 24 * Hour - 1)

/-- A stay of 109500 days, about 300 years: longer than the largest `Duration`. -/
def stay300Years : Booking := bookingBetween 0 (109500 * 24 * Hour)

/-- The identity, for orbit tables that fold no rune outside ASCII. -/
def noOrbit : Char → Char := fun r => r

/-- A payment service that calls back the booking service. -/
def samplePaymentService : PaymentService := ⟨"http://booking-service:8080/api/webhooks/payment"⟩

/-- Surroundings in which the webhook is delivered and answered with status 200. -/
def samplePaymentEnv : PaymentEnv where
  NewRequest := fun _ _ => none
  Do := fun _ _ => .ok 200
  now := ⟨0⟩
  formatRFC3339 := fun _ => "1970-01-01T00:00:00Z"

/-! ## booking reads (`internal/booking/usecase/booking_usecase.go`) -/

/-- Outcome of `GetBooking`: the returned pointer (`none` for nil), the returned
error and the collaborator calls. -/
structure GetBookingResult where
  booking : Option Booking
  err : Option GoError
  calls : List Call

/-- Outcome of `GetBookingsByUser` and `GetBookingsByHotel`. -/
structure ListBookingsResult where
  bookings : List Booking
  err : Option GoError
  calls : List Call

/-- Method `BookingUseCase.GetBooking`. -/
def BookingUseCase.GetBooking (uc : BookingUseCase) (id : String) : GetBookingResult :=
  ⟨(uc.repo.GetBookingByID id).1, (uc.repo.GetBookingByID id).2, [.RepoGetBookingByID id]⟩

/-- Method `BookingUseCase.GetBookingsByUser`. -/
def BookingUseCase.GetBookingsByUser (uc : BookingUseCase) (userID : String) :
    ListBookingsResult :=
  ⟨(uc.repo.GetBookingsByUser userID).1, (uc.repo.GetBookingsByUser userID).2,
    [.RepoGetBookingsByUser userID]⟩

/-- Method `BookingUseCase.GetBookingsByHotel`. -/
def BookingUseCase.GetBookingsByHotel (uc : BookingUseCase) (hotelID : String) :
    ListBookingsResult :=
  ⟨(uc.repo.GetBookingsByHotel hotelID).1, (uc.repo.GetBookingsByHotel hotelID).2,
    [.RepoGetBookingsByHotel hotelID]⟩

/-! ## hotel price client (`pkg/hotelclient`) -/

namespace hotelclient

/-- One element of the `rooms` array `GetRoomPrice` decodes. -/
structure Room where
  ID : String
  PricePerNight : F64

/-- Record `hotelclient.HotelClient`. -/
structure HotelClient where
  baseURL : String

/-- What `GetRoomPrice` reaches outside itself: request construction, the round trip
of `http.DefaultClient` (an error, or the status code with the outcome of reading the
body) and `json.Unmarshal` of the body into the room list. -/
structure Env where
  NewRequest : String → String → Option GoError
  Do : String → Except GoError (Nat × Except GoError String)
  Unmarshal : String → Except GoError (List Room)

/-- The loop of `GetRoomPrice` over the rooms: the price returned from inside the
loop, `none` when the loop runs to its end. -/
def findRoom (roomID : String) : List Room → Option F64
  | [] => none
  | room :: rest => if room.ID = roomID then some room.PricePerNight else findRoom roomID rest

/-- Method `HotelClient.GetRoomPrice`: the returned price and error. -/
def HotelClient.GetRoomPrice (c : HotelClient) (env : Env) (hotelID roomID : String) :
    F64 × Option GoError :=
  let url := c.baseURL ++ "/api/hotels/" ++ hotelID ++ "/rooms"
  match env.NewRequest "GET" url with
  | some err => (F64.finite 0, some err)
  | none =>
    match env.Do url with
    | .error err => (F64.finite 0, some err)
    | .ok (_, .error err) => (F64.finite 0, some err)
    | .ok (statusCode, .ok body) =>
      if statusCode ≠ 200 then
        (F64.finite 0,
          some ("hotel service returned status " ++ toString statusCode ++ ": " ++ body))
      else
        match env.Unmarshal body with
        | .error err => (F64.finite 0, some ("failed to parse hotel service response: " ++ err))
        | .ok rooms =>
          match findRoom roomID rooms with
          | some price => (price, none)
          | none =>
            (F64.finite 0, some ("room " ++ roomID ++ " not found in hotel " ++ hotelID))

end hotelclient

/-! ## event consumer (`pkg/kafka/consumer.go`) -/

namespace kafka

/-- A message of `kafka-go`, with the fields the consumer reads. -/
structure Message where
  Offset : Int
  Value : List UInt8

/-- Record `kafka.Consumer`. Its reader is the function giving the outcome of each
`reader.ReadMessage`, by the number of reads made before. -/
structure Consumer where
  reader : Nat → Except GoError Message

/-- Outcome of `Consumer.ReadMessage`: the returned error, the payloads handed to the
handler in order, and the handler errors logged. -/
structure ReadResult where
  err : GoError
  handled : List (List UInt8)
  logged : List GoError

/-- The `for` loop of `Consumer.ReadMessage` after `n` reads; the handler is given the
payloads it has already received. `none` when the loop is still running after `fuel`
reads. -/
def Consumer.readLoop (c : Consumer) (handler : List (List UInt8) → List UInt8 → Option GoError) :
    Nat → Nat → List (List UInt8) → List GoError → Option ReadResult
  | 0, _, _, _ => none
  | fuel + 1, n, handled, logged =>
    match c.reader n with
    | .error err => some ⟨err, handled, logged⟩
    | .ok msg =>
      match handler handled msg.Value with
      | some err => Consumer.readLoop c handler fuel (n + 1) (handled ++ [msg.Value]) (logged ++ [err])
      | none => Consumer.readLoop c handler fuel (n + 1) (handled ++ [msg.Value]) logged

/-- Method `Consumer.ReadMessage`; `none` when it has not returned after `fuel`
reads. -/
def Consumer.ReadMessage (c : Consumer) (handler : List (List UInt8) → List UInt8 → Option GoError)
    (fuel : Nat) : Option ReadResult :=
  Consumer.readLoop c handler fuel 0 [] []

end kafka

/-! ## delivery service (`internal/delivery`) -/

namespace Delivery

/-- Record `domain.SendNotificationRequest` of the delivery service. -/
structure SendNotificationRequest where
  Channel : String
  Recipient : String
  Subject : String
  Message : String

/-- Constant `domain.ChannelEmail`. -/
def ChannelEmail : String := "email"

/-- Constant `domain.ChannelSMS`. -/
def ChannelSMS : String := "sms"

/-- Constant `domain.ChannelTelegram`. -/
def ChannelTelegram : String := "telegram"

/-- A bot of `telebot`: sending a Markdown message to a chat. -/
structure TelegramBot where
  Send : Int → String → Option GoError

/-- What the delivery service reaches outside itself: `tele.NewBot` for a token and
`fmt.Sscanf` with verb `%d`. -/
structure Env where
  NewBot : String → Except GoError TelegramBot
  Sscanf : String → Except GoError Int

end Delivery

/-- Record `service.DeliveryService`; a nil bot is `none`. -/
structure DeliveryService where
  telegramBot : Option Delivery.TelegramBot

/-- Function `NewDeliveryService`. -/
def NewDeliveryService (env : Delivery.Env) (telegramToken : String) :
    Except GoError DeliveryService :=
  if telegramToken ≠ "" then
    match env.NewBot telegramToken with
    | .error err => .error ("failed to create telegram bot: " ++ err)
    | .ok bot => .ok ⟨some bot⟩
  else .ok ⟨none⟩

/-- Function `parseTelegramChatID`. -/
def parseTelegramChatID (env : Delivery.Env) (recipient : String) : Except GoError Int :=
  env.Sscanf recipient

/-- Method `DeliveryService.sendEmail`. -/
def DeliveryService.sendEmail (_ds : DeliveryService) (_req : Delivery.SendNotificationRequest) :
    Option GoError := none

/-- Method `DeliveryService.sendSMS`. -/
def DeliveryService.sendSMS (_ds : DeliveryService) (_req : Delivery.SendNotificationRequest) :
    Option GoError := none

/-- Method `DeliveryService.sendTelegram`. -/
def DeliveryService.sendTelegram (ds : DeliveryService) (env : Delivery.Env)
    (req : Delivery.SendNotificationRequest) : Option GoError :=
  match ds.telegramBot with
  | none => some "telegram bot not configured"
  | some bot =>
    match parseTelegramChatID env req.Recipient with
    | .error err => some ("invalid telegram chat ID: " ++ err)
    | .ok chatID =>
      let message :=
        if req.Subject ≠ "" then "*" ++ req.Subject ++ "*\n\n" ++ req.Message else req.Message
      bot.Send chatID message

/-- Method `DeliveryService.SendNotification`. -/
def DeliveryService.SendNotification (ds : DeliveryService) (env : Delivery.Env)
    (req : Delivery.SendNotificationRequest) : Option GoError :=
  if req.Channel = Delivery.ChannelEmail then ds.sendEmail req
  else if req.Channel = Delivery.ChannelSMS then ds.sendSMS req
  else if req.Channel = Delivery.ChannelTelegram then ds.sendTelegram env req
  else some ("unsupported channel: " ++ req.Channel)

/-! ## hotel use case (`internal/hotel/usecase/hotel_usecase.go`) -/

/-- Record `domain.Hotel`. -/
structure Hotel where
  ID : String
  Name : String
  Description : String
  Address : String
  OwnerID : String
  CreatedAt : Time
  UpdatedAt : Time
  deriving DecidableEq

/-- Interface `domain.HotelRepository`. `CreateHotel` and `UpdateHotel` may leave
timestamps in the record behind the pointer, as the Postgres repository does with the
columns it scans back; `GetHotelByID` returns a hotel whenever it returns no error. -/
structure HotelRepository where
  CreateHotel : Hotel → StoreWrite
  GetHotelByID : String → Except GoError Hotel
  GetHotels : Int → Int → List Hotel × Option GoError
  GetHotelsByOwner : String → List Hotel × Option GoError
  UpdateHotel : Hotel → Time × Option GoError
  DeleteHotel : String → Option GoError

/-- Record `usecase.HotelUseCase`, with the repository its hotel operations use. -/
structure HotelUseCase where
  hotelRepo : HotelRepository

/-- A repository call made by the hotel use case. -/
inductive HotelCall where
  | CreateHotel (hotel : Hotel)
  | GetHotelByID (id : String)
  | UpdateHotel (hotel : Hotel)
  | DeleteHotel (id : String)
  deriving DecidableEq

/-- Outcome of a hotel operation: the record behind the caller's pointer when the
call returns, the returned error and the repository calls in order. -/
structure HotelResult where
  hotel : Hotel
  err : Option GoError
  calls : List HotelCall

/-- Outcome of `DeleteHotel`: the returned error and the repository calls. -/
structure DeleteResult where
  err : Option GoError
  calls : List HotelCall

/-- Method `HotelUseCase.CreateHotel`. -/
def HotelUseCase.CreateHotel (uc : HotelUseCase) (rt : Runtime) (hotel : Hotel) : HotelResult :=
  if hotel.Name = "" ∨ hotel.Address = "" ∨ hotel.OwnerID = "" then
    ⟨hotel, some "invalid hotel data", []⟩
  else
    let named : Hotel := { hotel with ID := rt.newUUID.String }
    let w := uc.hotelRepo.CreateHotel named
    ⟨{ named with CreatedAt := w.CreatedAt, UpdatedAt := w.UpdatedAt }, w.err,
      [.CreateHotel named]⟩

/-- Method `HotelUseCase.UpdateHotel`. -/
def HotelUseCase.UpdateHotel (uc : HotelUseCase) (hotel : Hotel) : HotelResult :=
  match uc.hotelRepo.GetHotelByID hotel.ID with
  | .error err => ⟨hotel, some err, [.GetHotelByID hotel.ID]⟩
  | .ok existing =>
    if existing.OwnerID ≠ hotel.OwnerID then
      ⟨hotel, some "unauthorized to update this hotel", [.GetHotelByID hotel.ID]⟩
    else
      let w := uc.hotelRepo.UpdateHotel hotel
      ⟨{ hotel with UpdatedAt := w.1 }, w.2, [.GetHotelByID hotel.ID, .UpdateHotel hotel]⟩

/-- Method `HotelUseCase.DeleteHotel`. -/
def HotelUseCase.DeleteHotel (uc : HotelUseCase) (id ownerID : String) : DeleteResult :=
  match uc.hotelRepo.GetHotelByID id with
  | .error err => ⟨some err, [.GetHotelByID id]⟩
  | .ok existing =>
    if existing.OwnerID ≠ ownerID then
      ⟨some "unauthorized to delete this hotel", [.GetHotelByID id]⟩
    else ⟨uc.hotelRepo.DeleteHotel id, [.GetHotelByID id, .DeleteHotel id]⟩

/-! ## more sample collaborators and inputs -/

/-- A use case without a payment client, every other collaborator succeeding. -/
def noPaymentUseCase : BookingUseCase :=
  { okUseCase 5000 with paymentClient := none }

/-- A use case whose payment client refuses the payment. -/
def failingPaymentUseCase : BookingUseCase :=
  { okUseCase 5000 with paymentClient := some ⟨fun _ _ => some "payment service unavailable"⟩ }

/-- A use case whose producer cannot publish. -/
def failingProducerUseCase : BookingUseCase :=
  { okUseCase 5000 with producer := ⟨fun _ _ => some "kafka unavailable"⟩ }

/-- Renderings that show a price and an instant as fixed texts. -/
def sampleFmt : Fmt := ⟨fun _ => "5000.00", fun _ => "2024-12-20 14:00:00 +0000 UTC"⟩

/-- The event of the notification service's own tests. -/
def sampleEvent : BookingEvent where
  BookingID := "booking-123"
  UserID := "user-123"
  HotelID := "hotel-123"
  RoomID := "room-123"
  CheckInDate := ⟨0⟩
  CheckOutDate := ⟨24 * Hour⟩
  TotalPrice := F64.finite 5000
  EventType := "booking.created"
  Timestamp := ⟨0⟩

/-- A notification service whose hotel lookup fails; every send succeeds. -/
def noOwnerService : NotificationService :=
  ⟨⟨fun _ _ => none⟩, ⟨fun _ => .error "hotel not found"⟩⟩

/-- A notification service whose first send fails and whose later sends succeed;
the hotel is owned by `owner-123`. -/
def firstSendFailsService : NotificationService :=
  ⟨⟨fun earlier _ => if earlier = [] then some "delivery error" else none⟩,
    ⟨fun _ => .ok "owner-123"⟩⟩

/-- A notification service whose collaborators all succeed; the hotel is owned by
`owner-123`. -/
def okNotificationService : NotificationService :=
  ⟨⟨fun _ _ => none⟩, ⟨fun _ => .ok "owner-123"⟩⟩

/-- Surroundings in which the HTTP round trip of the webhook fails. -/
def unreachablePaymentEnv : PaymentEnv :=
  { samplePaymentEnv with Do := fun _ _ => .error "connection refused" }

/-- Surroundings in which the callback answers with status 500. -/
def serverErrorPaymentEnv : PaymentEnv :=
  { samplePaymentEnv with Do := fun _ _ => .ok 500 }

/-- The webhook of the payment service's own tests. -/
def sampleWebhook : PaymentWebhook :=
  ⟨"payment-123", "booking-123", "paid", F64.finite 1000, "2024-12-20T14:00:00Z"⟩

/-- A hotel client of the booking service. -/
def samplePriceClient : hotelclient.HotelClient := ⟨"http://hotel-service:8081"⟩

/-- Surroundings in which the hotel service lists room `r1` at 4000, room `r2` at 5000
and a second entry `r2` at 7000. -/
def samplePriceEnv : hotelclient.Env where
  NewRequest := fun _ _ => none
  Do := fun _ => .ok (200, .ok "rooms")
  Unmarshal := fun _ =>
    .ok [⟨"r1", F64.finite 4000⟩, ⟨"r2", F64.finite 5000⟩, ⟨"r2", F64.finite 7000⟩]

/-- A consumer that reads two messages and then fails. -/
def twoMessageConsumer : kafka.Consumer :=
  ⟨fun n => if n = 0 then .ok ⟨0, [1]⟩ else if n = 1 then .ok ⟨1, [2]⟩ else .error "reader closed"⟩

/-- A handler that fails on every message. -/
def failingHandler : List (List UInt8) → List UInt8 → Option GoError :=
  fun _ _ => some "cannot decode"

/-- Surroundings of the delivery service in which no bot can be made and no chat id
parsed. -/
def sampleDeliveryEnv : Delivery.Env :=
  ⟨fun _ => .error "telegram: unauthorized", fun _ => .error "expected integer"⟩

/-- A hotel owned by `owner-1`. -/
def sampleHotel : Hotel :=
  ⟨"hotel-1", "Grand", "", "1 Main Street", "owner-1", ⟨0⟩, ⟨0⟩⟩

/-- A repository that holds `sampleHotel` under every id and accepts every change. -/
def okHotelRepo : HotelRepository where
  CreateHotel := fun h => ⟨h.CreatedAt, h.UpdatedAt, none⟩
  GetHotelByID := fun _ => .ok sampleHotel
  GetHotels := fun _ _ => ([sampleHotel], none)
  GetHotelsByOwner := fun _ => ([sampleHotel], none)
  UpdateHotel := fun h => (h.UpdatedAt, none)
  DeleteHotel := fun _ => none

/-! ## theorems: float64 rounding -/

namespace F64

theorem roundHalfEven_intCast (n : ℤ) : roundHalfEven (n : ℚ) = n := by
  simp [roundHalfEven]

theorem abs_roundHalfEven_sub_le (x : ℚ) : |(roundHalfEven x : ℚ) - x| ≤ 1 / 2 := by
  have h1 := Int.floor_le x
  have h2 := Int.lt_floor_add_one x
  unfold roundHalfEven
  simp only []
  rw [abs_le]
  split_ifs <;> push_cast <;> constructor <;> linarith

theorem le_roundHalfEven (n : ℤ) (x : ℚ) (h : (n : ℚ) ≤ x) : n ≤ roundHalfEven x := by
  have h1 : n ≤ ⌊x⌋ := Int.le_floor.2 h
  unfold roundHalfEven
  simp only []
  split_ifs <;> omega

theorem ulp_pos (x : ℚ) : 0 < ulp x := by
  unfold ulp
  positivity

theorem ulp_le (x : ℚ) (E : ℤ) (hx0 : 0 < x) (hx : x < (2 : ℚ) ^ (E + 1)) (hE : -1022 ≤ E) :
    ulp x ≤ (2 : ℚ) ^ (E - 52) := by
  have hlog : Int.log 2 |x| < E + 1 := by
    rw [abs_of_pos hx0]
    have := (Int.lt_zpow_iff_log_lt (R := ℚ) (b := 2) (by norm_num) (x := E + 1) hx0).1
    apply this
    simpa using hx
  unfold ulp
  apply zpow_le_zpow_right₀ (by norm_num)
  have : max (Int.log 2 |x|) (-1022) ≤ E := max_le (by omega) hE
  omega

theorem ulp_mul_pow (x : ℚ) (hx0 : 0 < x) (hx : x < (2 : ℚ) ^ (53 : ℕ)) :
    ∃ k : ℕ, ulp x * (2 : ℚ) ^ k = 1 := by
  have hu := ulp_le x 52 hx0 (by norm_num; linarith) (by norm_num)
  have hlog : Int.log 2 |x| < 53 := by
    rw [abs_of_pos hx0]
    have := (Int.lt_zpow_iff_log_lt (R := ℚ) (b := 2) (by norm_num) (x := 53) hx0).1
    apply this
    norm_num
    linarith
  have hmax : max (Int.log 2 |x|) (-1022) ≤ 52 := max_le (by omega) (by norm_num)
  refine ⟨(52 - max (Int.log 2 |x|) (-1022)).toNat, ?_⟩
  unfold ulp
  rw [← zpow_natCast, ← zpow_add₀ (by norm_num : (2 : ℚ) ≠ 0)]
  have : max (Int.log 2 |x|) (-1022) - 52 + ((52 - max (Int.log 2 |x|) (-1022)).toNat : ℤ) = 0 := by
    rw [Int.toNat_of_nonneg (by omega)]
    ring
  rw [this, zpow_zero]

theorem rndQ_zero : rndQ 0 = 0 := by simp [rndQ]

/-- Rounding moves a value by at most half a unit in the last place. -/
theorem abs_rndQ_sub_le (x : ℚ) (E : ℤ) (hx0 : 0 ≤ x) (hx : x < (2 : ℚ) ^ (E + 1))
    (hE : -1022 ≤ E) : |rndQ x - x| ≤ (2 : ℚ) ^ (E - 53) := by
  rcases eq_or_lt_of_le hx0 with h0 | hpos
  · rw [← h0, rndQ_zero]
    simp only [sub_zero, abs_zero]
    positivity
  · have hu := ulp_le x E hpos hx hE
    have hup := ulp_pos x
    have hr := abs_roundHalfEven_sub_le (x / ulp x)
    have hne : x ≠ 0 := ne_of_gt hpos
    have hrw : rndQ x - x = ((roundHalfEven (x / ulp x) : ℚ) - x / ulp x) * ulp x := by
      rw [rndQ, if_neg hne]
      field_simp
    rw [hrw, abs_mul, abs_of_pos hup]
    have h2 : (2 : ℚ) ^ (E - 53) = (2 : ℚ) ^ (E - 52) / 2 := by
      rw [show E - 53 = E - 52 - 1 by ring, zpow_sub_one₀ (by norm_num : (2 : ℚ) ≠ 0)]
      ring
    rw [h2]
    calc |(roundHalfEven (x / ulp x) : ℚ) - x / ulp x| * ulp x
        ≤ 1 / 2 * ulp x := by
          apply mul_le_mul_of_nonneg_right hr (le_of_lt hup)
      _ ≤ 1 / 2 * (2 : ℚ) ^ (E - 52) := by
          apply mul_le_mul_of_nonneg_left hu (by norm_num)
      _ = (2 : ℚ) ^ (E - 52) / 2 := by ring

/-- Rounding does not cross an integer below the value. -/
theorem intCast_le_rndQ (n : ℤ) (x : ℚ) (hn : (n : ℚ) ≤ x) (hx0 : 0 ≤ x)
    (hx : x < (2 : ℚ) ^ (53 : ℕ)) : (n : ℚ) ≤ rndQ x := by
  rcases eq_or_lt_of_le hx0 with h0 | hpos
  · rw [← h0, rndQ_zero]
    rw [← h0] at hn
    exact hn
  · obtain ⟨k, hk⟩ := ulp_mul_pow x hpos hx
    have hup := ulp_pos x
    have hne : x ≠ 0 := ne_of_gt hpos
    have hdiv : ∀ y : ℚ, y / ulp x = y * (2 : ℚ) ^ k := by
      intro y
      rw [div_eq_iff (ne_of_gt hup), mul_assoc, mul_comm ((2 : ℚ) ^ k), hk, mul_one]
    have hm : ((n * 2 ^ k : ℤ) : ℚ) ≤ x / ulp x := by
      rw [hdiv]
      push_cast
      apply mul_le_mul_of_nonneg_right hn (by positivity)
    have hle := le_roundHalfEven _ _ hm
    have hle2 : ((n * 2 ^ k : ℤ) : ℚ) ≤ (roundHalfEven (x / ulp x) : ℚ) := by exact_mod_cast hle
    rw [rndQ, if_neg hne]
    calc (n : ℚ) = ((n * 2 ^ k : ℤ) : ℚ) * ulp x := by
          push_cast
          rw [mul_assoc, mul_comm ((2 : ℚ) ^ k), hk, mul_one]
      _ ≤ (roundHalfEven (x / ulp x) : ℚ) * ulp x :=
          mul_le_mul_of_nonneg_right hle2 (le_of_lt hup)

/-- Integers below `2 ^ 53` are binary64 values. -/
theorem rndQ_intCast (n : ℤ) (hn0 : 0 ≤ n) (hn : n < 2 ^ 53) : rndQ (n : ℚ) = n := by
  rcases eq_or_lt_of_le hn0 with h0 | hpos
  · rw [← h0]
    simp [rndQ]
  · have hposq : (0 : ℚ) < n := by exact_mod_cast hpos
    have hltq : (n : ℚ) < (2 : ℚ) ^ (53 : ℕ) := by exact_mod_cast hn
    obtain ⟨k, hk⟩ := ulp_mul_pow n hposq hltq
    have hup := ulp_pos (n : ℚ)
    have hdiv : (n : ℚ) / ulp n = ((n * 2 ^ k : ℤ) : ℚ) := by
      rw [div_eq_iff (ne_of_gt hup)]
      push_cast
      rw [mul_assoc, mul_comm ((2 : ℚ) ^ k), hk, mul_one]
    rw [rndQ, if_neg (ne_of_gt hposq), hdiv, roundHalfEven_intCast]
    push_cast
    rw [mul_assoc, mul_comm ((2 : ℚ) ^ k), hk, mul_one]

theorem round_eq_finite (x : ℚ) (h1 : rndQ x < (2 : ℚ) ^ (1024 : ℕ))
    (h2 : -(2 : ℚ) ^ (1024 : ℕ) < rndQ x) : round x = finite (rndQ x) := by
  simp only [round, if_neg (not_le.2 h1), if_neg (not_le.2 h2)]

theorem ofInt_eq_finite (n : ℤ) (hn0 : 0 ≤ n) (hn : n < 2 ^ 53) : ofInt n = finite n := by
  have h := rndQ_intCast n hn0 hn
  have hq0 : (0 : ℚ) ≤ n := by exact_mod_cast hn0
  have hq : (n : ℚ) < (2 : ℚ) ^ (53 : ℕ) := by exact_mod_cast hn
  have hbig : (2 : ℚ) ^ (53 : ℕ) < (2 : ℚ) ^ (1024 : ℕ) := by
    apply pow_lt_pow_right₀ (by norm_num) (by norm_num)
  rw [ofInt, round_eq_finite, h]
  · rw [h]; linarith
  · rw [h]
    have : (0 : ℚ) < (2 : ℚ) ^ (1024 : ℕ) := by positivity
    linarith

theorem roundHalfEven_eq_of_abs_lt (y : ℚ) (n : ℤ) (h : |y - n| < 1 / 2) :
    roundHalfEven y = n := by
  rw [abs_lt] at h
  obtain ⟨h1, h2⟩ := h
  unfold roundHalfEven
  simp only []
  by_cases hy : (n : ℚ) ≤ y
  · have hf : ⌊y⌋ = n := Int.floor_eq_iff.2 ⟨hy, by linarith⟩
    rw [hf, if_pos h2]
  · have hy2 : y < n := not_le.1 hy
    have hf : ⌊y⌋ = n - 1 := Int.floor_eq_iff.2 ⟨by push_cast; linarith, by push_cast; linarith⟩
    rw [hf, if_neg (by push_cast; linarith), if_pos (by push_cast; linarith)]
    ring

theorem ulp_eq (x : ℚ) (e : ℤ) (h1 : (2 : ℚ) ^ e ≤ x) (h2 : x < (2 : ℚ) ^ (e + 1))
    (hE : -1022 ≤ e) : ulp x = (2 : ℚ) ^ (e - 52) := by
  have hx0 : 0 < x := lt_of_lt_of_le (by positivity) h1
  have hlt : Int.log 2 |x| < e + 1 := by
    rw [abs_of_pos hx0]
    apply (Int.lt_zpow_iff_log_lt (R := ℚ) (b := 2) (by norm_num) (x := e + 1) hx0).1
    simpa using h2
  have hle : e ≤ Int.log 2 |x| := by
    rw [abs_of_pos hx0]
    apply (Int.zpow_le_iff_le_log (R := ℚ) (b := 2) (by norm_num) (x := e) hx0).1
    simpa using h1
  have : max (Int.log 2 |x|) (-1022) = e := by
    rw [max_eq_left (by omega)]
    omega
  rw [ulp, this]

/-- The rounding of a value that lies within half a unit in the last place of a
grid point is that grid point. -/
theorem rndQ_eq_of_near (x : ℚ) (e n : ℤ) (h1 : (2 : ℚ) ^ e ≤ x) (h2 : x < (2 : ℚ) ^ (e + 1))
    (hE : -1022 ≤ e) (hn : |x / (2 : ℚ) ^ (e - 52) - n| < 1 / 2) :
    rndQ x = n * (2 : ℚ) ^ (e - 52) := by
  have hx0 : 0 < x := lt_of_lt_of_le (by positivity) h1
  rw [rndQ, if_neg (ne_of_gt hx0), ulp_eq x e h1 h2 hE, roundHalfEven_eq_of_abs_lt _ n hn]

/-- One nanosecond short of 4104 hours, `Hours` already reads 4104. -/
theorem rndQ_hours_171_days :
    rndQ ((4103 : ℚ) + rndQ ((3599999999999 : ℚ) / 3600000000000)) = 4104 := by
  have hx0 : (0 : ℚ) ≤ (3599999999999 : ℚ) / 3600000000000 := by norm_num
  have hc0 : (0 : ℚ) ≤ rndQ ((3599999999999 : ℚ) / 3600000000000) := by
    have := intCast_le_rndQ 0 _ (by simpa using hx0) hx0 (by norm_num)
    simpa using this
  have hc1 := abs_rndQ_sub_le ((3599999999999 : ℚ) / 3600000000000) (-1) hx0 (by norm_num)
    (by norm_num)
  rw [abs_le] at hc1
  have e54 : (2 : ℚ) ^ ((-1 : ℤ) - 53) = 1 / 18014398509481984 := by norm_num
  rw [e54] at hc1
  have e40 : (2 : ℚ) ^ ((12 : ℤ) - 52) = 1 / 1099511627776 := by norm_num
  have h := rndQ_eq_of_near ((4103 : ℚ) + rndQ ((3599999999999 : ℚ) / 3600000000000)) 12
    4512395720392704 (by norm_num; linarith) (by norm_num; linarith [hc1.2]) (by norm_num)
    (by
      rw [e40, abs_lt]
      constructor
      · norm_num
        linarith [hc1.1]
      · norm_num
        linarith [hc1.2])
  rw [h, e40]
  norm_num

theorem roundHalfEven_lt_of_lt (y : ℚ) (m : ℤ) (h : y < (m : ℚ) - 1 / 2) :
    roundHalfEven y ≤ m - 1 := by
  have h1 := abs_roundHalfEven_sub_le y
  rw [abs_le] at h1
  have h2 : (roundHalfEven y : ℚ) < m := by linarith [h1.2]
  have h3 : roundHalfEven y < m := by exact_mod_cast h2
  omega

/-- When the hours are one short of a whole day and the fraction `c` of an hour stays
more than half a unit in the last place below one, the sum `hour + c` rounds to a
value below the next hour, and the division by 24 stays below the next whole day. -/
theorem rndQ_div24_lt (hour : ℤ) (c : ℚ) (E : ℤ) (hh : 23 ≤ hour) (h24 : hour % 24 = 23)
    (hc0 : 0 ≤ c) (hs : (hour : ℚ) + c < (2 : ℚ) ^ (E + 1)) (hE : E ≤ 51)
    (hgap : (2 : ℚ) ^ (E - 53) < 1 - c) :
    rndQ (rndQ ((hour : ℚ) + c) / 24) < ((hour / 24 : ℤ) : ℚ) + 1 := by
  have hhq : (23 : ℚ) ≤ hour := by exact_mod_cast hh
  have hs0 : (0 : ℚ) < (hour : ℚ) + c := by linarith
  have hne : (hour : ℚ) + c ≠ 0 := ne_of_gt hs0
  -- the binade of the sum
  have helo : (2 : ℚ) ^ (Int.log 2 ((hour : ℚ) + c)) ≤ (hour : ℚ) + c := by
    have := Int.zpow_log_le_self (R := ℚ) (b := 2) (by norm_num) hs0
    simpa using this
  have hehi : (hour : ℚ) + c < (2 : ℚ) ^ (Int.log 2 ((hour : ℚ) + c) + 1) := by
    have := Int.lt_zpow_succ_log_self (R := ℚ) (b := 2) (by norm_num) ((hour : ℚ) + c)
    simpa using this
  have he4 : 4 ≤ Int.log 2 ((hour : ℚ) + c) := by
    apply (Int.zpow_le_iff_le_log (R := ℚ) (b := 2) (by norm_num) (x := 4) hs0).1
    norm_num
    linarith
  have heE : Int.log 2 ((hour : ℚ) + c) < E + 1 := by
    apply (Int.lt_zpow_iff_log_lt (R := ℚ) (b := 2) (by norm_num) (x := E + 1) hs0).1
    simpa using hs
  generalize Int.log 2 ((hour : ℚ) + c) = e at helo hehi he4 heE
  have hu : ulp ((hour : ℚ) + c) = (2 : ℚ) ^ (e - 52) := ulp_eq _ e helo hehi (by omega)
  have hupos : (0 : ℚ) < (2 : ℚ) ^ (e - 52) := by positivity
  have huE : (2 : ℚ) ^ (e - 52) / 2 ≤ (2 : ℚ) ^ (E - 53) := by
    have h1 : (2 : ℚ) ^ (e - 52) / 2 = (2 : ℚ) ^ (e - 53) := by
      rw [show e - 53 = e - 52 - 1 by ring, zpow_sub_one₀ (by norm_num : (2 : ℚ) ≠ 0)]
      ring
    rw [h1]
    exact zpow_le_zpow_right₀ (by norm_num) (by omega)
  have h52 : (2 : ℚ) ^ (E + 1) ≤ (2 : ℚ) ^ (53 : ℕ) := by
    rw [← zpow_natCast]
    exact zpow_le_zpow_right₀ (by norm_num) (by push_cast; omega)
  obtain ⟨j, hj⟩ := ulp_mul_pow ((hour : ℚ) + c) hs0 (lt_of_lt_of_le hs h52)
  rw [hu] at hj
  -- the sum rounds to a grid point below the next hour
  have hdiv : ((hour : ℚ) + c) / (2 : ℚ) ^ (e - 52) = ((hour : ℚ) + c) * (2 : ℚ) ^ j := by
    rw [div_eq_iff (ne_of_gt hupos), mul_assoc, mul_comm ((2 : ℚ) ^ j), hj, mul_one]
  have hjpos : (0 : ℚ) < (2 : ℚ) ^ j := by positivity
  have hjinv : (2 : ℚ) ^ j * (2 : ℚ) ^ (e - 52) = 1 := by rw [mul_comm]; exact hj
  have hhalf : ((hour : ℚ) + c) / (2 : ℚ) ^ (e - 52)
      < (((hour + 1) * 2 ^ j : ℤ) : ℚ) - 1 / 2 := by
    rw [hdiv]
    push_cast
    have : (1 : ℚ) / 2 < (1 - c) * (2 : ℚ) ^ j := by
      have h1 : (2 : ℚ) ^ (e - 52) / 2 < 1 - c := lt_of_le_of_lt huE hgap
      have h2 : (2 : ℚ) ^ (e - 52) / 2 * (2 : ℚ) ^ j < (1 - c) * (2 : ℚ) ^ j :=
        mul_lt_mul_of_pos_right h1 hjpos
      have h3 : (2 : ℚ) ^ (e - 52) / 2 * (2 : ℚ) ^ j = 1 / 2 := by
        rw [div_mul_eq_mul_div, hj]
      linarith
    nlinarith
  have hR := roundHalfEven_lt_of_lt _ _ hhalf
  have hRq : (roundHalfEven (((hour : ℚ) + c) / (2 : ℚ) ^ (e - 52)) : ℚ)
      ≤ ((hour : ℚ) + 1) * (2 : ℚ) ^ j - 1 := by
    have : (roundHalfEven (((hour : ℚ) + c) / (2 : ℚ) ^ (e - 52)) : ℚ)
        ≤ (((hour + 1) * 2 ^ j - 1 : ℤ) : ℚ) := by exact_mod_cast hR
    push_cast at this
    exact this
  have hH : rndQ ((hour : ℚ) + c) ≤ (hour : ℚ) + 1 - (2 : ℚ) ^ (e - 52) := by
    rw [rndQ, if_neg hne, hu]
    calc (roundHalfEven (((hour : ℚ) + c) / (2 : ℚ) ^ (e - 52)) : ℚ) * (2 : ℚ) ^ (e - 52)
        ≤ (((hour : ℚ) + 1) * (2 : ℚ) ^ j - 1) * (2 : ℚ) ^ (e - 52) :=
          mul_le_mul_of_nonneg_right hRq (le_of_lt hupos)
      _ = (hour : ℚ) + 1 - (2 : ℚ) ^ (e - 52) := by
          rw [sub_mul, mul_assoc, hjinv]
          ring
  have hH0 : (hour : ℚ) ≤ rndQ ((hour : ℚ) + c) :=
    intCast_le_rndQ hour _ (by linarith) (le_of_lt hs0) (lt_of_lt_of_le hs h52)
  -- the division by 24
  have hpe : (1 : ℚ) ≤ (2 : ℚ) ^ e := by
    have := zpow_le_zpow_right₀ (by norm_num : (1 : ℚ) ≤ 2) (by omega : (0 : ℤ) ≤ e)
    simpa using this
  have hp1 : (2 : ℚ) ^ (e + 1) = 2 * (2 : ℚ) ^ e := by
    rw [zpow_add₀ (by norm_num : (2 : ℚ) ≠ 0)]
    ring
  have hp3 : (2 : ℚ) ^ (e - 4 + 1) = (2 : ℚ) ^ e / 8 := by
    rw [show e - 4 + 1 = e - 3 by ring, zpow_sub₀ (by norm_num : (2 : ℚ) ≠ 0)]
    norm_num
  have hp57 : (2 : ℚ) ^ (e - 4 - 53) = (2 : ℚ) ^ (e - 52) / 32 := by
    rw [show e - 4 - 53 = e - 52 - 5 by ring, zpow_sub₀ (by norm_num : (2 : ℚ) ≠ 0)]
    norm_num
  have hd0 : (0 : ℚ) ≤ rndQ ((hour : ℚ) + c) / 24 := div_nonneg (by linarith) (by norm_num)
  have hd1 : rndQ ((hour : ℚ) + c) / 24 < (2 : ℚ) ^ (e - 4 + 1) := by
    rw [hp3, div_lt_iff₀ (by norm_num)]
    rw [hp1] at hehi
    linarith
  have hQ := abs_rndQ_sub_le _ (e - 4) hd0 hd1 (by omega)
  rw [abs_le, hp57] at hQ
  have hk : hour = hour / 24 * 24 + 23 := by omega
  have hkq : (hour : ℚ) = ((hour / 24 : ℤ) : ℚ) * 24 + 23 := by exact_mod_cast hk
  linarith [hQ.2]

/-- The float computation `int((float64(hour) + float64(nsec)/3.6e12) / 24)` yields
the whole days in `hour` hours, unless `hour` is 4095 or more and one short of a whole day
and `nsec` lies within the last microsecond of the hour. -/
theorem toInt_hours_div (hour nsec : ℤ) (h0 : 0 ≤ hour) (h1 : hour < 2562048)
    (h2 : 0 ≤ nsec) (h3 : nsec < 3600000000000)
    (hcond : hour % 24 = 23 → hour < 4095 ∨ nsec + 1000 ≤ 3600000000000) :
    toInt (div (add (ofInt hour) (div (ofInt nsec) (finite 3600000000000))) (finite 24))
      = hour / 24 := by
  have ha := ofInt_eq_finite hour h0 (by omega)
  have hb := ofInt_eq_finite nsec h2 (by omega)
  have hbig : (4194304 : ℚ) < (2 : ℚ) ^ (1024 : ℕ) := by
    have : (2 : ℚ) ^ (22 : ℕ) < (2 : ℚ) ^ (1024 : ℕ) :=
      pow_lt_pow_right₀ (by norm_num) (by norm_num)
    calc (4194304 : ℚ) = (2 : ℚ) ^ (22 : ℕ) := by norm_num
      _ < (2 : ℚ) ^ (1024 : ℕ) := this
  have hq0 : (0 : ℚ) ≤ hour := by exact_mod_cast h0
  have hq1 : (hour : ℚ) ≤ 2562047 := by
    have : hour ≤ 2562047 := by omega
    exact_mod_cast this
  have hn0 : (0 : ℚ) ≤ nsec := by exact_mod_cast h2
  have hn1 : (nsec : ℚ) ≤ 3599999999999 := by
    have : nsec ≤ 3599999999999 := by omega
    exact_mod_cast this
  -- the fraction of an hour
  have hx0 : (0 : ℚ) ≤ (nsec : ℚ) / 3600000000000 := div_nonneg hn0 (by norm_num)
  have hx1 : (nsec : ℚ) / 3600000000000 < 1 := by
    rw [div_lt_one (by norm_num)]
    linarith
  have hc0 : (0 : ℚ) ≤ rndQ ((nsec : ℚ) / 3600000000000) := by
    have := intCast_le_rndQ 0 _ (by simpa using hx0) hx0 (by linarith [hx1, (by norm_num : (1 : ℚ) < 2 ^ (53 : ℕ))])
    simpa using this
  have hc1 := abs_rndQ_sub_le ((nsec : ℚ) / 3600000000000) (-1) hx0 (by simpa using hx1)
    (by norm_num)
  rw [abs_le] at hc1
  have e54 : (2 : ℚ) ^ ((-1 : ℤ) - 53) = 1 / 18014398509481984 := by norm_num
  rw [e54] at hc1
  have hcfin : round ((nsec : ℚ) / 3600000000000) = finite (rndQ ((nsec : ℚ) / 3600000000000)) := by
    apply round_eq_finite <;> linarith [hc1.1, hc1.2]
  -- the hours
  have hs0 : (0 : ℚ) ≤ hour + rndQ ((nsec : ℚ) / 3600000000000) := by linarith
  have hs1 : (hour : ℚ) + rndQ ((nsec : ℚ) / 3600000000000) < (2 : ℚ) ^ ((21 : ℤ) + 1) := by
    norm_num
    linarith [hc1.2]
  have hH0 := intCast_le_rndQ hour _ (by linarith) hs0 (by norm_num at hs1 ⊢; linarith)
  have hH1 := abs_rndQ_sub_le _ 21 hs0 hs1 (by norm_num)
  rw [abs_le] at hH1
  have e32 : (2 : ℚ) ^ ((21 : ℤ) - 53) = 1 / 4294967296 := by norm_num
  rw [e32] at hH1
  have hHfin : round ((hour : ℚ) + rndQ ((nsec : ℚ) / 3600000000000))
      = finite (rndQ ((hour : ℚ) + rndQ ((nsec : ℚ) / 3600000000000))) := by
    apply round_eq_finite <;> linarith [hH1.1, hH1.2, hc1.2]
  -- the days
  have hk : (((hour / 24 : ℤ)) : ℚ) * 24 ≤ hour := by
    have : hour / 24 * 24 ≤ hour := Int.ediv_mul_le _ (by norm_num)
    exact_mod_cast this
  have hd0 : (0 : ℚ) ≤ rndQ ((hour : ℚ) + rndQ ((nsec : ℚ) / 3600000000000)) / 24 := by
    apply div_nonneg _ (by norm_num)
    linarith
  have hd1 : rndQ ((hour : ℚ) + rndQ ((nsec : ℚ) / 3600000000000)) / 24
      < (2 : ℚ) ^ ((21 : ℤ) + 1) := by
    rw [div_lt_iff₀ (by norm_num)]
    norm_num
    linarith [hH1.2, hc1.2]
  have hQ0 := intCast_le_rndQ (hour / 24) _
    (by rw [le_div_iff₀ (by norm_num)]; linarith) hd0 (by norm_num at hd1 ⊢; linarith)
  have hQ1 := abs_rndQ_sub_le _ 21 hd0 hd1 (by norm_num)
  rw [abs_le, e32] at hQ1
  have hQfin : round (rndQ ((hour : ℚ) + rndQ ((nsec : ℚ) / 3600000000000)) / 24)
      = finite (rndQ (rndQ ((hour : ℚ) + rndQ ((nsec : ℚ) / 3600000000000)) / 24)) := by
    apply round_eq_finite <;> norm_num at hd1 <;> linarith [hQ1.1, hQ1.2]
  -- the quotient stays below the next whole day
  have hupper : rndQ (rndQ ((hour : ℚ) + rndQ ((nsec : ℚ) / 3600000000000)) / 24)
      < ((hour / 24 : ℤ) : ℚ) + 1 := by
    have hdiv : rndQ ((hour : ℚ) + rndQ ((nsec : ℚ) / 3600000000000)) / 24 * 24
        = rndQ ((hour : ℚ) + rndQ ((nsec : ℚ) / 3600000000000)) := by
      field_simp
    by_cases hr : hour % 24 = 23
    · have hx2 : (nsec : ℚ) / 3600000000000 ≤ 1 - 1 / 3600000000000 := by
        rw [div_le_iff₀ (by norm_num)]
        linarith
      rcases hcond hr with hshort | hns
      · have hsq : (hour : ℚ) ≤ 4094 := by
          have : hour ≤ 4094 := by omega
          exact_mod_cast this
        exact rndQ_div24_lt hour _ 11 (by omega) hr hc0 (by norm_num; linarith [hc1.2])
          (by norm_num) (by norm_num; linarith [hc1.2])
      · have hnsq : (nsec : ℚ) + 1000 ≤ 3600000000000 := by exact_mod_cast hns
        have hx3 : (nsec : ℚ) / 3600000000000 ≤ 1 - 1 / 3600000000 := by
          rw [div_le_iff₀ (by norm_num)]
          linarith
        exact rndQ_div24_lt hour _ 21 (by omega) hr hc0 (by norm_num; linarith [hc1.2])
          (by norm_num) (by norm_num; linarith [hc1.2])
    · have hh : hour + 1 ≤ hour / 24 * 24 + 23 := by omega
      have hhq : (hour : ℚ) + 1 ≤ ((hour / 24 : ℤ) : ℚ) * 24 + 23 := by exact_mod_cast hh
      linarith [hQ1.2, hH1.2, hc1.2]
  have hQnn : (0 : ℚ) ≤ rndQ (rndQ ((hour : ℚ) + rndQ ((nsec : ℚ) / 3600000000000)) / 24) := by
    have : (0 : ℚ) ≤ ((hour / 24 : ℤ) : ℚ) := by
      have : 0 ≤ hour / 24 := by omega
      exact_mod_cast this
    linarith
  have hfloor : ⌊rndQ (rndQ ((hour : ℚ) + rndQ ((nsec : ℚ) / 3600000000000)) / 24)⌋
      = hour / 24 := Int.floor_eq_iff.2 ⟨hQ0, hupper⟩
  have hrange : -(2 : ℤ) ^ 63 ≤ hour / 24 ∧ hour / 24 < (2 : ℤ) ^ 63 := by
    constructor <;> omega
  rw [ha, hb]
  simp only [div, add, if_neg (by norm_num : ¬ (3600000000000 : ℚ) = 0),
    if_neg (by norm_num : ¬ (24 : ℚ) = 0), hcfin, hHfin, hQfin, toInt, if_pos hQnn, hfloor,
    if_pos hrange]

end F64

/-! ## theorems: booking creation, control flow -/

/-- C2, at the boundary: a booking whose check-in and check-out are the same
instant passes the date guard of `CreateBooking`; the run returns nil and the store
receives one write. -/
theorem CreateBooking_same_instant_is_persisted :
    ((okUseCase 5000).CreateBooking sampleRuntime (bookingBetween 0 0)).err = none ∧
      (storeWrites ((okUseCase 5000).CreateBooking sampleRuntime (bookingBetween 0 0)).calls).length
        = 1 := by
  simp [BookingUseCase.CreateBooking, okUseCase, okRepo, bookingBetween, Time.After, storeWrites]

/-- C3: when the booking passes the date check and `GetRoomPrice` returns an error
`e`, `CreateBooking` returns `e` itself; the only collaborator call of the run is
that `GetRoomPrice`, so the store receives no write, no payment is requested and no
event is published. -/
theorem CreateBooking_price_error_propagates (uc : BookingUseCase) (rt : Runtime)
    (b : Booking) (e : GoError)
    (hdate : b.CheckInDate.After b.CheckOutDate = false)
    (hprice : uc.hotelClient.GetRoomPrice b.HotelID b.RoomID = .error e) :
    (uc.CreateBooking rt b).err = some e ∧
      (uc.CreateBooking rt b).calls = [Call.GetRoomPrice b.HotelID b.RoomID] ∧
      storeCalls (uc.CreateBooking rt b).calls = [] ∧
      paymentRequests (uc.CreateBooking rt b).calls = [] ∧
      publishedEvents (uc.CreateBooking rt b).calls = [] := by
  simp [BookingUseCase.CreateBooking, hdate, hprice, storeCalls, paymentRequests,
    publishedEvents]

/-- The scenario of the specification in which the resolver answers "room not found":
the error comes back and the store is not touched. -/
theorem CreateBooking_price_error_propagates_witness :
    (bookingBetween 0 (48 * Hour)).CheckInDate.After (bookingBetween 0 (48 * Hour)).CheckOutDate
        = false ∧
      noRoomUseCase.hotelClient.GetRoomPrice (bookingBetween 0 (48 * Hour)).HotelID
        (bookingBetween 0 (48 * Hour)).RoomID = .error "room not found" ∧
      (noRoomUseCase.CreateBooking sampleRuntime (bookingBetween 0 (48 * Hour))).err
        = some "room not found" ∧
      storeCalls (noRoomUseCase.CreateBooking sampleRuntime (bookingBetween 0 (48 * Hour))).calls
        = [] :=
  have h := CreateBooking_price_error_propagates noRoomUseCase sampleRuntime
    (bookingBetween 0 (48 * Hour)) "room not found" (by decide) rfl
  ⟨by decide, rfl, h.1, h.2.2.1⟩

/-- The rendering of an identifier is never the empty string. -/
theorem UUID.String_ne_empty (u : UUID) : u.String ≠ "" := by
  intro h
  have := congrArg String.length h
  simp [UUID.String, hexByte, String.length] at this

/-- C7: once the date check and the price lookup have passed, the store receives
exactly one record, and that record, like the record the caller sees, has status
`confirmed`, payment status `pending` and as its ID the non-empty rendering of the
freshly generated identifier, whatever the request carried in those fields. -/
theorem CreateBooking_assigns_id_and_statuses (uc : BookingUseCase) (rt : Runtime)
    (b : Booking) (price : F64)
    (hdate : b.CheckInDate.After b.CheckOutDate = false)
    (hprice : uc.hotelClient.GetRoomPrice b.HotelID b.RoomID = .ok price) :
    (∃ priced : Booking, storeWrites (uc.CreateBooking rt b).calls = [priced] ∧
        priced.Status = "confirmed" ∧ priced.PaymentStatus = "pending" ∧
        priced.ID = rt.newUUID.String ∧ priced.ID ≠ "") ∧
      (uc.CreateBooking rt b).booking.Status = "confirmed" ∧
      (uc.CreateBooking rt b).booking.PaymentStatus = "pending" ∧
      (uc.CreateBooking rt b).booking.ID = rt.newUUID.String ∧
      (uc.CreateBooking rt b).booking.ID ≠ "" := by
  have hne := UUID.String_ne_empty rt.newUUID
  simp only [BookingUseCase.CreateBooking, hdate, hprice]
  cases hw : (uc.repo.CreateBooking _).err with
  | some e => simp [storeWrites, hne]
  | none =>
    cases hpc : uc.paymentClient with
    | none => simp [storeWrites, hne]
    | some pc =>
      simp only []
      cases hpay : pc.CreatePayment _ _ with
      | some e => simp [storeWrites, hne]
      | none => simp [storeWrites, hne]

/-- A two-day booking that arrives with an ID and statuses of its own leaves with the
generated ID, `confirmed` and `pending`. -/
theorem CreateBooking_assigns_id_and_statuses_witness :
    ((okUseCase 5000).CreateBooking sampleRuntime
        { bookingBetween 0 (48 * Hour) with ID := "mine", Status := "cancelled",
                                            PaymentStatus := "paid" }).booking.Status
        = "confirmed" ∧
      ((okUseCase 5000).CreateBooking sampleRuntime
        { bookingBetween 0 (48 * Hour) with ID := "mine", Status := "cancelled",
                                            PaymentStatus := "paid" }).booking.PaymentStatus
        = "pending" ∧
      ((okUseCase 5000).CreateBooking sampleRuntime
        { bookingBetween 0 (48 * Hour) with ID := "mine", Status := "cancelled",
                                            PaymentStatus := "paid" }).booking.ID
        = "00112233-4455-6677-8899-aabbccddeeff" :=
  have h := CreateBooking_assigns_id_and_statuses (okUseCase 5000) sampleRuntime
    { bookingBetween 0 (48 * Hour) with ID := "mine", Status := "cancelled",
                                        PaymentStatus := "paid" }
    (F64.finite 5000) (by decide) rfl
  ⟨h.2.1, h.2.2.1, h.2.2.2.1.trans (by decide)⟩

/-- C8: the `TotalPrice` a request carries has no influence on the run. Two requests
that differ only in that field produce the same collaborator calls with the same
arguments (the record written to the store, the amount asked of the payment client,
the event published) and the same returned error. -/
theorem CreateBooking_ignores_supplied_total (uc : BookingUseCase) (rt : Runtime)
    (b : Booking) (supplied : F64) :
    (uc.CreateBooking rt { b with TotalPrice := supplied }).calls = (uc.CreateBooking rt b).calls ∧
      (uc.CreateBooking rt { b with TotalPrice := supplied }).err = (uc.CreateBooking rt b).err ∧
      storeWrites (uc.CreateBooking rt { b with TotalPrice := supplied }).calls
        = storeWrites (uc.CreateBooking rt b).calls ∧
      paymentRequests (uc.CreateBooking rt { b with TotalPrice := supplied }).calls
        = paymentRequests (uc.CreateBooking rt b).calls ∧
      publishedEvents (uc.CreateBooking rt { b with TotalPrice := supplied }).calls
        = publishedEvents (uc.CreateBooking rt b).calls := by
  have hcalls : (uc.CreateBooking rt { b with TotalPrice := supplied }).calls
      = (uc.CreateBooking rt b).calls := by
    simp only [BookingUseCase.CreateBooking]
    split
    · rfl
    · split <;> rfl
  have herr : (uc.CreateBooking rt { b with TotalPrice := supplied }).err
      = (uc.CreateBooking rt b).err := by
    simp only [BookingUseCase.CreateBooking]
    split
    · rfl
    · split <;> rfl
  exact ⟨hcalls, herr, by rw [hcalls], by rw [hcalls], by rw [hcalls]⟩

/-- C9: on a run that passes the date check, with a payment client configured, in
which every collaborator succeeds (the price lookup, and the store write, the payment
request and the publication on whatever they are called with), `CreateBooking` returns
nil and makes exactly four collaborator calls, in this order: `GetRoomPrice`, the
store's `CreateBooking`, `CreatePayment` for the stored booking's ID and total,
`SendMessage` keyed by that ID. There is no other store, payment or producer call. -/
theorem CreateBooking_call_order (uc : BookingUseCase) (rt : Runtime) (b : Booking)
    (pc : PaymentClient) (rate : F64) (hpc : uc.paymentClient = some pc)
    (hdate : b.CheckInDate.After b.CheckOutDate = false)
    (hprice : uc.hotelClient.GetRoomPrice b.HotelID b.RoomID = .ok rate)
    (hstore : ∀ x, Call.RepoCreateBooking x ∈ (uc.CreateBooking rt b).calls →
      (uc.repo.CreateBooking x).err = none)
    (hpay : ∀ id amount, Call.CreatePayment id amount ∈ (uc.CreateBooking rt b).calls →
      pc.CreatePayment id amount = none)
    (hsend : ∀ key ev, Call.SendMessage key ev ∈ (uc.CreateBooking rt b).calls →
      uc.producer.SendMessage key ev = none) :
    (uc.CreateBooking rt b).err = none ∧
      ∃ (priced : Booking) (event : BookingEvent),
        (uc.CreateBooking rt b).calls =
          [Call.GetRoomPrice b.HotelID b.RoomID, Call.RepoCreateBooking priced,
            Call.CreatePayment priced.ID priced.TotalPrice, Call.SendMessage priced.ID event] ∧
        event.BookingID = priced.ID ∧ event.TotalPrice = priced.TotalPrice ∧
        storeCalls (uc.CreateBooking rt b).calls = [Call.RepoCreateBooking priced] ∧
        paymentRequests (uc.CreateBooking rt b).calls = [(priced.ID, priced.TotalPrice)] ∧
        publishedEvents (uc.CreateBooking rt b).calls = [(priced.ID, event)] := by
  revert hstore hpay hsend
  simp only [BookingUseCase.CreateBooking, hpc, hdate, hprice]
  split
  · rename_i h
    exact absurd h (by simp)
  · split
    · rename_i e he
      intro hstore _ _
      have := hstore _ (List.mem_cons_of_mem _ (List.mem_singleton.2 rfl))
      rw [this] at he
      simp at he
    · split
      · rename_i e he
        intro _ hpay _
        have := hpay _ _ (List.mem_append_right _ (List.mem_singleton.2 rfl))
        rw [this] at he
        simp at he
      · intro _ _ hsend
        have := hsend _ _ (List.mem_append_right _ (List.mem_singleton.2 rfl))
        exact ⟨this, _, _, rfl, rfl, rfl, rfl, rfl, rfl⟩

/-- The call order on a two-day booking with all collaborators succeeding. -/
theorem CreateBooking_call_order_witness :
    (okUseCase 5000).paymentClient = some ⟨fun _ _ => none⟩ ∧
      (bookingBetween 0 (48 * Hour)).CheckInDate.After (bookingBetween 0 (48 * Hour)).CheckOutDate
        = false ∧
      (okUseCase 5000).hotelClient.GetRoomPrice "hotel123" "room123" = .ok (F64.finite 5000) ∧
      ((okUseCase 5000).CreateBooking sampleRuntime (bookingBetween 0 (48 * Hour))).err = none ∧
      ∃ (priced : Booking) (event : BookingEvent),
        ((okUseCase 5000).CreateBooking sampleRuntime (bookingBetween 0 (48 * Hour))).calls =
          [Call.GetRoomPrice "hotel123" "room123", Call.RepoCreateBooking priced,
            Call.CreatePayment priced.ID priced.TotalPrice, Call.SendMessage priced.ID event] ∧
        event.BookingID = priced.ID ∧ event.TotalPrice = priced.TotalPrice :=
  have h := CreateBooking_call_order (okUseCase 5000) sampleRuntime (bookingBetween 0 (48 * Hour))
    ⟨fun _ _ => none⟩ (F64.finite 5000) rfl (by decide) rfl (fun _ _ => rfl) (fun _ _ _ => rfl)
    (fun _ _ _ => rfl)
  ⟨rfl, by decide, rfl, h.1,
    by obtain ⟨p, ev, hc, h1, h2, -⟩ := h.2; exact ⟨p, ev, hc, h1, h2⟩⟩

/-- C10: when the store's `CreateBooking` is called and returns an error `e`,
`BookingUseCase.CreateBooking` returns `e` itself and the store call is the last
collaborator call: no payment is requested and no event is published. -/
theorem CreateBooking_store_error_aborts (uc : BookingUseCase) (rt : Runtime) (b priced : Booking)
    (e : GoError)
    (hcall : Call.RepoCreateBooking priced ∈ (uc.CreateBooking rt b).calls)
    (hstore : (uc.repo.CreateBooking priced).err = some e) :
    (uc.CreateBooking rt b).err = some e ∧
      (uc.CreateBooking rt b).calls
        = [Call.GetRoomPrice b.HotelID b.RoomID, Call.RepoCreateBooking priced] ∧
      paymentRequests (uc.CreateBooking rt b).calls = [] ∧
      publishedEvents (uc.CreateBooking rt b).calls = [] := by
  revert hcall
  simp only [BookingUseCase.CreateBooking]
  split
  · simp
  · split
    · simp
    · rename_i price hprice
      intro hcall
      have hpriced : priced =
          { b with
            TotalPrice := F64.mul price (F64.ofInt (nightsOf (b.CheckOutDate.Sub b.CheckInDate)))
            ID := rt.newUUID.String
            Status := "confirmed"
            PaymentStatus := "pending" } := by
        revert hcall
        split
        · simp
        · split
          · cases uc.paymentClient <;> simp
          · cases uc.paymentClient <;> simp
      subst hpriced
      simp [hstore, paymentRequests, publishedEvents]

/-- A store whose insert fails: its error comes back, nothing is paid or published. -/
theorem CreateBooking_store_error_aborts_witness :
    (failingStoreUseCase.CreateBooking sampleRuntime (bookingBetween 0 (48 * Hour))).err
        = some "insert failed" ∧
      paymentRequests
        (failingStoreUseCase.CreateBooking sampleRuntime (bookingBetween 0 (48 * Hour))).calls = [] ∧
      publishedEvents
        (failingStoreUseCase.CreateBooking sampleRuntime (bookingBetween 0 (48 * Hour))).calls = [] :=
  have h := CreateBooking_store_error_aborts failingStoreUseCase sampleRuntime
    (bookingBetween 0 (48 * Hour))
    { bookingBetween 0 (48 * Hour) with
      TotalPrice := F64.mul (F64.finite 5000) (F64.ofInt (nightsOf ((48 * Hour) - 0)))
      ID := sampleRuntime.newUUID.String
      Status := "confirmed"
      PaymentStatus := "pending" }
    "insert failed"
    (by simp [BookingUseCase.CreateBooking, failingStoreUseCase, failingRepo, okUseCase, okRepo,
          bookingBetween, Time.After, Time.Sub, Hour, maxDuration, minDuration])
    rfl
  ⟨h.1, h.2.2.1, h.2.2.2⟩

/-! ## theorems: payment settlement -/

/-- C6: the status of the webhook built by `processPaymentAsync` is decided by the
amount alone. It is `failed` when the amount is at most zero and `paid` when the
amount is above zero, it is never `processing`, and two requests with the same amount
get the same status whatever their booking id, currency and payment id. -/
theorem processPaymentAsync_status_by_amount (ps : PaymentService) (env : PaymentEnv)
    (paymentID : String) (req : PaymentRequest) :
    (F64.le req.Amount (F64.finite 0) = true →
        (ps.processPaymentAsync env paymentID req).webhook.Status = "failed") ∧
      (F64.lt (F64.finite 0) req.Amount = true →
        (ps.processPaymentAsync env paymentID req).webhook.Status = "paid") ∧
      (ps.processPaymentAsync env paymentID req).webhook.Status ≠ "processing" ∧
      ∀ (ps2 : PaymentService) (env2 : PaymentEnv) (paymentID2 : String) (req2 : PaymentRequest),
        req2.Amount = req.Amount →
        (ps2.processPaymentAsync env2 paymentID2 req2).webhook.Status
          = (ps.processPaymentAsync env paymentID req).webhook.Status := by
  refine ⟨?_, ?_, ?_, ?_⟩
  · intro h
    simp [PaymentService.processPaymentAsync, h]
  · intro h
    have hle : F64.le req.Amount (F64.finite 0) = false := by
      cases hA : req.Amount with
      | finite q =>
        rw [hA] at h
        simp only [F64.lt, decide_eq_true_eq] at h
        simp only [F64.le, decide_eq_false_iff_not, not_le]
        exact h
      | posInf => rfl
      | negInf => rw [hA] at h; simp [F64.lt] at h
      | nan => rfl
    simp [PaymentService.processPaymentAsync, hle]
  · simp only [PaymentService.processPaymentAsync]
    split <;> decide
  · intro ps2 env2 paymentID2 req2 h
    simp [PaymentService.processPaymentAsync, h]

/-- A request for nothing settles as `failed`, a request for 100 as `paid`. -/
theorem processPaymentAsync_status_by_amount_witness :
    F64.le (F64.finite 0) (F64.finite 0) = true ∧
      (samplePaymentService.processPaymentAsync samplePaymentEnv "pay-1"
        ⟨"booking123", F64.finite 0, "RUB"⟩).webhook.Status = "failed" ∧
      F64.lt (F64.finite 0) (F64.finite 100) = true ∧
      (samplePaymentService.processPaymentAsync samplePaymentEnv "pay-2"
        ⟨"booking123", F64.finite 100, "RUB"⟩).webhook.Status = "paid" :=
  ⟨by decide,
    (processPaymentAsync_status_by_amount samplePaymentService samplePaymentEnv "pay-1"
      ⟨"booking123", F64.finite 0, "RUB"⟩).1 (by decide),
    by decide,
    (processPaymentAsync_status_by_amount samplePaymentService samplePaymentEnv "pay-2"
      ⟨"booking123", F64.finite 100, "RUB"⟩).2.1 (by decide)⟩

/-! ## theorems: payment-status update -/

theorem Char.toNat_ofNat_of_lt (n : Nat) (h : n < 55296) : (Char.ofNat n).toNat = n := by
  have hv : n.isValidChar := Or.inl h
  simp only [Char.ofNat, hv, dite_true]
  rfl

theorem Char.eq_of_toNat_eq (a b : Char) (h : a.toNat = b.toNat) : a = b := by
  rw [← Char.ofNat_toNat a, ← Char.ofNat_toNat b, h]

theorem Char.lt_iff_toNat (a b : Char) : a < b ↔ a.toNat < b.toNat := Iff.rfl

/-- The loop stops at once when its condition fails. -/
theorem foldLoop_stop (caseOrbit : Char → Char) (sr tr r : Char) (n : Nat)
    (h : ¬(r ≠ sr ∧ r < tr)) : foldLoop caseOrbit sr tr n r = some r := by
  cases n <;> simp only [foldLoop, if_neg h]

/-- From a plain lower-case letter the orbit walk visits the capital and comes back. -/
theorem foldLoop_plainLower (caseOrbit : Char → Char) (s0 t0 : Char) (n : Nat)
    (hs : plainLower s0) (ht : 128 ≤ t0.toNat) :
    foldLoop caseOrbit s0 t0 (n + 1) (SimpleFold caseOrbit s0) = some s0 := by
  obtain ⟨h1, h2, h3, h4⟩ := hs
  have hup : SimpleFold caseOrbit s0 = Char.ofNat (s0.toNat - 32) := by
    have h5 : ¬(65 ≤ s0.toNat ∧ s0.toNat ≤ 90) := by omega
    have h6 : s0.toNat < 128 := by omega
    simp only [SimpleFold, asciiFold, if_pos h6, if_neg h3, if_neg h4, if_neg h5,
      if_pos (And.intro h1 h2)]
  have hupn : (Char.ofNat (s0.toNat - 32)).toNat = s0.toNat - 32 :=
    Char.toNat_ofNat_of_lt _ (by omega)
  have hback : SimpleFold caseOrbit (Char.ofNat (s0.toNat - 32)) = s0 := by
    have h6 : (Char.ofNat (s0.toNat - 32)).toNat < 128 := by omega
    have h7 : ¬((Char.ofNat (s0.toNat - 32)).toNat = 107) := by omega
    have h8 : ¬((Char.ofNat (s0.toNat - 32)).toNat = 115) := by omega
    have h9 : 65 ≤ (Char.ofNat (s0.toNat - 32)).toNat ∧ (Char.ofNat (s0.toNat - 32)).toNat ≤ 90 := by
      omega
    simp only [SimpleFold, asciiFold, if_pos h6, if_neg h7, if_neg h8, if_pos h9]
    apply Char.eq_of_toNat_eq
    rw [hupn, Char.toNat_ofNat_of_lt _ (by omega)]
    omega
  have hcond : Char.ofNat (s0.toNat - 32) ≠ s0 ∧ Char.ofNat (s0.toNat - 32) < t0 := by
    constructor
    · intro h
      have := congrArg Char.toNat h
      omega
    · rw [Char.lt_iff_toNat]
      omega
  rw [hup]
  simp only [foldLoop, if_pos hcond, hback]
  exact foldLoop_stop _ _ _ _ _ (fun h => h.1 rfl)

/-- Against a word of plain lower-case letters, `EqualFold` returns, and returns
true exactly for the strings that equal the word once ASCII capitals are lowered. -/
theorem equalFoldRunes_plainLower (caseOrbit : Char → Char) (w : List Char)
    (hw : ∀ c ∈ w, plainLower c) (t : List Char) :
    equalFoldRunes caseOrbit w t
      = some (decide (t.map (fun c => lowerCode c.toNat) = w.map Char.toNat)) := by
  induction w generalizing t with
  | nil => cases t <;> simp [equalFoldRunes]
  | cons s0 s ih =>
    cases t with
    | nil => simp [equalFoldRunes]
    | cons t0 t =>
      have hs := hw s0 (List.mem_cons_self _ _)
      have ih := ih (fun c hc => hw c (List.mem_cons_of_mem _ hc)) t
      obtain ⟨h1, h2, h3, h4⟩ := hs
      simp only [equalFoldRunes, List.map_cons, List.cons.injEq]
      by_cases heq : t0 = s0
      · have hl : lowerCode t0.toNat = s0.toNat := by
          rw [heq]
          simp only [lowerCode]
          rw [if_neg (by omega)]
        simp only [if_pos heq, ih, hl, true_and]
      · have hne : t0.toNat ≠ s0.toNat := fun h => heq (Char.eq_of_toNat_eq _ _ h)
        rw [if_neg heq]
        by_cases hlt : t0 < s0
        · have hlt2 : t0.toNat < s0.toNat := (Char.lt_iff_toNat _ _).1 hlt
          have h128 : s0.toNat < 128 := by omega
          simp only [if_pos hlt, if_pos h128]
          by_cases hcap : 65 ≤ t0.toNat ∧ t0.toNat ≤ 90 ∧ s0.toNat = t0.toNat + 32
          · have hl : lowerCode t0.toNat = s0.toNat := by
              simp only [lowerCode]
              rw [if_pos ⟨hcap.1, hcap.2.1⟩]
              exact hcap.2.2.symm
            simp only [if_pos hcap, ih, hl, true_and]
          · have hl : lowerCode t0.toNat ≠ s0.toNat := by
              simp only [lowerCode]
              split <;> omega
            simp only [if_neg hcap, hl, false_and, decide_False]
        · have hgt : s0.toNat < t0.toNat := by
            have : ¬ t0.toNat < s0.toNat := fun h => hlt ((Char.lt_iff_toNat _ _).2 h)
            omega
          have hl : lowerCode t0.toNat ≠ s0.toNat := by
            simp only [lowerCode]
            split <;> omega
          simp only [if_neg hlt]
          by_cases h128 : t0.toNat < 128
          · have hcap : ¬(65 ≤ s0.toNat ∧ s0.toNat ≤ 90 ∧ t0.toNat = s0.toNat + 32) := by omega
            simp only [if_pos h128, if_neg hcap, hl, false_and, decide_False]
          · have hloop := foldLoop_plainLower caseOrbit s0 t0 1114111 ⟨h1, h2, h3, h4⟩ (by omega)
            have hfuel : runeCount = 1114111 + 1 := rfl
            have hst : ¬ s0 = t0 := fun h => heq h.symm
            simp only [if_neg h128, hfuel, hloop, if_neg hst, hl, false_and, decide_False]

/-- The four valid statuses are words of plain lower-case letters. -/
theorem validStatuses_plainLower :
    ∀ w ∈ validStatuses, ∀ c ∈ w.data, plainLower c := by
  decide

/-- On a word of plain lower-case letters the case key is the word itself. -/
theorem caseKey_plainLower (w : String) (hw : ∀ c ∈ w.data, plainLower c) :
    caseKey w = w.data.map Char.toNat := by
  simp only [caseKey]
  apply List.map_congr_left
  intro c hc
  obtain ⟨h1, -, -, -⟩ := hw c hc
  simp only [lowerCode]
  rw [if_neg (by omega)]

/-- Against a valid status `EqualFold` returns, whatever the orbit tables hold for
the runes outside ASCII, and it decides equality ignoring letter case. -/
theorem EqualFold_validStatus (caseOrbit : Char → Char) (w : String) (hw : w ∈ validStatuses)
    (status : String) :
    EqualFold caseOrbit w status = some (decide (eqIgnoreCase w status)) := by
  have hplain := validStatuses_plainLower w hw
  rw [EqualFold, equalFoldRunes_plainLower caseOrbit w.data hplain status.data]
  have hiff : (status.data.map (fun c => lowerCode c.toNat) = w.data.map Char.toNat)
      ↔ eqIgnoreCase w status := by
    rw [eqIgnoreCase, caseKey_plainLower w hplain]
    exact eq_comm
  simp only [hiff]

/-- The loop over `validStatuses` returns, with `found` telling whether the status
equals one of the four words ignoring letter case. -/
theorem findStatus_validStatuses (caseOrbit : Char → Char) (status : String) :
    findStatus caseOrbit status validStatuses
      = some (decide (∃ w ∈ validStatuses, eqIgnoreCase w status)) := by
  have h1 := EqualFold_validStatus caseOrbit "pending" (by decide) status
  have h2 := EqualFold_validStatus caseOrbit "paid" (by decide) status
  have h3 := EqualFold_validStatus caseOrbit "failed" (by decide) status
  have h4 := EqualFold_validStatus caseOrbit "refunded" (by decide) status
  simp only [validStatuses, findStatus, h1, h2, h3, h4, List.mem_cons, List.mem_singleton,
    List.not_mem_nil, or_false, exists_eq_or_imp, exists_eq_left]
  by_cases c1 : eqIgnoreCase "pending" status
  · simp [c1]
  · by_cases c2 : eqIgnoreCase "paid" status
    · simp [c1, c2]
    · by_cases c3 : eqIgnoreCase "failed" status
      · simp [c1, c2, c3]
      · by_cases c4 : eqIgnoreCase "refunded" status
        · simp [c1, c2, c3, c4]
        · simp [c1, c2, c3, c4]

/-- C4: for every booking id and every status that equals none of `pending`,
`paid`, `failed`, `refunded` ignoring letter case, `UpdatePaymentStatus` returns the
error `invalid payment status` and makes no call to the store. -/
theorem UpdatePaymentStatus_rejects_unknown_status (uc : BookingUseCase)
    (caseOrbit : Char → Char) (id status : String)
    (hstatus : ∀ w ∈ validStatuses, ¬ eqIgnoreCase w status) :
    uc.UpdatePaymentStatus caseOrbit id status = some ⟨some "invalid payment status", []⟩ := by
  have hfalse : decide (∃ w ∈ validStatuses, eqIgnoreCase w status) = false := by
    rw [decide_eq_false_iff_not]
    rintro ⟨w, hw, heq⟩
    exact hstatus w hw heq
  simp only [BookingUseCase.UpdatePaymentStatus, findStatus_validStatuses, hfalse]

/-- The status `invalid` of the repository's own test is rejected without a store call. -/
theorem UpdatePaymentStatus_rejects_unknown_status_witness :
    (∀ w ∈ validStatuses, ¬ eqIgnoreCase w "invalid") ∧
      (okUseCase 5000).UpdatePaymentStatus noOrbit "booking123" "invalid"
        = some ⟨some "invalid payment status", []⟩ :=
  ⟨by decide,
    UpdatePaymentStatus_rejects_unknown_status (okUseCase 5000) noOrbit "booking123" "invalid"
      (by decide)⟩

/-- C5: for every booking id and every status that equals one of `pending`, `paid`,
`failed`, `refunded` ignoring letter case, `UpdatePaymentStatus` makes exactly one
store call, `UpdatePaymentStatus` with the same id and the status as supplied, and
returns what that call returns. -/
theorem UpdatePaymentStatus_forwards_valid_status (uc : BookingUseCase)
    (caseOrbit : Char → Char) (id status : String)
    (hstatus : ∃ w ∈ validStatuses, eqIgnoreCase w status) :
    uc.UpdatePaymentStatus caseOrbit id status
      = some ⟨uc.repo.UpdatePaymentStatus id status, [Call.RepoUpdatePaymentStatus id status]⟩ := by
  have htrue : decide (∃ w ∈ validStatuses, eqIgnoreCase w status) = true :=
    decide_eq_true hstatus
  simp only [BookingUseCase.UpdatePaymentStatus, findStatus_validStatuses, htrue]

/-- The upper-case status `PAID` reaches the store unchanged. -/
theorem UpdatePaymentStatus_forwards_valid_status_witness :
    (∃ w ∈ validStatuses, eqIgnoreCase w "PAID") ∧
      (okUseCase 5000).UpdatePaymentStatus noOrbit "booking123" "PAID"
        = some ⟨none, [Call.RepoUpdatePaymentStatus "booking123" "PAID"]⟩ :=
  ⟨by decide,
    UpdatePaymentStatus_forwards_valid_status (okUseCase 5000) noOrbit "booking123" "PAID"
      (by decide)⟩

/-! ## theorems: pricing -/

/-- The number of nights the code computes is the number of whole 24-hour periods,
at least one, for every duration up to the largest one that is shorter than 4095
hours or does not end within the last microsecond before a whole number of 24-hour
periods. -/
theorem nightsOf_eq (d : Int) (h0 : 0 ≤ d) (h1 : d ≤ maxDuration)
    (hus : d < 4095 * Hour ∨ d % (24 * Hour) + 1000 ≤ 24 * Hour) :
    nightsOf d = max 1 (d / (24 * Hour)) := by
  have h24 : 24 * Hour = 86400000000000 := by decide
  have hmax : maxDuration = 9223372036854775807 := by decide
  have h4095 : 4095 * Hour = 14742000000000000 := by decide
  rw [h24, h4095] at hus
  rw [h24]
  rw [hmax] at h1
  have hcore := F64.toInt_hours_div (d / 3600000000000) (d % 3600000000000)
    (by omega) (by omega) (by omega) (by omega) (by omega)
  have htd : Int.tdiv d 3600000000000 = d / 3600000000000 :=
    Int.tdiv_eq_ediv h0 (by norm_num)
  have htm : Int.tmod d 3600000000000 = d % 3600000000000 :=
    Int.tmod_eq_emod h0 (by norm_num)
  have hdiv : d / 3600000000000 / 24 = d / 86400000000000 := by omega
  simp only [nightsOf, Duration.Hours, Hour, htd, htm, hcore, hdiv]
  split
  · rw [max_eq_left (by omega)]
  · rw [max_eq_right (by omega)]

/-- One nanosecond short of 171 days the code counts 171 nights. -/
theorem nightsOf_171_days_less_1ns : nightsOf (171 * 24 * Hour - 1) = 171 := by
  have hd : (171 * 24 * Hour - 1 : ℤ) = 14774399999999999 := by decide
  have htd : Int.tdiv (14774399999999999 : ℤ) 3600000000000 = 4103 := by decide
  have htm : Int.tmod (14774399999999999 : ℤ) 3600000000000 = 3599999999999 := by decide
  have ha := F64.ofInt_eq_finite 4103 (by norm_num) (by norm_num)
  have hb := F64.ofInt_eq_finite 3599999999999 (by norm_num) (by norm_num)
  have hc0 : (0 : ℚ) ≤ (3599999999999 : ℚ) / 3600000000000 := by norm_num
  have hc1 := F64.abs_rndQ_sub_le ((3599999999999 : ℚ) / 3600000000000) (-1) hc0 (by norm_num)
    (by norm_num)
  rw [abs_le] at hc1
  have e54 : (2 : ℚ) ^ ((-1 : ℤ) - 53) = 1 / 18014398509481984 := by norm_num
  rw [e54] at hc1
  have hbig : (4194304 : ℚ) < (2 : ℚ) ^ (1024 : ℕ) :=
    calc (4194304 : ℚ) = (2 : ℚ) ^ (22 : ℕ) := by norm_num
      _ < (2 : ℚ) ^ (1024 : ℕ) := pow_lt_pow_right₀ (by norm_num) (by norm_num)
  have hcfin : F64.round ((3599999999999 : ℚ) / 3600000000000)
      = F64.finite (F64.rndQ ((3599999999999 : ℚ) / 3600000000000)) := by
    apply F64.round_eq_finite <;> linarith [hc1.1, hc1.2]
  have hH := F64.rndQ_hours_171_days
  have hHfin : F64.round ((4103 : ℚ) + F64.rndQ ((3599999999999 : ℚ) / 3600000000000))
      = F64.finite 4104 := by
    rw [F64.round_eq_finite, hH] <;> rw [hH] <;> linarith
  have hq : (4104 : ℚ) / 24 = ((171 : ℤ) : ℚ) := by norm_num
  have hQ := F64.ofInt_eq_finite 171 (by norm_num) (by norm_num)
  rw [F64.ofInt] at hQ
  have hfl : ⌊((171 : ℤ) : ℚ)⌋ = 171 := Int.floor_intCast 171
  have ha2 : F64.ofInt 4103 = F64.finite (4103 : ℚ) := by rw [ha]; norm_num
  have hb2 : F64.ofInt 3599999999999 = F64.finite (3599999999999 : ℚ) := by rw [hb]; norm_num
  have hdiv1 : F64.div (F64.finite (3599999999999 : ℚ)) (F64.finite 3600000000000)
      = F64.finite (F64.rndQ ((3599999999999 : ℚ) / 3600000000000)) := by
    simp only [F64.div]
    rw [if_neg (by norm_num), hcfin]
  have hadd : F64.add (F64.finite (4103 : ℚ))
      (F64.finite (F64.rndQ ((3599999999999 : ℚ) / 3600000000000))) = F64.finite 4104 := by
    simp only [F64.add]
    exact hHfin
  have hdiv2 : F64.div (F64.finite (4104 : ℚ)) (F64.finite 24) = F64.finite ((171 : ℤ) : ℚ) := by
    simp only [F64.div]
    rw [if_neg (by norm_num), hq, hQ]
  have hti : F64.toInt (F64.finite ((171 : ℤ) : ℚ)) = 171 := by
    simp only [F64.toInt]
    rw [if_pos (by norm_num), hfl]
    decide
  rw [hd]
  simp only [nightsOf, Duration.Hours, Hour, htd, htm]
  rw [ha2, hb2, hdiv1, hadd, hdiv2, hti]
  decide

/-- The product of two small non-negative integers is computed exactly. -/
theorem F64.mul_ofInt (a n : ℤ) (hn0 : 0 ≤ n) (hn : n < 2 ^ 53) (han0 : 0 ≤ a * n)
    (han : a * n < 2 ^ 53) :
    F64.mul (F64.finite (a : ℚ)) (F64.ofInt n) = F64.finite ((a * n : ℤ) : ℚ) := by
  have h := F64.ofInt_eq_finite (a * n) han0 han
  rw [F64.ofInt] at h
  rw [F64.ofInt_eq_finite n hn0 hn]
  simp only [F64.mul]
  rw [← h]
  push_cast
  rfl

/-- Once the date check and the price lookup have passed, the total in the record
written to the store and in the caller's record is the rate times the nights the
code counts for the saturated difference of the two dates. -/
theorem CreateBooking_total_of_nights (uc : BookingUseCase) (rt : Runtime) (b : Booking)
    (rate : F64) (hdate : b.CheckInDate.After b.CheckOutDate = false)
    (hprice : uc.hotelClient.GetRoomPrice b.HotelID b.RoomID = .ok rate) :
    (uc.CreateBooking rt b).booking.TotalPrice
        = F64.mul rate (F64.ofInt (nightsOf (b.CheckOutDate.Sub b.CheckInDate))) ∧
      ∃ priced : Booking, storeWrites (uc.CreateBooking rt b).calls = [priced] ∧
        priced.TotalPrice
          = F64.mul rate (F64.ofInt (nightsOf (b.CheckOutDate.Sub b.CheckInDate))) := by
  simp only [BookingUseCase.CreateBooking, hdate, hprice]
  cases hw : (uc.repo.CreateBooking _).err with
  | some e => simp [storeWrites]
  | none =>
    cases hpc : uc.paymentClient with
    | none => simp [storeWrites]
    | some pc =>
      simp only []
      cases hpay : pc.CreatePayment _ _ with
      | some e => simp [storeWrites]
      | none => simp [storeWrites]

/-- C1, as amended: for every booking whose check-in is strictly before its check-out,
whose duration `d` fits a `Duration` and is either shorter than 4095 hours or does
not end within the last microsecond before a whole number of 24-hour periods, and
whose price lookup succeeds, `CreateBooking` sets `TotalPrice`, in the record written
to the store and in the caller's record, to the `float64` product of the nightly rate
and `max(1, floor(h/24))`, `h` being the exact duration in hours. -/
theorem CreateBooking_total_price (uc : BookingUseCase) (rt : Runtime) (b : Booking) (rate : F64)
    (hlt : b.CheckInDate.unixNano < b.CheckOutDate.unixNano)
    (hrange : b.CheckOutDate.unixNano - b.CheckInDate.unixNano ≤ maxDuration)
    (hus : b.CheckOutDate.unixNano - b.CheckInDate.unixNano < 4095 * Hour ∨
      (b.CheckOutDate.unixNano - b.CheckInDate.unixNano) % (24 * Hour) + 1000 ≤ 24 * Hour)
    (hprice : uc.hotelClient.GetRoomPrice b.HotelID b.RoomID = .ok rate) :
    (uc.CreateBooking rt b).booking.TotalPrice
        = F64.mul rate (F64.ofInt
            (max 1 ((b.CheckOutDate.unixNano - b.CheckInDate.unixNano) / (24 * Hour)))) ∧
      ∃ priced : Booking, storeWrites (uc.CreateBooking rt b).calls = [priced] ∧
        priced.TotalPrice
          = F64.mul rate (F64.ofInt
              (max 1 ((b.CheckOutDate.unixNano - b.CheckInDate.unixNano) / (24 * Hour)))) := by
  have hdate : b.CheckInDate.After b.CheckOutDate = false := by
    simp only [Time.After, decide_eq_false_iff_not, not_lt]
    omega
  have hsub : b.CheckOutDate.Sub b.CheckInDate
      = b.CheckOutDate.unixNano - b.CheckInDate.unixNano := by
    have hmin : minDuration = -9223372036854775808 := by decide
    simp only [Time.Sub]
    rw [if_neg (by omega), if_neg (by rw [hmin]; omega)]
  have hn := nightsOf_eq (b.CheckOutDate.unixNano - b.CheckInDate.unixNano) (by omega) hrange hus
  have h := CreateBooking_total_of_nights uc rt b rate hdate hprice
  rw [hsub, hn] at h
  exact h

/-- The scenario of the specification: a rate of 5000 over exactly two days gives a
total of 10000. -/
theorem CreateBooking_total_price_witness :
    (bookingBetween 0 (48 * Hour)).CheckInDate.unixNano
        < (bookingBetween 0 (48 * Hour)).CheckOutDate.unixNano ∧
      (bookingBetween 0 (48 * Hour)).CheckOutDate.unixNano
        - (bookingBetween 0 (48 * Hour)).CheckInDate.unixNano ≤ maxDuration ∧
      ((bookingBetween 0 (48 * Hour)).CheckOutDate.unixNano
          - (bookingBetween 0 (48 * Hour)).CheckInDate.unixNano < 4095 * Hour ∨
        ((bookingBetween 0 (48 * Hour)).CheckOutDate.unixNano
          - (bookingBetween 0 (48 * Hour)).CheckInDate.unixNano) % (24 * Hour) + 1000
            ≤ 24 * Hour) ∧
      ((okUseCase 5000).CreateBooking sampleRuntime (bookingBetween 0 (48 * Hour))).booking.TotalPrice
        = F64.finite 10000 :=
  have h := CreateBooking_total_price (okUseCase 5000) sampleRuntime (bookingBetween 0 (48 * Hour))
    (F64.finite 5000) (by decide) (by decide) (by decide) rfl
  have hn : max 1 (((bookingBetween 0 (48 * Hour)).CheckOutDate.unixNano
      - (bookingBetween 0 (48 * Hour)).CheckInDate.unixNano) / (24 * Hour)) = 2 := by decide
  have hm : F64.mul (F64.finite 5000) (F64.ofInt 2) = F64.finite 10000 := by
    have := F64.mul_ofInt 5000 2 (by norm_num) (by norm_num) (by norm_num) (by norm_num)
    norm_num at this
    exact this
  ⟨by decide, by decide, by decide, by rw [h.1, hn, hm]⟩

/-- The total is not always the rate times `max(1, floor(h/24))` of the exact duration:
two inputs, each with a rate of 5000 and every collaborator succeeding.
A stay one nanosecond short of 171 days is charged 171 nights, 855000, although
`max(1, floor(h/24))` is 170; the `float64` sum inside `Duration.Hours` rounds up to
4104 hours. A stay of 109500 days is charged 106751 nights, 533755000: `Time.Sub`
saturates at the largest `Duration`. -/
theorem CreateBooking_total_price_not_exact :
    (stay171DaysLess1ns.CheckInDate.unixNano < stay171DaysLess1ns.CheckOutDate.unixNano ∧
      ((okUseCase 5000).CreateBooking sampleRuntime stay171DaysLess1ns).err = none ∧
      ((okUseCase 5000).CreateBooking sampleRuntime stay171DaysLess1ns).booking.TotalPrice
        = F64.finite 855000 ∧
      F64.mul (F64.finite 5000) (F64.ofInt (max 1
          ((stay171DaysLess1ns.CheckOutDate.unixNano - stay171DaysLess1ns.CheckInDate.unixNano)
            / (24 * Hour)))) = F64.finite 850000 ∧
      ((okUseCase 5000).CreateBooking sampleRuntime stay171DaysLess1ns).booking.TotalPrice
        ≠ F64.mul (F64.finite 5000) (F64.ofInt (max 1
          ((stay171DaysLess1ns.CheckOutDate.unixNano - stay171DaysLess1ns.CheckInDate.unixNano)
            / (24 * Hour))))) ∧
    (stay300Years.CheckInDate.unixNano < stay300Years.CheckOutDate.unixNano ∧
      ((okUseCase 5000).CreateBooking sampleRuntime stay300Years).err = none ∧
      ((okUseCase 5000).CreateBooking sampleRuntime stay300Years).booking.TotalPrice
        = F64.finite 533755000 ∧
      F64.mul (F64.finite 5000) (F64.ofInt (max 1
          ((stay300Years.CheckOutDate.unixNano - stay300Years.CheckInDate.unixNano)
            / (24 * Hour)))) = F64.finite 547500000 ∧
      ((okUseCase 5000).CreateBooking sampleRuntime stay300Years).booking.TotalPrice
        ≠ F64.mul (F64.finite 5000) (F64.ofInt (max 1
          ((stay300Years.CheckOutDate.unixNano - stay300Years.CheckInDate.unixNano)
            / (24 * Hour))))) := by
  have hmul : ∀ n : ℤ, 0 ≤ n → n < 1000000 →
      F64.mul (F64.finite 5000) (F64.ofInt n) = F64.finite (5000 * (n : ℚ)) := by
    intro n h0 h1
    have := F64.mul_ofInt 5000 n h0 (by omega) (by omega) (by omega)
    rw [show ((5000 : ℤ) : ℚ) = 5000 by norm_num] at this
    rw [this]
    push_cast
    rfl
  -- the stay that ends just before a day boundary
  have ha := CreateBooking_total_of_nights (okUseCase 5000) sampleRuntime stay171DaysLess1ns
    (F64.finite 5000) (by decide) rfl
  have hsubA : stay171DaysLess1ns.CheckOutDate.Sub stay171DaysLess1ns.CheckInDate
      = 171 * 24 * Hour - 1 := by decide
  have hclaimA : max 1 ((stay171DaysLess1ns.CheckOutDate.unixNano
      - stay171DaysLess1ns.CheckInDate.unixNano) / (24 * Hour)) = 170 := by decide
  have htotA : ((okUseCase 5000).CreateBooking sampleRuntime stay171DaysLess1ns).booking.TotalPrice
      = F64.finite 855000 := by
    rw [ha.1, hsubA, nightsOf_171_days_less_1ns, hmul 171 (by norm_num) (by norm_num)]
    norm_num
  have hvalA : F64.mul (F64.finite 5000) (F64.ofInt 170) = F64.finite 850000 := by
    rw [hmul 170 (by norm_num) (by norm_num)]
    norm_num
  -- the stay longer than the largest duration
  have hb := CreateBooking_total_of_nights (okUseCase 5000) sampleRuntime stay300Years
    (F64.finite 5000) (by decide) rfl
  have hsubB : stay300Years.CheckOutDate.Sub stay300Years.CheckInDate = maxDuration := by decide
  have hnB : nightsOf maxDuration = 106751 := by
    rw [nightsOf_eq maxDuration (by decide) (le_refl _) (Or.inr (by decide))]
    decide
  have hclaimB : max 1 ((stay300Years.CheckOutDate.unixNano
      - stay300Years.CheckInDate.unixNano) / (24 * Hour)) = 109500 := by decide
  have htotB : ((okUseCase 5000).CreateBooking sampleRuntime stay300Years).booking.TotalPrice
      = F64.finite 533755000 := by
    rw [hb.1, hsubB, hnB, hmul 106751 (by norm_num) (by norm_num)]
    norm_num
  have hvalB : F64.mul (F64.finite 5000) (F64.ofInt 109500) = F64.finite 547500000 := by
    rw [hmul 109500 (by norm_num) (by norm_num)]
    norm_num
  have hokA : ((okUseCase 5000).CreateBooking sampleRuntime stay171DaysLess1ns).err = none := by
    simp [BookingUseCase.CreateBooking, okUseCase, okRepo, stay171DaysLess1ns, bookingBetween,
      Time.After, Hour]
  have hokB : ((okUseCase 5000).CreateBooking sampleRuntime stay300Years).err = none := by
    simp [BookingUseCase.CreateBooking, okUseCase, okRepo, stay300Years, bookingBetween,
      Time.After, Hour]
  refine ⟨⟨by decide, hokA, htotA, by rw [hclaimA, hvalA], ?_⟩,
    ⟨by decide, hokB, htotB, by rw [hclaimB, hvalB], ?_⟩⟩
  · rw [htotA, hclaimA, hvalA]
    intro h
    injection h with h
    norm_num at h
  · rw [htotB, hclaimB, hvalB]
    intro h
    injection h with h
    norm_num at h

/-! ## theorems: booking creation, failures after the write -/

/-- C11: when a payment client is configured and its `CreatePayment` is called and
returns an error `e`, `CreateBooking` returns `e` itself. The run consists of the price
lookup, one store `CreateBooking` and that payment request: the store receives no
further call (the booking is not rolled back) and no event is published. -/
theorem CreateBooking_payment_error_keeps_booking (uc : BookingUseCase) (rt : Runtime)
    (b : Booking) (pc : PaymentClient) (id : String) (amount : F64) (e : GoError)
    (hpc : uc.paymentClient = some pc)
    (hcall : Call.CreatePayment id amount ∈ (uc.CreateBooking rt b).calls)
    (hpay : pc.CreatePayment id amount = some e) :
    (uc.CreateBooking rt b).err = some e ∧
      (∃ priced : Booking,
        (uc.CreateBooking rt b).calls
          = [Call.GetRoomPrice b.HotelID b.RoomID, Call.RepoCreateBooking priced,
              Call.CreatePayment id amount] ∧
        storeCalls (uc.CreateBooking rt b).calls = [Call.RepoCreateBooking priced] ∧
        storeWrites (uc.CreateBooking rt b).calls = [priced]) ∧
      publishedEvents (uc.CreateBooking rt b).calls = [] := by
  revert hcall
  simp only [BookingUseCase.CreateBooking, hpc]
  split
  · simp
  · split
    · simp
    · split
      · simp
      · split
        · rename_i e2 he2
          intro hcall
          simp at hcall
          obtain ⟨hid, hamt⟩ := hcall
          subst hid hamt
          rw [hpay] at he2
          simp at he2
          subst he2
          simp [storeCalls, storeWrites, publishedEvents]
        · rename_i hnone
          intro hcall
          simp at hcall
          obtain ⟨hid, hamt⟩ := hcall
          subst hid hamt
          rw [hpay] at hnone
          simp at hnone

/-- C12: when the producer's `SendMessage` is called and returns an error `e`,
`CreateBooking` returns `e` itself although the booking has been written: the store
has received exactly one call, its `CreateBooking`, and nothing undoes it; with a
payment client configured the payment has been requested exactly once, and
accepted. -/
theorem CreateBooking_publish_error_after_write (uc : BookingUseCase) (rt : Runtime)
    (b : Booking) (key : String) (ev : BookingEvent) (e : GoError)
    (hcall : Call.SendMessage key ev ∈ (uc.CreateBooking rt b).calls)
    (hsend : uc.producer.SendMessage key ev = some e) :
    (uc.CreateBooking rt b).err = some e ∧
      ∃ priced : Booking,
        storeCalls (uc.CreateBooking rt b).calls = [Call.RepoCreateBooking priced] ∧
        storeWrites (uc.CreateBooking rt b).calls = [priced] ∧
        (∀ pc, uc.paymentClient = some pc →
          paymentRequests (uc.CreateBooking rt b).calls = [(priced.ID, priced.TotalPrice)] ∧
          pc.CreatePayment priced.ID priced.TotalPrice = none) ∧
        (uc.paymentClient = none → paymentRequests (uc.CreateBooking rt b).calls = []) := by
  revert hcall
  simp only [BookingUseCase.CreateBooking]
  split
  · simp
  · split
    · simp
    · split
      · simp
      · cases hpc : uc.paymentClient with
        | none =>
          simp only []
          intro hcall
          simp at hcall
          obtain ⟨hkey, hev⟩ := hcall
          subst hkey hev
          simp [hsend, storeCalls, storeWrites, paymentRequests]
        | some pc =>
          simp only []
          split
          · simp
          · rename_i hnone
            intro hcall
            simp at hcall
            obtain ⟨hkey, hev⟩ := hcall
            subst hkey hev
            simp [hsend, storeCalls, storeWrites, paymentRequests, hnone]

/-- C13: without a payment client, a run whose price lookup is made and succeeds,
whose store write succeeds and whose publication succeeds returns nil; it requests
no payment, writes the booking to the store once and publishes one event. -/
theorem CreateBooking_without_payment_client (uc : BookingUseCase) (rt : Runtime) (b : Booking)
    (rate : F64) (hnil : uc.paymentClient = none)
    (hcall : Call.GetRoomPrice b.HotelID b.RoomID ∈ (uc.CreateBooking rt b).calls)
    (hprice : uc.hotelClient.GetRoomPrice b.HotelID b.RoomID = .ok rate)
    (hstore : ∀ x, Call.RepoCreateBooking x ∈ (uc.CreateBooking rt b).calls →
      (uc.repo.CreateBooking x).err = none)
    (hsend : ∀ key ev, Call.SendMessage key ev ∈ (uc.CreateBooking rt b).calls →
      uc.producer.SendMessage key ev = none) :
    (uc.CreateBooking rt b).err = none ∧
      paymentRequests (uc.CreateBooking rt b).calls = [] ∧
      ∃ (priced : Booking) (ev : BookingEvent),
        (uc.CreateBooking rt b).calls
          = [Call.GetRoomPrice b.HotelID b.RoomID, Call.RepoCreateBooking priced,
              Call.SendMessage priced.ID ev] ∧
        storeWrites (uc.CreateBooking rt b).calls = [priced] ∧
        publishedEvents (uc.CreateBooking rt b).calls = [(priced.ID, ev)] := by
  revert hcall hstore hsend
  simp only [BookingUseCase.CreateBooking, hnil, hprice]
  split
  · simp
  · split
    · rename_i e he
      intro _ hstore _
      have := hstore _ (List.mem_cons_of_mem _ (List.mem_singleton.2 rfl))
      rw [this] at he
      simp at he
    · intro _ _ hsend
      have := hsend _ _ (List.mem_append_right _ (List.mem_singleton.2 rfl))
      simp [this, paymentRequests, storeWrites, publishedEvents]

/-- C14: every event `CreateBooking` hands to the producer is a snapshot of the
booking written to the store. Its `BookingID` is the generated ID and the message
key, its user, hotel, room and dates are the request's, its `TotalPrice` is the
total computed from the looked-up rate, the one written to the store and left in the
caller's record, and its `EventType` is `booking.created`. A run publishes at most
one event, and a run that returns nil publishes exactly one. -/
theorem CreateBooking_event_is_snapshot (uc : BookingUseCase) (rt : Runtime) (b : Booking) :
    (∀ key ev, Call.SendMessage key ev ∈ (uc.CreateBooking rt b).calls →
        ev.BookingID = rt.newUUID.String ∧ key = ev.BookingID ∧
        ev.UserID = b.UserID ∧ ev.HotelID = b.HotelID ∧ ev.RoomID = b.RoomID ∧
        ev.CheckInDate = b.CheckInDate ∧ ev.CheckOutDate = b.CheckOutDate ∧
        ev.EventType = "booking.created" ∧
        ev.TotalPrice = (uc.CreateBooking rt b).booking.TotalPrice ∧
        (∃ rate, uc.hotelClient.GetRoomPrice b.HotelID b.RoomID = .ok rate ∧
          ev.TotalPrice
            = F64.mul rate (F64.ofInt (nightsOf (b.CheckOutDate.Sub b.CheckInDate)))) ∧
        (∃ priced : Booking, storeWrites (uc.CreateBooking rt b).calls = [priced] ∧
          ev.BookingID = priced.ID ∧ ev.TotalPrice = priced.TotalPrice) ∧
        publishedEvents (uc.CreateBooking rt b).calls = [(key, ev)]) ∧
      (publishedEvents (uc.CreateBooking rt b).calls).length ≤ 1 ∧
      ((uc.CreateBooking rt b).err = none →
        (publishedEvents (uc.CreateBooking rt b).calls).length = 1) := by
  simp only [BookingUseCase.CreateBooking]
  split
  · simp [publishedEvents]
  · split
    · simp [publishedEvents]
    · rename_i rate hrate
      split
      · simp [publishedEvents]
      · cases hpc : uc.paymentClient with
        | none =>
          simp only []
          refine ⟨?_, by simp [publishedEvents], by simp [publishedEvents]⟩
          intro key ev hcall
          simp at hcall
          obtain ⟨hkey, hev⟩ := hcall
          subst hkey hev
          simp [storeWrites, publishedEvents]
          exact ⟨rate, hrate, rfl⟩
        | some pc =>
          simp only []
          split
          · simp [publishedEvents]
          · refine ⟨?_, by simp [publishedEvents], by simp [publishedEvents]⟩
            intro key ev hcall
            simp at hcall
            obtain ⟨hkey, hev⟩ := hcall
            subst hkey hev
            simp [storeWrites, publishedEvents]
            exact ⟨rate, hrate, rfl⟩

/-- A payment client that refuses: the error comes back, the booking stays written
and nothing is published. -/
theorem CreateBooking_payment_error_keeps_booking_witness :
    (failingPaymentUseCase.CreateBooking sampleRuntime (bookingBetween 0 (48 * Hour))).err
        = some "payment service unavailable" ∧
      (storeWrites
        (failingPaymentUseCase.CreateBooking sampleRuntime (bookingBetween 0 (48 * Hour))).calls).length
          = 1 ∧
      publishedEvents
        (failingPaymentUseCase.CreateBooking sampleRuntime (bookingBetween 0 (48 * Hour))).calls
          = [] :=
  have h := CreateBooking_payment_error_keeps_booking failingPaymentUseCase sampleRuntime
    (bookingBetween 0 (48 * Hour)) ⟨fun _ _ => some "payment service unavailable"⟩
    sampleRuntime.newUUID.String
    (F64.mul (F64.finite 5000) (F64.ofInt (nightsOf ((48 * Hour) - 0))))
    "payment service unavailable" rfl
    (by simp [BookingUseCase.CreateBooking, failingPaymentUseCase, okUseCase, okRepo,
          bookingBetween, Time.After, Time.Sub, Hour, maxDuration, minDuration])
    rfl
  ⟨h.1, by obtain ⟨p, -, -, hw⟩ := h.2.1; rw [hw]; rfl, h.2.2⟩

/-- A producer that cannot publish: the error comes back after the booking was written
and the payment requested. -/
theorem CreateBooking_publish_error_after_write_witness :
    (failingProducerUseCase.CreateBooking sampleRuntime (bookingBetween 0 (48 * Hour))).err
        = some "kafka unavailable" ∧
      (storeWrites
        (failingProducerUseCase.CreateBooking sampleRuntime (bookingBetween 0 (48 * Hour))).calls).length
          = 1 ∧
      (paymentRequests
        (failingProducerUseCase.CreateBooking sampleRuntime (bookingBetween 0 (48 * Hour))).calls).length
          = 1 :=
  have h := CreateBooking_publish_error_after_write failingProducerUseCase sampleRuntime
    (bookingBetween 0 (48 * Hour)) sampleRuntime.newUUID.String
    { BookingID := sampleRuntime.newUUID.String
      UserID := "user123"
      HotelID := "hotel123"
      RoomID := "room123"
      CheckInDate := ⟨0⟩
      CheckOutDate := ⟨48 * Hour⟩
      TotalPrice := F64.mul (F64.finite 5000) (F64.ofInt (nightsOf ((48 * Hour) - 0)))
      EventType := "booking.created"
      Timestamp := ⟨0⟩ }
    "kafka unavailable"
    (by simp [BookingUseCase.CreateBooking, failingProducerUseCase, okUseCase, okRepo,
          bookingBetween, Time.After, Time.Sub, Hour, maxDuration, minDuration, sampleRuntime])
    rfl
  ⟨h.1,
    by obtain ⟨p, -, hw, -, -⟩ := h.2; rw [hw]; rfl,
    by obtain ⟨p, -, -, hp, -⟩ := h.2; rw [(hp _ rfl).1]; rfl⟩

/-- Without a payment client a two-day booking is written and published, and no
payment is requested. -/
theorem CreateBooking_without_payment_client_witness :
    noPaymentUseCase.paymentClient = none ∧
      (noPaymentUseCase.CreateBooking sampleRuntime (bookingBetween 0 (48 * Hour))).err = none ∧
      paymentRequests
        (noPaymentUseCase.CreateBooking sampleRuntime (bookingBetween 0 (48 * Hour))).calls = [] ∧
      (storeWrites
        (noPaymentUseCase.CreateBooking sampleRuntime (bookingBetween 0 (48 * Hour))).calls).length
          = 1 ∧
      (publishedEvents
        (noPaymentUseCase.CreateBooking sampleRuntime (bookingBetween 0 (48 * Hour))).calls).length
          = 1 :=
  have h := CreateBooking_without_payment_client noPaymentUseCase sampleRuntime
    (bookingBetween 0 (48 * Hour)) (F64.finite 5000) rfl
    (by simp [BookingUseCase.CreateBooking, noPaymentUseCase, okUseCase, okRepo,
          bookingBetween, Time.After, Hour])
    rfl (fun _ _ => rfl) (fun _ _ _ => rfl)
  ⟨rfl, h.1, h.2.1,
    by obtain ⟨p, ev, -, hw, -⟩ := h.2.2; rw [hw]; rfl,
    by obtain ⟨p, ev, -, -, hp⟩ := h.2.2; rw [hp]; rfl⟩

/-- The event of a successful two-day booking: keyed by the generated ID, carrying
the request's references and the type `booking.created`. -/
theorem CreateBooking_event_is_snapshot_witness :
    (publishedEvents
        ((okUseCase 5000).CreateBooking sampleRuntime (bookingBetween 0 (48 * Hour))).calls).length
        = 1 ∧
      ∀ key ev, Call.SendMessage key ev
          ∈ ((okUseCase 5000).CreateBooking sampleRuntime (bookingBetween 0 (48 * Hour))).calls →
        key = "00112233-4455-6677-8899-aabbccddeeff" ∧ ev.BookingID = key ∧
        ev.UserID = "user123" ∧ ev.HotelID = "hotel123" ∧ ev.RoomID = "room123" ∧
        ev.EventType = "booking.created" :=
  have h := CreateBooking_event_is_snapshot (okUseCase 5000) sampleRuntime
    (bookingBetween 0 (48 * Hour))
  have hok : ((okUseCase 5000).CreateBooking sampleRuntime
      (bookingBetween 0 (48 * Hour))).err = none := by
    simp [BookingUseCase.CreateBooking, okUseCase, okRepo, bookingBetween, Time.After, Hour]
  ⟨h.2.2 hok, fun key ev hcall =>
    have hk := h.1 key ev hcall
    ⟨hk.2.1.trans (hk.1.trans (by decide)), hk.2.1.symm, hk.2.2.1, hk.2.2.2.1, hk.2.2.2.2.1,
      hk.2.2.2.2.2.2.2.1⟩⟩

/-! ## theorems: notification dispatch -/

/-- C15: `ProcessBookingEvent` returns nil for every event, whatever the customer
send, the owner lookup and the owner send return. -/
theorem ProcessBookingEvent_returns_nil (ns : NotificationService) (fmt : Fmt)
    (event : BookingEvent) : (ns.ProcessBookingEvent fmt event).err = none := by
  simp only [NotificationService.ProcessBookingEvent]
  split <;> rfl

/-- C16: when the owner lookup fails, `ProcessBookingEvent` makes exactly one
`SendNotification` call, the customer's, addressed to `event.UserID` and made before
the lookup; no owner notification is sent and nil is returned. -/
theorem ProcessBookingEvent_owner_lookup_fails (ns : NotificationService) (fmt : Fmt)
    (event : BookingEvent) (e : GoError)
    (hlookup : ns.hotelClient.GetHotelOwnerID event.HotelID = .error e) :
    sentNotifications (ns.ProcessBookingEvent fmt event).calls = [clientRequest fmt event] ∧
      (clientRequest fmt event).Recipient = event.UserID ∧
      (ns.ProcessBookingEvent fmt event).calls
        = [NotifyCall.SendNotification (clientRequest fmt event),
            NotifyCall.GetHotelOwnerID event.HotelID] ∧
      (ns.ProcessBookingEvent fmt event).err = none := by
  simp [NotificationService.ProcessBookingEvent, hlookup, sentNotifications, clientRequest]

/-- The scenario of the specification: the owner lookup fails, one notification goes
out, to the customer, and the event is reported as handled. -/
theorem ProcessBookingEvent_owner_lookup_fails_witness :
    noOwnerService.hotelClient.GetHotelOwnerID sampleEvent.HotelID = .error "hotel not found" ∧
      (sentNotifications (noOwnerService.ProcessBookingEvent sampleFmt sampleEvent).calls).length
        = 1 ∧
      (noOwnerService.ProcessBookingEvent sampleFmt sampleEvent).err = none :=
  have h := ProcessBookingEvent_owner_lookup_fails noOwnerService sampleFmt sampleEvent
    "hotel not found" rfl
  ⟨rfl, by rw [h.1]; rfl, h.2.2.2⟩

/-- C17: when the customer's `SendNotification` fails, `ProcessBookingEvent` goes
on to the owner lookup. If the lookup succeeds the owner notification is sent, two
`SendNotification` calls in all; if it fails the run ends there. Either way the
customer request is sent once only. -/
theorem ProcessBookingEvent_customer_send_fails (ns : NotificationService) (fmt : Fmt)
    (event : BookingEvent) (e : GoError)
    (hsend : ns.deliveryClient.SendNotification [] (clientRequest fmt event) = some e) :
    (∀ ownerID, ns.hotelClient.GetHotelOwnerID event.HotelID = .ok ownerID →
        (ns.ProcessBookingEvent fmt event).calls
          = [NotifyCall.SendNotification (clientRequest fmt event),
              NotifyCall.GetHotelOwnerID event.HotelID,
              NotifyCall.SendNotification (hotelierRequest fmt event ownerID)] ∧
        (sentNotifications (ns.ProcessBookingEvent fmt event).calls).length = 2) ∧
      (∀ e2, ns.hotelClient.GetHotelOwnerID event.HotelID = .error e2 →
        (ns.ProcessBookingEvent fmt event).calls
          = [NotifyCall.SendNotification (clientRequest fmt event),
              NotifyCall.GetHotelOwnerID event.HotelID]) ∧
      NotifyCall.GetHotelOwnerID event.HotelID ∈ (ns.ProcessBookingEvent fmt event).calls ∧
      (sentNotifications (ns.ProcessBookingEvent fmt event).calls).count (clientRequest fmt event)
        = 1 ∧
      ("failed to send notification to client", e) ∈ (ns.ProcessBookingEvent fmt event).logged ∧
      (ns.ProcessBookingEvent fmt event).err = none := by
  have hne : ∀ ownerID, hotelierRequest fmt event ownerID ≠ clientRequest fmt event := by
    intro ownerID h
    have := congrArg SendNotificationRequest.Subject h
    simp only [hotelierRequest, clientRequest] at this
    revert this
    decide
  refine ⟨?_, ?_, ?_, ?_, ?_, ?_⟩
  · intro ownerID hown
    simp [NotificationService.ProcessBookingEvent, hown, sentNotifications]
  · intro e2 herr
    simp [NotificationService.ProcessBookingEvent, herr]
  · simp only [NotificationService.ProcessBookingEvent]
    split <;> simp
  · simp only [NotificationService.ProcessBookingEvent]
    split
    · simp [sentNotifications]
    · rename_i ownerID _
      have := hne ownerID
      simp [sentNotifications, List.count_cons, this]
  · simp only [NotificationService.ProcessBookingEvent, hsend]
    split <;> simp
  · simp only [NotificationService.ProcessBookingEvent]
    split <;> rfl

/-- A delivery client whose first send fails: the owner is still looked up and
notified. -/
theorem ProcessBookingEvent_customer_send_fails_witness :
    firstSendFailsService.deliveryClient.SendNotification [] (clientRequest sampleFmt sampleEvent)
        = some "delivery error" ∧
      (firstSendFailsService.ProcessBookingEvent sampleFmt sampleEvent).calls
        = [NotifyCall.SendNotification (clientRequest sampleFmt sampleEvent),
            NotifyCall.GetHotelOwnerID "hotel-123",
            NotifyCall.SendNotification (hotelierRequest sampleFmt sampleEvent "owner-123")] ∧
      (firstSendFailsService.ProcessBookingEvent sampleFmt sampleEvent).logged
        = [("failed to send notification to client", "delivery error")] :=
  have h := ProcessBookingEvent_customer_send_fails firstSendFailsService sampleFmt sampleEvent
    "delivery error" rfl
  ⟨rfl, (h.1 "owner-123" rfl).1, rfl⟩

/-- A text occurs at the end of every text it is appended to. -/
theorem Contains_suffix (pre s : String) : Contains (pre ++ s) s := by
  refine ⟨pre.data, [], ?_⟩
  simp [String.data_append]

/-- Occurrence survives text added after. -/
theorem Contains_append_right (msg s post : String) (h : Contains msg s) :
    Contains (msg ++ post) s := by
  obtain ⟨a, c, hac⟩ := h
  refine ⟨a, c ++ post.data, ?_⟩
  simp [String.data_append, ← hac]

/-- C18: when the owner lookup succeeds with owner id `o`, `ProcessBookingEvent`
sends exactly two notifications, first to `event.UserID`, then to `o`. The owner's
message contains the booking id, the hotel id and the customer's `event.UserID`; the
customer's message contains the booking id and the hotel id. -/
theorem ProcessBookingEvent_notifies_customer_then_owner (ns : NotificationService) (fmt : Fmt)
    (event : BookingEvent) (o : String)
    (hlookup : ns.hotelClient.GetHotelOwnerID event.HotelID = .ok o) :
    sentNotifications (ns.ProcessBookingEvent fmt event).calls
        = [clientRequest fmt event, hotelierRequest fmt event o] ∧
      (clientRequest fmt event).Recipient = event.UserID ∧
      (hotelierRequest fmt event o).Recipient = o ∧
      Contains (hotelierRequest fmt event o).Message event.BookingID ∧
      Contains (hotelierRequest fmt event o).Message event.HotelID ∧
      Contains (hotelierRequest fmt event o).Message event.UserID ∧
      Contains (clientRequest fmt event).Message event.BookingID ∧
      Contains (clientRequest fmt event).Message event.HotelID := by
  refine ⟨?_, rfl, rfl, ?_, ?_, ?_, ?_, ?_⟩
  · simp [NotificationService.ProcessBookingEvent, hlookup, sentNotifications]
  · simp only [hotelierRequest, FormatBookingNotificationForHotelier]
    iterate 10 apply Contains_append_right
    exact Contains_suffix _ _
  · simp only [hotelierRequest, FormatBookingNotificationForHotelier]
    iterate 6 apply Contains_append_right
    exact Contains_suffix _ _
  · simp only [hotelierRequest, FormatBookingNotificationForHotelier]
    iterate 8 apply Contains_append_right
    exact Contains_suffix _ _
  · simp only [clientRequest, FormatBookingNotificationForClient]
    iterate 9 apply Contains_append_right
    exact Contains_suffix _ _
  · simp only [clientRequest, FormatBookingNotificationForClient]
    iterate 7 apply Contains_append_right
    exact Contains_suffix _ _

/-- The success case of the service's tests: the customer `user-123` is notified first,
the owner `owner-123` second, and the owner's message names the customer. -/
theorem ProcessBookingEvent_notifies_customer_then_owner_witness :
    okNotificationService.hotelClient.GetHotelOwnerID sampleEvent.HotelID = .ok "owner-123" ∧
      (sentNotifications (okNotificationService.ProcessBookingEvent sampleFmt sampleEvent).calls).map
          SendNotificationRequest.Recipient = ["user-123", "owner-123"] ∧
      Contains (hotelierRequest sampleFmt sampleEvent "owner-123").Message "user-123" :=
  have h := ProcessBookingEvent_notifies_customer_then_owner okNotificationService sampleFmt
    sampleEvent "owner-123" rfl
  ⟨rfl, by rw [h.1]; rfl, h.2.2.2.2.2.1⟩

/-! ## theorems: payment acceptance and settlement -/

/-- C19: for every payment request, whatever its amount, `ProcessPayment` returns
no error and a response whose payment id is the rendering of a freshly generated
identifier, hence not empty, and whose status is `processing`, never `paid` or
`failed`. -/
theorem ProcessPayment_returns_processing (ps : PaymentService) (rt : Runtime)
    (req : PaymentRequest) :
    (ps.ProcessPayment rt req).err = none ∧
      (ps.ProcessPayment rt req).response.PaymentID = rt.newUUID.String ∧
      (ps.ProcessPayment rt req).response.PaymentID ≠ "" ∧
      (ps.ProcessPayment rt req).response.Status = "processing" ∧
      (ps.ProcessPayment rt req).response.Status ≠ "paid" ∧
      (ps.ProcessPayment rt req).response.Status ≠ "failed" := by
  refine ⟨rfl, rfl, ?_, rfl, ?_, ?_⟩
  · exact UUID.String_ne_empty rt.newUUID
  · simp only [PaymentService.ProcessPayment]
    decide
  · simp only [PaymentService.ProcessPayment]
    decide

/-- C20: `ProcessPayment` starts one settlement task, for the payment id it returns
and the request it was given. That task hands exactly one webhook to `sendWebhook`,
whatever the delivery does: it carries the returned payment id, the booking id and
the amount of the request and the final status, `paid` or `failed`. At most one POST
is made, to the callback URL and with that webhook, and exactly one as soon as the
request could be built, whether the round trip then succeeds or fails. -/
theorem settlement_sends_one_webhook (ps : PaymentService) (rt : Runtime) (env : PaymentEnv)
    (req : PaymentRequest) :
    (ps.ProcessPayment rt req).spawned
        = [((ps.ProcessPayment rt req).response.PaymentID, req)] ∧
      ∀ task ∈ (ps.ProcessPayment rt req).spawned,
        (ps.processPaymentAsync env task.1 task.2).attempts
          = [(ps.processPaymentAsync env task.1 task.2).webhook] ∧
        (ps.processPaymentAsync env task.1 task.2).webhook.PaymentID
          = (ps.ProcessPayment rt req).response.PaymentID ∧
        (ps.processPaymentAsync env task.1 task.2).webhook.BookingID = req.BookingID ∧
        (ps.processPaymentAsync env task.1 task.2).webhook.Amount = req.Amount ∧
        ((ps.processPaymentAsync env task.1 task.2).webhook.Status = "paid" ∨
          (ps.processPaymentAsync env task.1 task.2).webhook.Status = "failed") ∧
        (ps.processPaymentAsync env task.1 task.2).posts.length ≤ 1 ∧
        (∀ p ∈ (ps.processPaymentAsync env task.1 task.2).posts,
          p = (ps.webhookURL, (ps.processPaymentAsync env task.1 task.2).webhook)) ∧
        (marshalWebhook (ps.processPaymentAsync env task.1 task.2).webhook = none →
          env.NewRequest "POST" ps.webhookURL = none →
          (ps.processPaymentAsync env task.1 task.2).posts
            = [(ps.webhookURL, (ps.processPaymentAsync env task.1 task.2).webhook)]) := by
  refine ⟨rfl, ?_⟩
  intro task htask
  have ht : task = (rt.newUUID.String, req) := by
    simpa [PaymentService.ProcessPayment] using htask
  subst ht
  refine ⟨rfl, rfl, rfl, rfl, ?_, ?_, ?_, ?_⟩
  · simp only [PaymentService.processPaymentAsync]
    split
    · exact Or.inr rfl
    · exact Or.inl rfl
  · simp only [PaymentService.processPaymentAsync, PaymentService.sendWebhook]
    split
    · simp
    · split
      · simp
      · split
        · simp
        · split <;> simp
  · simp only [PaymentService.processPaymentAsync, PaymentService.sendWebhook]
    split
    · simp
    · split
      · simp
      · split
        · simp
        · split <;> simp
  · intro hm hn
    simp only [PaymentService.processPaymentAsync] at hm
    simp only [PaymentService.processPaymentAsync, PaymentService.sendWebhook, hm, hn]
    split
    · rfl
    · split <;> rfl

/-- A payment of 100 whose webhook round trip fails: one webhook is attempted, one
POST is made and the failure is logged. -/
theorem settlement_sends_one_webhook_witness :
    (samplePaymentService.ProcessPayment sampleRuntime ⟨"booking123", F64.finite 100, "RUB"⟩).spawned
        = [("00112233-4455-6677-8899-aabbccddeeff", ⟨"booking123", F64.finite 100, "RUB"⟩)] ∧
      (samplePaymentService.processPaymentAsync unreachablePaymentEnv
          "00112233-4455-6677-8899-aabbccddeeff"
          ⟨"booking123", F64.finite 100, "RUB"⟩).attempts.length = 1 ∧
      (samplePaymentService.processPaymentAsync unreachablePaymentEnv
          "00112233-4455-6677-8899-aabbccddeeff"
          ⟨"booking123", F64.finite 100, "RUB"⟩).posts.length = 1 ∧
      (samplePaymentService.processPaymentAsync unreachablePaymentEnv
          "00112233-4455-6677-8899-aabbccddeeff"
          ⟨"booking123", F64.finite 100, "RUB"⟩).logged
        = some "failed to send webhook: connection refused" :=
  have h := settlement_sends_one_webhook samplePaymentService sampleRuntime unreachablePaymentEnv
    ⟨"booking123", F64.finite 100, "RUB"⟩
  have hid : sampleRuntime.newUUID.String = "00112233-4455-6677-8899-aabbccddeeff" := by decide
  have ht := h.2 ("00112233-4455-6677-8899-aabbccddeeff", ⟨"booking123", F64.finite 100, "RUB"⟩)
    (by rw [h.1]; simp [PaymentService.ProcessPayment, hid])
  ⟨by rw [h.1]; simp [PaymentService.ProcessPayment, hid],
    by rw [ht.1]; rfl,
    by rw [ht.2.2.2.2.2.2.2 rfl rfl]; rfl,
    rfl⟩

/-! ## theorems: webhook delivery -/

/-- A text occurs in every text that starts with it. -/
theorem Contains_prefix (s post : String) : Contains (s ++ post) s := by
  refine ⟨[], post.data, ?_⟩
  simp [String.data_append]

/-- Occurrence survives text added in front. -/
theorem Contains_append_left (pre msg s : String) (h : Contains msg s) :
    Contains (pre ++ msg) s := by
  obtain ⟨a, c, hac⟩ := h
  refine ⟨pre.data ++ a, c, ?_⟩
  simp [String.data_append, ← hac]

/-- C21: `sendWebhook` returns nil exactly when the POST to the callback URL is made
and completes with status 200. When the POST completes with any other status code
`c` the returned error's message contains `status c`, and when the round trip itself
fails an error is returned, wrapping the transport error. -/
theorem sendWebhook_nil_iff_status_200 (ps : PaymentService) (env : PaymentEnv)
    (webhook : PaymentWebhook) :
    ((ps.sendWebhook env webhook).err = none ↔
        (ps.sendWebhook env webhook).posts = [(ps.webhookURL, webhook)] ∧
        env.Do ps.webhookURL webhook = .ok 200) ∧
      (∀ c : Nat, (ps.sendWebhook env webhook).posts = [(ps.webhookURL, webhook)] →
        env.Do ps.webhookURL webhook = .ok c → c ≠ 200 →
        ∃ msg, (ps.sendWebhook env webhook).err = some msg ∧
          Contains msg ("status " ++ toString c)) ∧
      (∀ e : GoError, (ps.sendWebhook env webhook).posts = [(ps.webhookURL, webhook)] →
        env.Do ps.webhookURL webhook = .error e →
        (ps.sendWebhook env webhook).err = some ("failed to send webhook: " ++ e)) := by
  refine ⟨?_, ?_, ?_⟩
  · simp only [PaymentService.sendWebhook]
    split
    · simp
    · split
      · simp
      · split
        · rename_i e he
          simp [he]
        · rename_i c hc
          split
          · rename_i hne
            simp only [hc]
            constructor
            · intro h
              cases h
            · rintro ⟨-, h⟩
              injection h with h
              exact absurd h hne
          · rename_i heq
            have : c = 200 := by
              by_contra h
              exact heq h
            simp [hc, this]
  · intro c hposts hdo hne
    revert hposts
    simp only [PaymentService.sendWebhook]
    split
    · simp
    · split
      · simp
      · simp only [hdo, if_pos hne]
        intro _
        refine ⟨_, rfl, ?_⟩
        have h : "webhook returned status " ++ toString c
            = "webhook returned " ++ ("status " ++ toString c) := by
          rw [← String.append_assoc]
          rfl
        rw [h]
        exact Contains_suffix _ _
  · intro e hposts hdo
    revert hposts
    simp only [PaymentService.sendWebhook]
    split
    · simp
    · split
      · simp
      · simp only [hdo]
        intro _
        trivial

/-- A callback that answers 500: the error names `status 500`. -/
theorem sendWebhook_nil_iff_status_200_witness :
    (samplePaymentService.sendWebhook serverErrorPaymentEnv sampleWebhook).posts
        = [(samplePaymentService.webhookURL, sampleWebhook)] ∧
      serverErrorPaymentEnv.Do samplePaymentService.webhookURL sampleWebhook = .ok 500 ∧
      ∃ msg, (samplePaymentService.sendWebhook serverErrorPaymentEnv sampleWebhook).err = some msg ∧
        Contains msg ("status " ++ toString 500) :=
  ⟨rfl, rfl,
    (sendWebhook_nil_iff_status_200 samplePaymentService serverErrorPaymentEnv sampleWebhook).2.1
      500 rfl rfl (by decide)⟩

/-! ## theorems: room price lookup -/

/-- The loop finds the first room with the requested id. -/
theorem hotelclient.findRoom_first (roomID : String) (pre : List hotelclient.Room)
    (room : hotelclient.Room) (post : List hotelclient.Room) (hid : room.ID = roomID)
    (hpre : ∀ x ∈ pre, x.ID ≠ roomID) :
    hotelclient.findRoom roomID (pre ++ room :: post) = some room.PricePerNight := by
  induction pre with
  | nil => simp [hotelclient.findRoom, hid]
  | cons x xs ih =>
    have hx : x.ID ≠ roomID := hpre x (List.mem_cons_self _ _)
    simp only [List.cons_append, hotelclient.findRoom, if_neg hx]
    exact ih (fun y hy => hpre y (List.mem_cons_of_mem _ hy))

/-- The loop runs to its end exactly when no room has the requested id. -/
theorem hotelclient.findRoom_eq_none_iff (roomID : String) (rooms : List hotelclient.Room) :
    hotelclient.findRoom roomID rooms = none ↔ ∀ x ∈ rooms, x.ID ≠ roomID := by
  induction rooms with
  | nil => simp [hotelclient.findRoom]
  | cons x xs ih =>
    by_cases hx : x.ID = roomID
    · simp [hotelclient.findRoom, hx]
    · simp [hotelclient.findRoom, hx, ih]

/-- C22: when the room list of the hotel has been fetched (the request is built, the
response has status 200, its body is read and decoded into `rooms`), `GetRoomPrice`
returns the `PricePerNight` of the first room whose id is the requested one, with no
error; and it returns price 0 with the error `room ... not found in hotel ...`, or
any error at all, if and only if no room of the list has that id. -/
theorem GetRoomPrice_first_matching_room (c : hotelclient.HotelClient) (env : hotelclient.Env)
    (hotelID roomID body : String) (rooms : List hotelclient.Room)
    (hreq : env.NewRequest "GET" (c.baseURL ++ "/api/hotels/" ++ hotelID ++ "/rooms") = none)
    (hdo : env.Do (c.baseURL ++ "/api/hotels/" ++ hotelID ++ "/rooms") = .ok (200, .ok body))
    (hjson : env.Unmarshal body = .ok rooms) :
    (∀ pre room post, rooms = pre ++ room :: post → room.ID = roomID →
        (∀ x ∈ pre, x.ID ≠ roomID) →
        c.GetRoomPrice env hotelID roomID = (room.PricePerNight, none)) ∧
      ((∀ x ∈ rooms, x.ID ≠ roomID) ↔
        c.GetRoomPrice env hotelID roomID
          = (F64.finite 0, some ("room " ++ roomID ++ " not found in hotel " ++ hotelID))) ∧
      ((∀ x ∈ rooms, x.ID ≠ roomID) ↔ (c.GetRoomPrice env hotelID roomID).2 ≠ none) := by
  have hrun : c.GetRoomPrice env hotelID roomID
      = match hotelclient.findRoom roomID rooms with
        | some price => (price, none)
        | none => (F64.finite 0, some ("room " ++ roomID ++ " not found in hotel " ++ hotelID)) := by
    simp [hotelclient.HotelClient.GetRoomPrice, hreq, hdo, hjson]
  refine ⟨?_, ?_, ?_⟩
  · intro pre room post hrooms hid hpre
    rw [hrun, hrooms, hotelclient.findRoom_first roomID pre room post hid hpre]
  · rw [hrun, ← hotelclient.findRoom_eq_none_iff]
    cases hotelclient.findRoom roomID rooms <;> simp
  · rw [hrun, ← hotelclient.findRoom_eq_none_iff]
    cases hotelclient.findRoom roomID rooms <;> simp

/-- A list with two rooms `r2`: the price of the first one is returned; a room that is
not listed is reported as not found. -/
theorem GetRoomPrice_first_matching_room_witness :
    samplePriceClient.GetRoomPrice samplePriceEnv "h1" "r2" = (F64.finite 5000, none) ∧
      samplePriceClient.GetRoomPrice samplePriceEnv "h1" "r9"
        = (F64.finite 0, some "room r9 not found in hotel h1") :=
  have h2 := GetRoomPrice_first_matching_room samplePriceClient samplePriceEnv "h1" "r2" "rooms"
    [⟨"r1", F64.finite 4000⟩, ⟨"r2", F64.finite 5000⟩, ⟨"r2", F64.finite 7000⟩] rfl rfl rfl
  have h9 := GetRoomPrice_first_matching_room samplePriceClient samplePriceEnv "h1" "r9" "rooms"
    [⟨"r1", F64.finite 4000⟩, ⟨"r2", F64.finite 5000⟩, ⟨"r2", F64.finite 7000⟩] rfl rfl rfl
  ⟨h2.1 [⟨"r1", F64.finite 4000⟩] ⟨"r2", F64.finite 5000⟩ [⟨"r2", F64.finite 7000⟩] rfl rfl
      (by decide),
    h9.2.1.1 (by decide)⟩

/-! ## theorems: event consumption -/

/-- From any point of the loop at or before the failing read, enough fuel lets the
loop return the read error after handing every remaining message to the handler. -/
theorem kafka.readLoop_returns (c : kafka.Consumer)
    (handler : List (List UInt8) → List UInt8 → Option GoError) (msgs : List kafka.Message)
    (e : GoError) (hreads : ∀ i (h : i < msgs.length), c.reader i = .ok (msgs.get ⟨i, h⟩))
    (herr : c.reader msgs.length = .error e) :
    ∀ (fuel n : Nat) (handled : List (List UInt8)) (logged : List GoError),
      n ≤ msgs.length → msgs.length - n < fuel →
      ∃ logged2, kafka.Consumer.readLoop c handler fuel n handled logged
        = some ⟨e, handled ++ (msgs.drop n).map kafka.Message.Value, logged2⟩ := by
  intro fuel
  induction fuel with
  | zero => intro n handled logged _ h; omega
  | succ fuel ih =>
    intro n handled logged hn hfuel
    rcases Nat.eq_or_lt_of_le hn with heq | hlt
    · subst heq
      refine ⟨logged, ?_⟩
      simp [kafka.Consumer.readLoop, herr]
    · have hdrop : msgs.drop n = msgs.get ⟨n, hlt⟩ :: msgs.drop (n + 1) :=
        List.drop_eq_getElem_cons hlt
      simp only [kafka.Consumer.readLoop, hreads n hlt]
      cases handler handled (msgs.get ⟨n, hlt⟩).Value with
      | none =>
        obtain ⟨l2, hl2⟩ := ih (n + 1) (handled ++ [(msgs.get ⟨n, hlt⟩).Value]) logged
          (by omega) (by omega)
        refine ⟨l2, ?_⟩
        simp only [hl2, hdrop, List.map_cons, List.append_assoc, List.singleton_append]
      | some err =>
        obtain ⟨l2, hl2⟩ := ih (n + 1) (handled ++ [(msgs.get ⟨n, hlt⟩).Value]) (logged ++ [err])
          (by omega) (by omega)
        refine ⟨l2, ?_⟩
        simp only [hl2, hdrop, List.map_cons, List.append_assoc, List.singleton_append]

/-- The loop does not return while the reads succeed. -/
theorem kafka.readLoop_running (c : kafka.Consumer)
    (handler : List (List UInt8) → List UInt8 → Option GoError) (msgs : List kafka.Message)
    (hreads : ∀ i (h : i < msgs.length), c.reader i = .ok (msgs.get ⟨i, h⟩)) :
    ∀ (fuel n : Nat) (handled : List (List UInt8)) (logged : List GoError),
      n + fuel ≤ msgs.length →
      kafka.Consumer.readLoop c handler fuel n handled logged = none := by
  intro fuel
  induction fuel with
  | zero => intro n handled logged _; rfl
  | succ fuel ih =>
    intro n handled logged h
    have hlt : n < msgs.length := by omega
    simp only [kafka.Consumer.readLoop, hreads n hlt]
    cases handler handled (msgs.get ⟨n, hlt⟩).Value with
    | none => exact ih _ _ _ (by omega)
    | some err => exact ih _ _ _ (by omega)

/-- C23: when the reader delivers the messages `msgs` and then fails with `e`,
`ReadMessage` returns `e`, and by then the handler has been invoked exactly once on
each message's value, in order, whatever the handler returned along the way. It does
not return before the failing read. -/
theorem ReadMessage_handles_every_message (c : kafka.Consumer)
    (handler : List (List UInt8) → List UInt8 → Option GoError) (msgs : List kafka.Message)
    (e : GoError) (hreads : ∀ i (h : i < msgs.length), c.reader i = .ok (msgs.get ⟨i, h⟩))
    (herr : c.reader msgs.length = .error e) :
    (∀ fuel, msgs.length < fuel →
        ∃ logged, c.ReadMessage handler fuel
          = some ⟨e, msgs.map kafka.Message.Value, logged⟩) ∧
      (∀ fuel, fuel ≤ msgs.length → c.ReadMessage handler fuel = none) := by
  constructor
  · intro fuel hfuel
    obtain ⟨l2, hl2⟩ := kafka.readLoop_returns c handler msgs e hreads herr fuel 0 [] []
      (Nat.zero_le _) (by omega)
    exact ⟨l2, by simpa [kafka.Consumer.ReadMessage] using hl2⟩
  · intro fuel hfuel
    exact kafka.readLoop_running c handler msgs hreads fuel 0 [] [] (by omega)

/-- Two messages and a handler that fails on both: both are handled, in order, and
the read error is returned. -/
theorem ReadMessage_handles_every_message_witness :
    twoMessageConsumer.reader 2 = .error "reader closed" ∧
      ∃ logged, twoMessageConsumer.ReadMessage failingHandler 3
        = some ⟨"reader closed", [[1], [2]], logged⟩ :=
  have h := ReadMessage_handles_every_message twoMessageConsumer failingHandler
    [⟨0, [1]⟩, ⟨1, [2]⟩] "reader closed"
    (by
      intro i hi
      have : i = 0 ∨ i = 1 := by simp at hi; omega
      rcases this with rfl | rfl <;> rfl)
    rfl
  ⟨rfl, h.1 3 (by decide)⟩

/-! ## theorems: booking reads -/

/-- C24: `GetBooking`, `GetBookingsByUser` and `GetBookingsByHotel` return exactly
what the store's `GetBookingByID`, `GetBookingsByUser` and `GetBookingsByHotel` return
for the same argument, value and error alike, and each makes that one store call and
no other collaborator call. -/
theorem read_operations_pass_through (uc : BookingUseCase) (arg : String) :
    ((uc.GetBooking arg).booking = (uc.repo.GetBookingByID arg).1 ∧
        (uc.GetBooking arg).err = (uc.repo.GetBookingByID arg).2 ∧
        (uc.GetBooking arg).calls = [Call.RepoGetBookingByID arg]) ∧
      ((uc.GetBookingsByUser arg).bookings = (uc.repo.GetBookingsByUser arg).1 ∧
        (uc.GetBookingsByUser arg).err = (uc.repo.GetBookingsByUser arg).2 ∧
        (uc.GetBookingsByUser arg).calls = [Call.RepoGetBookingsByUser arg]) ∧
      ((uc.GetBookingsByHotel arg).bookings = (uc.repo.GetBookingsByHotel arg).1 ∧
        (uc.GetBookingsByHotel arg).err = (uc.repo.GetBookingsByHotel arg).2 ∧
        (uc.GetBookingsByHotel arg).calls = [Call.RepoGetBookingsByHotel arg]) :=
  ⟨⟨rfl, rfl, rfl⟩, ⟨rfl, rfl, rfl⟩, ⟨rfl, rfl, rfl⟩⟩

/-! ## theorems: delivery channels -/

/-- C25: for a delivery service built without a Telegram token, the result of
`SendNotification` depends on the channel alone. It is nil on `email` and on `sms`,
an error containing `telegram bot not configured` on `telegram`, whatever the
recipient, and an error containing `unsupported channel` on every other channel,
the empty one and `Email` among them. -/
theorem SendNotification_without_token (env : Delivery.Env) (ds : DeliveryService)
    (hbuilt : NewDeliveryService env "" = .ok ds) (req : Delivery.SendNotificationRequest) :
    ((req.Channel = "email" ∨ req.Channel = "sms") → ds.SendNotification env req = none) ∧
      (req.Channel = "telegram" →
        ∃ msg, ds.SendNotification env req = some msg ∧
          Contains msg "telegram bot not configured") ∧
      (req.Channel ≠ "email" → req.Channel ≠ "sms" → req.Channel ≠ "telegram" →
        ∃ msg, ds.SendNotification env req = some msg ∧ Contains msg "unsupported channel") ∧
      (∀ req2 : Delivery.SendNotificationRequest, req2.Channel = req.Channel →
        ds.SendNotification env req2 = ds.SendNotification env req) := by
  have hds : ds = ⟨none⟩ := by
    simp only [NewDeliveryService, ne_eq, not_true_eq_false, if_false] at hbuilt
    injection hbuilt with h
    exact h.symm
  subst hds
  refine ⟨?_, ?_, ?_, ?_⟩
  · rintro (h | h)
    · simp [DeliveryService.SendNotification, Delivery.ChannelEmail, h, DeliveryService.sendEmail]
    · have hne : ¬ ("sms" = "email") := by decide
      simp [DeliveryService.SendNotification, Delivery.ChannelEmail, Delivery.ChannelSMS, h, hne,
        DeliveryService.sendSMS]
  · intro h
    have h1 : ¬ ("telegram" = "email") := by decide
    have h2 : ¬ ("telegram" = "sms") := by decide
    refine ⟨"telegram bot not configured", ?_, ?_⟩
    · simp [DeliveryService.SendNotification, Delivery.ChannelEmail, Delivery.ChannelSMS,
        Delivery.ChannelTelegram, h, h1, h2, DeliveryService.sendTelegram]
    · exact ⟨[], [], by simp⟩
  · intro h1 h2 h3
    refine ⟨"unsupported channel: " ++ req.Channel, ?_, ?_⟩
    · simp [DeliveryService.SendNotification, Delivery.ChannelEmail, Delivery.ChannelSMS,
        Delivery.ChannelTelegram, h1, h2, h3]
    · have h : "unsupported channel: " ++ req.Channel
          = "unsupported channel" ++ (": " ++ req.Channel) := by
        rw [← String.append_assoc]
        rfl
      rw [h]
      exact Contains_prefix _ _
  · intro req2 h
    simp only [DeliveryService.SendNotification, DeliveryService.sendEmail,
      DeliveryService.sendSMS, DeliveryService.sendTelegram, h]

/-- Without a token: `email` is accepted, while `Email` and the empty channel are
unsupported. -/
theorem SendNotification_without_token_witness :
    NewDeliveryService sampleDeliveryEnv "" = .ok ⟨none⟩ ∧
      (⟨none⟩ : DeliveryService).SendNotification sampleDeliveryEnv
        ⟨"email", "test@example.com", "Test Subject", "test message"⟩ = none ∧
      (∃ msg, (⟨none⟩ : DeliveryService).SendNotification sampleDeliveryEnv
          ⟨"Email", "test@example.com", "", "test message"⟩ = some msg ∧
        Contains msg "unsupported channel") ∧
      (∃ msg, (⟨none⟩ : DeliveryService).SendNotification sampleDeliveryEnv
          ⟨"", "test@example.com", "", "test message"⟩ = some msg ∧
        Contains msg "unsupported channel") ∧
      ∃ msg, (⟨none⟩ : DeliveryService).SendNotification sampleDeliveryEnv
          ⟨"telegram", "123456789", "", "test message"⟩ = some msg ∧
        Contains msg "telegram bot not configured" :=
  ⟨rfl,
    (SendNotification_without_token sampleDeliveryEnv ⟨none⟩ rfl
      ⟨"email", "test@example.com", "Test Subject", "test message"⟩).1 (Or.inl rfl),
    (SendNotification_without_token sampleDeliveryEnv ⟨none⟩ rfl
      ⟨"Email", "test@example.com", "", "test message"⟩).2.2.1
        (by decide) (by decide) (by decide),
    (SendNotification_without_token sampleDeliveryEnv ⟨none⟩ rfl
      ⟨"", "test@example.com", "", "test message"⟩).2.2.1 (by decide) (by decide) (by decide),
    (SendNotification_without_token sampleDeliveryEnv ⟨none⟩ rfl
      ⟨"telegram", "123456789", "", "test message"⟩).2.1 rfl⟩

/-! ## theorems: hotel ownership and validation -/

/-- C26: `UpdateHotel` and `DeleteHotel` first look the hotel up. When the lookup
fails they return its error; when the stored `OwnerID` differs from the owner id of
the request they return an unauthorized error; in both cases the lookup is the only
repository call. When the owner ids are equal they call the repository's
`UpdateHotel`, respectively `DeleteHotel`, exactly once and return its result. -/
theorem hotel_changes_need_the_owner (uc : HotelUseCase) (hotel : Hotel) (id ownerID : String) :
    (∀ e, uc.hotelRepo.GetHotelByID hotel.ID = .error e →
        (uc.UpdateHotel hotel).err = some e ∧
        (uc.UpdateHotel hotel).calls = [HotelCall.GetHotelByID hotel.ID]) ∧
      (∀ existing, uc.hotelRepo.GetHotelByID hotel.ID = .ok existing →
        existing.OwnerID ≠ hotel.OwnerID →
        (uc.UpdateHotel hotel).err = some "unauthorized to update this hotel" ∧
        (uc.UpdateHotel hotel).calls = [HotelCall.GetHotelByID hotel.ID]) ∧
      (∀ existing, uc.hotelRepo.GetHotelByID hotel.ID = .ok existing →
        existing.OwnerID = hotel.OwnerID →
        (uc.UpdateHotel hotel).err = (uc.hotelRepo.UpdateHotel hotel).2 ∧
        (uc.UpdateHotel hotel).calls
          = [HotelCall.GetHotelByID hotel.ID, HotelCall.UpdateHotel hotel]) ∧
      (∀ e, uc.hotelRepo.GetHotelByID id = .error e →
        (uc.DeleteHotel id ownerID).err = some e ∧
        (uc.DeleteHotel id ownerID).calls = [HotelCall.GetHotelByID id]) ∧
      (∀ existing, uc.hotelRepo.GetHotelByID id = .ok existing →
        existing.OwnerID ≠ ownerID →
        (uc.DeleteHotel id ownerID).err = some "unauthorized to delete this hotel" ∧
        (uc.DeleteHotel id ownerID).calls = [HotelCall.GetHotelByID id]) ∧
      (∀ existing, uc.hotelRepo.GetHotelByID id = .ok existing →
        existing.OwnerID = ownerID →
        (uc.DeleteHotel id ownerID).err = uc.hotelRepo.DeleteHotel id ∧
        (uc.DeleteHotel id ownerID).calls
          = [HotelCall.GetHotelByID id, HotelCall.DeleteHotel id]) := by
  refine ⟨?_, ?_, ?_, ?_, ?_, ?_⟩
  · intro e h
    simp [HotelUseCase.UpdateHotel, h]
  · intro existing h hne
    simp [HotelUseCase.UpdateHotel, h, hne]
  · intro existing h heq
    simp [HotelUseCase.UpdateHotel, h, heq]
  · intro e h
    simp [HotelUseCase.DeleteHotel, h]
  · intro existing h hne
    simp [HotelUseCase.DeleteHotel, h, hne]
  · intro existing h heq
    simp [HotelUseCase.DeleteHotel, h, heq]

/-- A hotel of `owner-1`: a request of `owner-2` is refused without touching the
repository further, a request of `owner-1` deletes it. -/
theorem hotel_changes_need_the_owner_witness :
    (⟨okHotelRepo⟩ : HotelUseCase).UpdateHotel { sampleHotel with OwnerID := "owner-2" }
        = ⟨{ sampleHotel with OwnerID := "owner-2" }, some "unauthorized to update this hotel",
            [HotelCall.GetHotelByID "hotel-1"]⟩ ∧
      ((⟨okHotelRepo⟩ : HotelUseCase).DeleteHotel "hotel-1" "owner-2").calls
        = [HotelCall.GetHotelByID "hotel-1"] ∧
      ((⟨okHotelRepo⟩ : HotelUseCase).DeleteHotel "hotel-1" "owner-1").calls
        = [HotelCall.GetHotelByID "hotel-1", HotelCall.DeleteHotel "hotel-1"] :=
  have h := hotel_changes_need_the_owner ⟨okHotelRepo⟩ { sampleHotel with OwnerID := "owner-2" }
    "hotel-1" "owner-2"
  have h1 := hotel_changes_need_the_owner ⟨okHotelRepo⟩ sampleHotel "hotel-1" "owner-1"
  ⟨rfl, (h.2.2.2.2.1 sampleHotel rfl (by decide)).2, (h1.2.2.2.2.2 sampleHotel rfl rfl).2⟩

/-- C27: `CreateHotel` returns the error `invalid hotel data` without any repository
call and with the record left as it was, no ID assigned, if and only if one of
`Name`, `Address`, `OwnerID` is empty. Otherwise it sets the ID to the non-empty
rendering of a fresh identifier, calls the repository's `CreateHotel` exactly once,
with that record, and returns its result. -/
theorem CreateHotel_validates_required_fields (uc : HotelUseCase) (rt : Runtime) (hotel : Hotel) :
    ((hotel.Name = "" ∨ hotel.Address = "" ∨ hotel.OwnerID = "") ↔
        ((uc.CreateHotel rt hotel).err = some "invalid hotel data" ∧
          (uc.CreateHotel rt hotel).calls = [] ∧
          (uc.CreateHotel rt hotel).hotel = hotel)) ∧
      (¬(hotel.Name = "" ∨ hotel.Address = "" ∨ hotel.OwnerID = "") →
        (uc.CreateHotel rt hotel).hotel.ID = rt.newUUID.String ∧
        (uc.CreateHotel rt hotel).hotel.ID ≠ "" ∧
        (uc.CreateHotel rt hotel).calls
          = [HotelCall.CreateHotel { hotel with ID := rt.newUUID.String }] ∧
        (uc.CreateHotel rt hotel).err
          = (uc.hotelRepo.CreateHotel { hotel with ID := rt.newUUID.String }).err) := by
  constructor
  · constructor
    · intro h
      unfold HotelUseCase.CreateHotel
      rw [if_pos h]
      exact ⟨rfl, rfl, rfl⟩
    · rintro ⟨-, hcalls, -⟩
      by_contra h
      simp [HotelUseCase.CreateHotel, if_neg h] at hcalls
  · intro h
    unfold HotelUseCase.CreateHotel
    rw [if_neg h]
    exact ⟨rfl, UUID.String_ne_empty rt.newUUID, rfl, rfl⟩

/-- A hotel without an address is refused; a complete one is given an ID and
written. -/
theorem CreateHotel_validates_required_fields_witness :
    ((⟨okHotelRepo⟩ : HotelUseCase).CreateHotel sampleRuntime
        { sampleHotel with Address := "" }).err = some "invalid hotel data" ∧
      ((⟨okHotelRepo⟩ : HotelUseCase).CreateHotel sampleRuntime
        { sampleHotel with Address := "" }).calls = [] ∧
      ((⟨okHotelRepo⟩ : HotelUseCase).CreateHotel sampleRuntime sampleHotel).hotel.ID
        = sampleRuntime.newUUID.String ∧
      ((⟨okHotelRepo⟩ : HotelUseCase).CreateHotel sampleRuntime sampleHotel).err = none :=
  have h := CreateHotel_validates_required_fields ⟨okHotelRepo⟩ sampleRuntime
    { sampleHotel with Address := "" }
  have h2 := (CreateHotel_validates_required_fields ⟨okHotelRepo⟩ sampleRuntime sampleHotel).2
    (by decide)
  ⟨(h.1.1 (Or.inr (Or.inl rfl))).1, (h.1.1 (Or.inr (Or.inl rfl))).2.1, h2.1, h2.2.2.2⟩

/-! ## theorems: settlement meets the booking side -/

/-- C28: the status `processPaymentAsync` puts in a webhook, whatever the amount,
passes the validation of `UpdatePaymentStatus`: fed with the webhook's booking id and
status, `UpdatePaymentStatus` makes the store's `UpdatePaymentStatus` call for the
request's booking id and returns its result. -/
theorem webhook_status_is_accepted (uc : BookingUseCase) (caseOrbit : Char → Char)
    (ps : PaymentService) (env : PaymentEnv) (paymentID : String) (req : PaymentRequest) :
    uc.UpdatePaymentStatus caseOrbit (ps.processPaymentAsync env paymentID req).webhook.BookingID
        (ps.processPaymentAsync env paymentID req).webhook.Status
      = some ⟨uc.repo.UpdatePaymentStatus req.BookingID
            (ps.processPaymentAsync env paymentID req).webhook.Status,
          [Call.RepoUpdatePaymentStatus req.BookingID
            (ps.processPaymentAsync env paymentID req).webhook.Status]⟩ := by
  have hvalid : decide (∃ w ∈ validStatuses,
      eqIgnoreCase w (ps.processPaymentAsync env paymentID req).webhook.Status) = true := by
    simp only [PaymentService.processPaymentAsync]
    split <;> decide
  simp only [BookingUseCase.UpdatePaymentStatus, findStatus_validStatuses, hvalid]
  rfl

/-! ## theorems: booking creation, the caller's record -/

/-- C29: when `CreateBooking` fails at the date check or at the price lookup, the
record passed in is left as it was, in every field. More generally the record differs
from the one passed in only on runs that hand it to the store. -/
theorem CreateBooking_early_failure_keeps_record (uc : BookingUseCase) (rt : Runtime)
    (b : Booking) :
    (b.CheckInDate.After b.CheckOutDate = true →
        (uc.CreateBooking rt b).booking = b ∧ (uc.CreateBooking rt b).err ≠ none) ∧
      (∀ e, b.CheckInDate.After b.CheckOutDate = false →
        uc.hotelClient.GetRoomPrice b.HotelID b.RoomID = .error e →
        (uc.CreateBooking rt b).booking = b ∧ (uc.CreateBooking rt b).err = some e) ∧
      (storeWrites (uc.CreateBooking rt b).calls = [] → (uc.CreateBooking rt b).booking = b) := by
  refine ⟨?_, ?_, ?_⟩
  · intro h
    simp [BookingUseCase.CreateBooking, h]
  · intro e hdate hprice
    simp [BookingUseCase.CreateBooking, hdate, hprice]
  · simp only [BookingUseCase.CreateBooking]
    split
    · simp
    · split
      · simp
      · split
        · simp [storeWrites]
        · cases uc.paymentClient with
          | none => simp [storeWrites]
          | some pc =>
            simp only []
            split <;> simp [storeWrites]

/-- A booking with check-in after check-out, and one for an unknown room, both
arriving with an ID and a total of their own: the records come back as they were. -/
theorem CreateBooking_early_failure_keeps_record_witness :
    ((okUseCase 5000).CreateBooking sampleRuntime
        { bookingBetween (72 * Hour) (24 * Hour) with ID := "mine" }).booking
        = { bookingBetween (72 * Hour) (24 * Hour) with ID := "mine" } ∧
      (noRoomUseCase.CreateBooking sampleRuntime
        { bookingBetween 0 (48 * Hour) with ID := "mine" }).booking
        = { bookingBetween 0 (48 * Hour) with ID := "mine" } :=
  ⟨((CreateBooking_early_failure_keeps_record (okUseCase 5000) sampleRuntime
      { bookingBetween (72 * Hour) (24 * Hour) with ID := "mine" }).1 (by decide)).1,
    ((CreateBooking_early_failure_keeps_record noRoomUseCase sampleRuntime
      { bookingBetween 0 (48 * Hour) with ID := "mine" }).2.1 "room not found" (by decide) rfl).1⟩

/-! ## theorems: float64 rounding is monotone -/

namespace F64

/-- Rounding to the nearest integer is monotone. -/
theorem roundHalfEven_mono (x y : ℚ) (h : x ≤ y) : roundHalfEven x ≤ roundHalfEven y := by
  have hx1 := Int.floor_le x
  have hx2 := Int.lt_floor_add_one x
  have hy1 := Int.floor_le y
  have hy2 := Int.lt_floor_add_one y
  have hf : ⌊x⌋ ≤ ⌊y⌋ := Int.floor_mono h
  rcases lt_or_eq_of_le hf with hlt | heq
  · have hxle : roundHalfEven x ≤ ⌊x⌋ + 1 := by
      unfold roundHalfEven
      simp only []
      split_ifs <;> omega
    have hyge : ⌊y⌋ ≤ roundHalfEven y := by
      unfold roundHalfEven
      simp only []
      split_ifs <;> omega
    omega
  · unfold roundHalfEven
    simp only []
    rw [← heq]
    have hr : x - (⌊x⌋ : ℚ) ≤ y - (⌊x⌋ : ℚ) := by linarith
    split_ifs <;> first | omega | (exfalso; linarith)

/-- Rounding to the nearest integer does not cross an integer above the value. -/
theorem roundHalfEven_le (m : ℤ) (x : ℚ) (h : x ≤ (m : ℚ)) : roundHalfEven x ≤ m := by
  have h1 := roundHalfEven_mono x m h
  rwa [roundHalfEven_intCast] at h1

/-- A positive value lies below the top of its binade. -/
theorem lt_zpow_exponent (x : ℚ) (hx : 0 < x) :
    x < (2 : ℚ) ^ (max (Int.log 2 |x|) (-1022) + 1) := by
  have h1 : x < (2 : ℚ) ^ (Int.log 2 |x| + 1) := by
    rw [abs_of_pos hx]
    have := Int.lt_zpow_succ_log_self (R := ℚ) (b := 2) (by norm_num) x
    simpa using this
  have h2 : (2 : ℚ) ^ (Int.log 2 |x| + 1) ≤ (2 : ℚ) ^ (max (Int.log 2 |x|) (-1022) + 1) :=
    zpow_le_zpow_right₀ (by norm_num) (by have := le_max_left (Int.log 2 |x|) (-1022); omega)
  exact lt_of_lt_of_le h1 h2

/-- Rounding stays at or below the top of the binade. -/
theorem rndQ_le_zpow (x : ℚ) (hx : 0 < x) :
    rndQ x ≤ (2 : ℚ) ^ (max (Int.log 2 |x|) (-1022) + 1) := by
  have hlt := lt_zpow_exponent x hx
  have hu : ulp x = (2 : ℚ) ^ (max (Int.log 2 |x|) (-1022) - 52) := rfl
  generalize max (Int.log 2 |x|) (-1022) = e at hlt hu ⊢
  have hupos : (0 : ℚ) < (2 : ℚ) ^ (e - 52) := by positivity
  have htop : (2 : ℚ) ^ (e + 1) = ((2 ^ 53 : ℤ) : ℚ) * (2 : ℚ) ^ (e - 52) := by
    have : ((2 ^ 53 : ℤ) : ℚ) = (2 : ℚ) ^ (53 : ℤ) := by norm_num
    rw [this, ← zpow_add₀ (by norm_num : (2 : ℚ) ≠ 0)]
    congr 1
    ring
  have hdiv : x / (2 : ℚ) ^ (e - 52) ≤ ((2 ^ 53 : ℤ) : ℚ) := by
    rw [div_le_iff₀ hupos, ← htop]
    exact le_of_lt hlt
  have hr := roundHalfEven_le _ _ hdiv
  have hrq : (roundHalfEven (x / (2 : ℚ) ^ (e - 52)) : ℚ) ≤ ((2 ^ 53 : ℤ) : ℚ) := by
    exact_mod_cast hr
  rw [rndQ, if_neg (ne_of_gt hx), hu, htop]
  exact mul_le_mul_of_nonneg_right hrq (le_of_lt hupos)

/-- Rounding stays at or above the bottom of a normal binade. -/
theorem zpow_le_rndQ (y : ℚ) (hy : 0 < y) (hnorm : -1022 ≤ Int.log 2 |y|) :
    (2 : ℚ) ^ (max (Int.log 2 |y|) (-1022)) ≤ rndQ y := by
  have hmax : max (Int.log 2 |y|) (-1022) = Int.log 2 |y| := max_eq_left hnorm
  have hlo : (2 : ℚ) ^ (Int.log 2 |y|) ≤ y := by
    rw [abs_of_pos hy]
    have := Int.zpow_log_le_self (R := ℚ) (b := 2) (by norm_num) hy
    simpa using this
  have hu : ulp y = (2 : ℚ) ^ (Int.log 2 |y| - 52) := by rw [ulp, hmax]
  rw [hmax]
  generalize Int.log 2 |y| = e at hlo hu ⊢
  have hupos : (0 : ℚ) < (2 : ℚ) ^ (e - 52) := by positivity
  have hbot : (2 : ℚ) ^ e = ((2 ^ 52 : ℤ) : ℚ) * (2 : ℚ) ^ (e - 52) := by
    have : ((2 ^ 52 : ℤ) : ℚ) = (2 : ℚ) ^ (52 : ℤ) := by norm_num
    rw [this, ← zpow_add₀ (by norm_num : (2 : ℚ) ≠ 0)]
    congr 1
    ring
  have hdiv : ((2 ^ 52 : ℤ) : ℚ) ≤ y / (2 : ℚ) ^ (e - 52) := by
    rw [le_div_iff₀ hupos, ← hbot]
    exact hlo
  have hr := le_roundHalfEven _ _ hdiv
  have hrq : ((2 ^ 52 : ℤ) : ℚ) ≤ (roundHalfEven (y / (2 : ℚ) ^ (e - 52)) : ℚ) := by
    exact_mod_cast hr
  rw [rndQ, if_neg (ne_of_gt hy), hu, hbot]
  exact mul_le_mul_of_nonneg_right hrq (le_of_lt hupos)

/-- Rounding a non-negative value gives a non-negative value. -/
theorem rndQ_nonneg (x : ℚ) (hx : 0 ≤ x) : 0 ≤ rndQ x := by
  rcases eq_or_lt_of_le hx with h0 | hpos
  · rw [← h0, rndQ_zero]
  · have hu := ulp_pos x
    have h := le_roundHalfEven 0 (x / ulp x) (by simpa using div_nonneg hx (le_of_lt hu))
    have hq : (0 : ℚ) ≤ (roundHalfEven (x / ulp x) : ℚ) := by exact_mod_cast h
    rw [rndQ, if_neg (ne_of_gt hpos)]
    exact mul_nonneg hq (le_of_lt hu)

/-- Rounding to binary64 is monotone on the non-negative rationals. -/
theorem rndQ_mono (x y : ℚ) (hx : 0 ≤ x) (h : x ≤ y) : rndQ x ≤ rndQ y := by
  rcases eq_or_lt_of_le hx with h0 | hpos
  · rw [← h0, rndQ_zero]
    exact rndQ_nonneg y (le_trans hx h)
  · have hy : 0 < y := lt_of_lt_of_le hpos h
    have hlog : Int.log 2 |x| ≤ Int.log 2 |y| := by
      rw [abs_of_pos hpos, abs_of_pos hy]
      exact Int.log_mono_right hpos h
    have hexp : max (Int.log 2 |x|) (-1022) ≤ max (Int.log 2 |y|) (-1022) :=
      max_le_max hlog (le_refl _)
    rcases lt_or_eq_of_le hexp with hlt | heq
    · have hnorm : -1022 ≤ Int.log 2 |y| := by
        by_contra hcon
        have h1 : max (Int.log 2 |y|) (-1022) = -1022 := max_eq_right (by omega)
        have h2 : -1022 ≤ max (Int.log 2 |x|) (-1022) := le_max_right _ _
        omega
      calc rndQ x ≤ (2 : ℚ) ^ (max (Int.log 2 |x|) (-1022) + 1) := rndQ_le_zpow x hpos
        _ ≤ (2 : ℚ) ^ (max (Int.log 2 |y|) (-1022)) :=
            zpow_le_zpow_right₀ (by norm_num) (by omega)
        _ ≤ rndQ y := zpow_le_rndQ y hy hnorm
    · have hu : ulp x = ulp y := by rw [ulp, ulp, heq]
      have hupos := ulp_pos y
      have hdiv : x / ulp y ≤ y / ulp y := div_le_div_of_nonneg_right h (le_of_lt hupos)
      have hr := roundHalfEven_mono _ _ hdiv
      have hrq : (roundHalfEven (x / ulp y) : ℚ) ≤ (roundHalfEven (y / ulp y) : ℚ) := by
        exact_mod_cast hr
      rw [rndQ, rndQ, if_neg (ne_of_gt hpos), if_neg (ne_of_gt hy), hu]
      exact mul_le_mul_of_nonneg_right hrq (le_of_lt hupos)

/-- The rounded result of a larger non-negative value is not smaller, in the order
of `float64`. -/
theorem round_mono (x y : ℚ) (hx : 0 ≤ x) (h : x ≤ y) : le (round x) (round y) = true := by
  have hm := rndQ_mono x y hx h
  have h0 := rndQ_nonneg x hx
  have hbig : (0 : ℚ) < (2 : ℚ) ^ (1024 : ℕ) := by positivity
  have hx2 : ¬ rndQ x ≤ -(2 : ℚ) ^ (1024 : ℕ) := by
    intro hc
    linarith
  have hy2 : ¬ rndQ y ≤ -(2 : ℚ) ^ (1024 : ℕ) := by
    intro hc
    linarith
  unfold round
  simp only []
  by_cases hyb : (2 : ℚ) ^ (1024 : ℕ) ≤ rndQ y
  · rw [if_pos hyb]
    by_cases hxb : (2 : ℚ) ^ (1024 : ℕ) ≤ rndQ x
    · rw [if_pos hxb]
      rfl
    · rw [if_neg hxb, if_neg hx2]
      rfl
  · have hxb : ¬ (2 : ℚ) ^ (1024 : ℕ) ≤ rndQ x := fun hc => hyb (le_trans hc hm)
    rw [if_neg hyb, if_neg hy2, if_neg hxb, if_neg hx2]
    simp only [le, decide_eq_true_eq]
    exact hm

/-- Rounding does not lift a value that is at most one above one. -/
theorem rndQ_le_one (x : ℚ) (hx0 : 0 ≤ x) (hx : x ≤ 1) : rndQ x ≤ 1 := by
  have h := rndQ_mono x 1 hx0 hx
  have h1 := rndQ_intCast 1 (by norm_num) (by norm_num)
  simp only [Int.cast_one] at h1
  rw [h1] at h
  exact h

/-- For hours and nanoseconds of a duration in range, the quotient `Hours() / 24` is
finite and below `2 ^ 22`: the exact value after the roundings of the fraction of an
hour, of the sum and of the division. -/
theorem hours_div24_eq (hour nsec : ℤ) (h0 : 0 ≤ hour) (h1 : hour < 2562048)
    (h2 : 0 ≤ nsec) (h3 : nsec < 3600000000000) :
    div (add (ofInt hour) (div (ofInt nsec) (finite 3600000000000))) (finite 24)
        = finite (rndQ (rndQ ((hour : ℚ) + rndQ ((nsec : ℚ) / 3600000000000)) / 24)) ∧
      0 ≤ rndQ (rndQ ((hour : ℚ) + rndQ ((nsec : ℚ) / 3600000000000)) / 24) ∧
      rndQ (rndQ ((hour : ℚ) + rndQ ((nsec : ℚ) / 3600000000000)) / 24) < 4194304 := by
  have ha := ofInt_eq_finite hour h0 (by omega)
  have hb := ofInt_eq_finite nsec h2 (by omega)
  have hbig : (4194304 : ℚ) < (2 : ℚ) ^ (1024 : ℕ) := by
    have : (2 : ℚ) ^ (22 : ℕ) < (2 : ℚ) ^ (1024 : ℕ) :=
      pow_lt_pow_right₀ (by norm_num) (by norm_num)
    calc (4194304 : ℚ) = (2 : ℚ) ^ (22 : ℕ) := by norm_num
      _ < (2 : ℚ) ^ (1024 : ℕ) := this
  have hq0 : (0 : ℚ) ≤ hour := by exact_mod_cast h0
  have hq1 : (hour : ℚ) ≤ 2562047 := by
    have : hour ≤ 2562047 := by omega
    exact_mod_cast this
  have hn0 : (0 : ℚ) ≤ nsec := by exact_mod_cast h2
  have hn1 : (nsec : ℚ) ≤ 3599999999999 := by
    have : nsec ≤ 3599999999999 := by omega
    exact_mod_cast this
  have hx0 : (0 : ℚ) ≤ (nsec : ℚ) / 3600000000000 := div_nonneg hn0 (by norm_num)
  have hx1 : (nsec : ℚ) / 3600000000000 ≤ 1 := by
    rw [div_le_one (by norm_num)]
    linarith
  have hc0 : (0 : ℚ) ≤ rndQ ((nsec : ℚ) / 3600000000000) := rndQ_nonneg _ hx0
  have hc1 : rndQ ((nsec : ℚ) / 3600000000000) ≤ 1 := rndQ_le_one _ hx0 hx1
  have hcfin : round ((nsec : ℚ) / 3600000000000)
      = finite (rndQ ((nsec : ℚ) / 3600000000000)) := by
    apply round_eq_finite <;> linarith
  have hs0 : (0 : ℚ) ≤ hour + rndQ ((nsec : ℚ) / 3600000000000) := by linarith
  have hs1 : (hour : ℚ) + rndQ ((nsec : ℚ) / 3600000000000) < (2 : ℚ) ^ ((21 : ℤ) + 1) := by
    norm_num
    linarith
  have hH0 : (0 : ℚ) ≤ rndQ ((hour : ℚ) + rndQ ((nsec : ℚ) / 3600000000000)) :=
    rndQ_nonneg _ hs0
  have hH1 := abs_rndQ_sub_le _ 21 hs0 hs1 (by norm_num)
  rw [abs_le] at hH1
  have e32 : (2 : ℚ) ^ ((21 : ℤ) - 53) = 1 / 4294967296 := by norm_num
  rw [e32] at hH1
  have hHfin : round ((hour : ℚ) + rndQ ((nsec : ℚ) / 3600000000000))
      = finite (rndQ ((hour : ℚ) + rndQ ((nsec : ℚ) / 3600000000000))) := by
    apply round_eq_finite <;> linarith [hH1.1, hH1.2]
  have hd0 : (0 : ℚ) ≤ rndQ ((hour : ℚ) + rndQ ((nsec : ℚ) / 3600000000000)) / 24 :=
    div_nonneg hH0 (by norm_num)
  have hd2 : rndQ ((hour : ℚ) + rndQ ((nsec : ℚ) / 3600000000000)) / 24 < 4194303 := by
    rw [div_lt_iff₀ (by norm_num)]
    linarith [hH1.2]
  have hd1 : rndQ ((hour : ℚ) + rndQ ((nsec : ℚ) / 3600000000000)) / 24
      < (2 : ℚ) ^ ((21 : ℤ) + 1) := by
    have e22 : (2 : ℚ) ^ ((21 : ℤ) + 1) = 4194304 := by norm_num
    rw [e22]
    linarith
  have hQ1 := abs_rndQ_sub_le _ 21 hd0 hd1 (by norm_num)
  rw [abs_le, e32] at hQ1
  have hQlt : rndQ (rndQ ((hour : ℚ) + rndQ ((nsec : ℚ) / 3600000000000)) / 24) < 4194304 := by
    linarith [hQ1.2]
  have hQ0 : (0 : ℚ) ≤ rndQ (rndQ ((hour : ℚ) + rndQ ((nsec : ℚ) / 3600000000000)) / 24) :=
    rndQ_nonneg _ hd0
  have hQfin : round (rndQ ((hour : ℚ) + rndQ ((nsec : ℚ) / 3600000000000)) / 24)
      = finite (rndQ (rndQ ((hour : ℚ) + rndQ ((nsec : ℚ) / 3600000000000)) / 24)) := by
    apply round_eq_finite <;> linarith
  refine ⟨?_, hQ0, hQlt⟩
  rw [ha, hb]
  simp only [div, add, if_neg (by norm_num : ¬ (3600000000000 : ℚ) = 0),
    if_neg (by norm_num : ¬ (24 : ℚ) = 0), hcfin, hHfin, hQfin]

/-- The product of a non-negative rate and a count of nights does not decrease when the
count grows. -/
theorem mul_ofInt_mono (rate : F64) (n1 n2 : ℤ) (hrate : le (finite 0) rate = true)
    (h1 : 1 ≤ n1) (h12 : n1 ≤ n2) (h2 : n2 < 2 ^ 53) :
    le (mul rate (ofInt n1)) (mul rate (ofInt n2)) = true := by
  rw [ofInt_eq_finite n1 (by omega) (by omega), ofInt_eq_finite n2 (by omega) h2]
  have hq1 : (0 : ℚ) < (n1 : ℚ) := by exact_mod_cast (by omega : 0 < n1)
  have hq2 : (0 : ℚ) < (n2 : ℚ) := by exact_mod_cast (by omega : 0 < n2)
  have hq12 : (n1 : ℚ) ≤ (n2 : ℚ) := by exact_mod_cast h12
  cases rate with
  | finite r =>
    have hr : (0 : ℚ) ≤ r := by simpa [le] using hrate
    simp only [mul]
    exact round_mono _ _ (mul_nonneg hr (le_of_lt hq1)) (mul_le_mul_of_nonneg_left hq12 hr)
  | posInf =>
    simp only [mul]
    rw [if_neg (ne_of_gt hq1), if_pos hq1, if_neg (ne_of_gt hq2), if_pos hq2]
    rfl
  | negInf => simp [le] at hrate
  | nan => simp [le] at hrate

/-- The product of a non-negative rate, itself a binary64 value, and a count of at
least one night is not below the rate. -/
theorem le_mul_ofInt (rate : F64) (n : ℤ) (hrate : le (finite 0) rate = true)
    (hval : rate.IsValue) (h1 : 1 ≤ n) (h2 : n < 2 ^ 53) :
    le rate (mul rate (ofInt n)) = true := by
  rw [ofInt_eq_finite n (by omega) h2]
  have hq1 : (1 : ℚ) ≤ (n : ℚ) := by exact_mod_cast h1
  cases rate with
  | finite r =>
    have hr : (0 : ℚ) ≤ r := by simpa [le] using hrate
    have hv : round r = finite r := hval
    have hm := round_mono r (r * n) hr (by nlinarith)
    rw [hv] at hm
    simp only [mul]
    exact hm
  | posInf =>
    simp only [mul]
    rw [if_neg (by linarith), if_pos (by linarith)]
    rfl
  | negInf => simp [le] at hrate
  | nan => simp [le] at hrate

end F64

/-! ## theorems: pricing, longer stays -/

/-- The nights the code counts are at least one. -/
theorem one_le_nightsOf (d : Int) : 1 ≤ nightsOf d := by
  unfold nightsOf
  simp only []
  split <;> omega

/-- For a duration between zero and the largest one, the nights are the whole part, at
least one, of the quotient `Hours() / 24` after its three roundings, and stay below
`2 ^ 22`. -/
theorem nightsOf_eq_floor (d : Int) (h0 : 0 ≤ d) (h1 : d ≤ maxDuration) :
    nightsOf d = max 1 ⌊F64.rndQ (F64.rndQ (((d / 3600000000000 : ℤ) : ℚ)
        + F64.rndQ (((d % 3600000000000 : ℤ) : ℚ) / 3600000000000)) / 24)⌋ ∧
      nightsOf d < 4194304 := by
  have hmax : maxDuration = 9223372036854775807 := by decide
  rw [hmax] at h1
  obtain ⟨heq, hnn, hlt⟩ := F64.hours_div24_eq (d / 3600000000000) (d % 3600000000000)
    (by omega) (by omega) (by omega) (by omega)
  have htd : Int.tdiv d 3600000000000 = d / 3600000000000 :=
    Int.tdiv_eq_ediv h0 (by norm_num)
  have htm : Int.tmod d 3600000000000 = d % 3600000000000 :=
    Int.tmod_eq_emod h0 (by norm_num)
  simp only [nightsOf, Duration.Hours, Hour, htd, htm, heq]
  generalize F64.rndQ (F64.rndQ (((d / 3600000000000 : ℤ) : ℚ)
    + F64.rndQ (((d % 3600000000000 : ℤ) : ℚ) / 3600000000000)) / 24) = Q at hnn hlt ⊢
  have hfl0 : 0 ≤ ⌊Q⌋ := Int.floor_nonneg.2 hnn
  have hfl1 : ⌊Q⌋ < 4194304 := Int.floor_lt.2 (by exact_mod_cast hlt)
  have hti : F64.toInt (F64.finite Q) = ⌊Q⌋ := by
    simp only [F64.toInt]
    rw [if_pos hnn, if_pos ⟨by omega, by omega⟩]
  rw [hti]
  constructor
  · split
    · rw [max_eq_left (by omega)]
    · rw [max_eq_right (by omega)]
  · split <;> omega

/-- A longer duration never counts fewer nights. -/
theorem nightsOf_mono (d1 d2 : Int) (h0 : 0 ≤ d1) (h12 : d1 ≤ d2) (h2 : d2 ≤ maxDuration) :
    nightsOf d1 ≤ nightsOf d2 := by
  rw [(nightsOf_eq_floor d1 h0 (le_trans h12 h2)).1,
    (nightsOf_eq_floor d2 (le_trans h0 h12) h2).1]
  apply max_le_max (le_refl _)
  apply Int.floor_mono
  have hfrac : ∀ d : Int,
      (0 : ℚ) ≤ ((d % 3600000000000 : ℤ) : ℚ) / 3600000000000 ∧
      0 ≤ F64.rndQ (((d % 3600000000000 : ℤ) : ℚ) / 3600000000000) ∧
      F64.rndQ (((d % 3600000000000 : ℤ) : ℚ) / 3600000000000) ≤ 1 := by
    intro d
    have hm0 : 0 ≤ d % 3600000000000 := Int.emod_nonneg _ (by norm_num)
    have hm1 : d % 3600000000000 ≤ 3600000000000 :=
      le_of_lt (Int.emod_lt_of_pos _ (by norm_num))
    have hq0 : (0 : ℚ) ≤ ((d % 3600000000000 : ℤ) : ℚ) := by exact_mod_cast hm0
    have hq1 : ((d % 3600000000000 : ℤ) : ℚ) ≤ 3600000000000 := by exact_mod_cast hm1
    have hx0 : (0 : ℚ) ≤ ((d % 3600000000000 : ℤ) : ℚ) / 3600000000000 :=
      div_nonneg hq0 (by norm_num)
    refine ⟨hx0, F64.rndQ_nonneg _ hx0, F64.rndQ_le_one _ hx0 ?_⟩
    rw [div_le_one (by norm_num)]
    exact hq1
  have hsum : ((d1 / 3600000000000 : ℤ) : ℚ)
        + F64.rndQ (((d1 % 3600000000000 : ℤ) : ℚ) / 3600000000000)
      ≤ ((d2 / 3600000000000 : ℤ) : ℚ)
        + F64.rndQ (((d2 % 3600000000000 : ℤ) : ℚ) / 3600000000000) := by
    have hdiv : d1 / 3600000000000 ≤ d2 / 3600000000000 := by omega
    rcases lt_or_eq_of_le hdiv with hlt | heq
    · have hlt2 : d1 / 3600000000000 + 1 ≤ d2 / 3600000000000 := by omega
      have hq : ((d1 / 3600000000000 : ℤ) : ℚ) + 1 ≤ ((d2 / 3600000000000 : ℤ) : ℚ) := by
        exact_mod_cast hlt2
      linarith [(hfrac d1).2.2, (hfrac d2).2.1]
    · have hmod : d1 % 3600000000000 ≤ d2 % 3600000000000 := by omega
      have hq : ((d1 % 3600000000000 : ℤ) : ℚ) ≤ ((d2 % 3600000000000 : ℤ) : ℚ) := by
        exact_mod_cast hmod
      have hm := F64.rndQ_mono _ _ (hfrac d1).1
        (div_le_div_of_nonneg_right hq (by norm_num : (0 : ℚ) ≤ 3600000000000))
      rw [heq]
      linarith
  have hh0 : (0 : ℚ) ≤ ((d1 / 3600000000000 : ℤ) : ℚ) := by
    have : 0 ≤ d1 / 3600000000000 := by omega
    exact_mod_cast this
  have hs0 : (0 : ℚ) ≤ ((d1 / 3600000000000 : ℤ) : ℚ)
      + F64.rndQ (((d1 % 3600000000000 : ℤ) : ℚ) / 3600000000000) :=
    add_nonneg hh0 (hfrac d1).2.1
  have hH := F64.rndQ_mono _ _ hs0 hsum
  have hH0 := F64.rndQ_nonneg _ hs0
  exact F64.rndQ_mono _ _ (div_nonneg hH0 (by norm_num))
    (div_le_div_of_nonneg_right hH (by norm_num))

/-- The saturated difference to a fixed earlier instant is non-negative, within the
range of `Duration`, and grows with the later instant. -/
theorem Time.Sub_mono (u c1 c2 : Time) (h1 : u.unixNano ≤ c1.unixNano)
    (h12 : c1.unixNano ≤ c2.unixNano) :
    0 ≤ c1.Sub u ∧ c1.Sub u ≤ c2.Sub u ∧ c2.Sub u ≤ maxDuration := by
  have hmax : maxDuration = 9223372036854775807 := by decide
  have hmin : minDuration = -9223372036854775808 := by decide
  simp only [Time.Sub, hmax, hmin]
  split_ifs <;> omega

/-- C30: for a fixed check-in and a fixed nightly rate that is a non-negative `float64`
value (an infinite rate included), and two check-outs `c1 ≤ c2` that pass the date
check, the total `CreateBooking` computes for `c1` is at most the total it computes
for `c2`, and the total for `c1` is not below the rate of one night. -/
theorem CreateBooking_total_monotone (uc : BookingUseCase) (rt1 rt2 : Runtime) (b : Booking)
    (c1 c2 : Time) (rate : F64)
    (hprice : uc.hotelClient.GetRoomPrice b.HotelID b.RoomID = .ok rate)
    (hrate : F64.le (F64.finite 0) rate = true) (hval : rate.IsValue)
    (hvalid : b.CheckInDate.After c1 = false) (h12 : c1.unixNano ≤ c2.unixNano) :
    F64.le (uc.CreateBooking rt1 { b with CheckOutDate := c1 }).booking.TotalPrice
        (uc.CreateBooking rt2 { b with CheckOutDate := c2 }).booking.TotalPrice = true ∧
      F64.le rate (uc.CreateBooking rt1 { b with CheckOutDate := c1 }).booking.TotalPrice
        = true := by
  have hci : b.CheckInDate.unixNano ≤ c1.unixNano := by
    simp only [Time.After, decide_eq_false_iff_not, not_lt] at hvalid
    exact hvalid
  have hd2 : b.CheckInDate.After c2 = false := by
    simp only [Time.After, decide_eq_false_iff_not, not_lt]
    omega
  have t1 : (uc.CreateBooking rt1 { b with CheckOutDate := c1 }).booking.TotalPrice
      = F64.mul rate (F64.ofInt (nightsOf (c1.Sub b.CheckInDate))) :=
    (CreateBooking_total_of_nights uc rt1 { b with CheckOutDate := c1 } rate hvalid hprice).1
  have t2 : (uc.CreateBooking rt2 { b with CheckOutDate := c2 }).booking.TotalPrice
      = F64.mul rate (F64.ofInt (nightsOf (c2.Sub b.CheckInDate))) :=
    (CreateBooking_total_of_nights uc rt2 { b with CheckOutDate := c2 } rate hd2 hprice).1
  rw [t1, t2]
  obtain ⟨hs0, hs12, hs2⟩ := Time.Sub_mono b.CheckInDate c1 c2 hci h12
  have hn := nightsOf_mono _ _ hs0 hs12 hs2
  have hn1 := one_le_nightsOf (c1.Sub b.CheckInDate)
  have hb1 := (nightsOf_eq_floor _ hs0 (le_trans hs12 hs2)).2
  have hb2 := (nightsOf_eq_floor _ (le_trans hs0 hs12) hs2).2
  have hlt1 : nightsOf (c1.Sub b.CheckInDate) < 2 ^ 53 := by omega
  have hlt2 : nightsOf (c2.Sub b.CheckInDate) < 2 ^ 53 := by omega
  exact ⟨F64.mul_ofInt_mono rate _ _ hrate hn1 hn hlt2,
    F64.le_mul_ofInt rate _ hrate hval hn1 hlt1⟩

/-- A rate of 5000 from a check-in at instant zero: a check-out after two days and one
after three days both pass the date check, the first total is at most the second, and
the first total is not below 5000. -/
theorem CreateBooking_total_monotone_witness :
    F64.le (F64.finite 0) (F64.finite 5000) = true ∧ (F64.finite 5000).IsValue ∧
      (bookingBetween 0 (24 * Hour)).CheckInDate.After ⟨48 * Hour⟩ = false ∧
      (⟨48 * Hour⟩ : Time).unixNano ≤ (⟨72 * Hour⟩ : Time).unixNano ∧
      F64.le
        ((okUseCase 5000).CreateBooking sampleRuntime
          { bookingBetween 0 (24 * Hour) with CheckOutDate := ⟨48 * Hour⟩ }).booking.TotalPrice
        ((okUseCase 5000).CreateBooking sampleRuntime
          { bookingBetween 0 (24 * Hour) with CheckOutDate := ⟨72 * Hour⟩ }).booking.TotalPrice
        = true ∧
      F64.le (F64.finite 5000)
        ((okUseCase 5000).CreateBooking sampleRuntime
          { bookingBetween 0 (24 * Hour) with CheckOutDate := ⟨48 * Hour⟩ }).booking.TotalPrice
        = true :=
  have hle : F64.le (F64.finite 0) (F64.finite 5000) = true := by
    simp only [F64.le, decide_eq_true_eq]
    norm_num
  have hv : (F64.finite 5000).IsValue := by
    have h := F64.ofInt_eq_finite 5000 (by norm_num) (by norm_num)
    rw [F64.ofInt] at h
    simp only [Int.cast_ofNat] at h
    exact h
  have h := CreateBooking_total_monotone (okUseCase 5000) sampleRuntime sampleRuntime
    (bookingBetween 0 (24 * Hour)) ⟨48 * Hour⟩ ⟨72 * Hour⟩ (F64.finite 5000) rfl hle hv
    (by decide) (by decide)
  ⟨hle, hv, by decide, by decide, h.1, h.2⟩

end HotelBooking
